import Mathlib

/-!
# go-leafspycsv: the row decoder `DataLine.Marshal`

A shallow embedding of `src/cmd/go-leafspycsv/dataline.go`.

* Go's `int` is the 64-bit signed integer of amd64/arm64: a Lean `Int` kept in
  `[-2^63, 2^63)`, with `wrapInt` applied where Go arithmetic can overflow.
* `float64` is an IEEE-754 binary64 datum (`Float64`), with correctly rounded
  division.
* `strconv.Atoi`, `strconv.ParseBool` and `strconv.ParseFloat` are modelled in full
  (`Atoi`, `ParseBool`, `ParseFloat`).
* The theorems about `Marshal` hold for every time parser, location parser and float
  parser: `time.Parse`, the repository's `parseLocation` (whose source is not part of
  the verified files) and the float parser are parameters, collected in `Lib`. The
  concrete library `sampleLib` has `ParseFloat` for its float parser.
* `Marshal` mutates its receiver and may return early: it is a function from the
  receiver's record and the row to the record after the call and the returned
  error.  Its body is the list of the source's statements, run in order.
* The conversions `CtoF` and `FtoC`, of which only the tests are among the verified
  files, are modelled over the rationals from their formulas.
-/

namespace LeafSpy

set_option maxRecDepth 100000
set_option maxHeartbeats 1000000

/-! ## Errors -/

/-- The two sentinel errors of package `strconv`. -/
inductive NumErrKind
  | ErrSyntax
  | ErrRange
  deriving DecidableEq, Repr

/-- Go `error` values that `Marshal` can return, compared by content. -/
inductive Error
  /-- An `errors.New(text)` value. -/
  | errorString (text : String)
  /-- A `*strconv.NumError`. -/
  | numError (Func Num : String) (Err : NumErrKind)
  /-- A `*time.ParseError`. -/
  | parseError (Layout Value LayoutElem ValueElem Message : String)
  deriving DecidableEq, Repr

/-! ## Go `int` -/

/-- Two's-complement wrap-around of a mathematical integer into Go's 64-bit `int`. -/
def wrapInt (z : Int) : Int := (z + 2 ^ 63) % 2 ^ 64 - 2 ^ 63

/-- The values a Go `int` can hold. -/
def InIntRange (z : Int) : Prop := -(2 ^ 63) ≤ z ∧ z < 2 ^ 63

instance (z : Int) : Decidable (InIntRange z) := by
  unfold InIntRange; infer_instance

/-! ## `strconv.Atoi` and `strconv.ParseBool` -/

/-- The test `'0' <= c && c <= '9'`. -/
def isDigit (c : Char) : Bool := decide ('0'.toNat ≤ c.toNat) && decide (c.toNat ≤ '9'.toNat)

/-- The digit loop of `strconv.ParseUint(s, 10, 64)`: a character that is not a
decimal digit stops with `ErrSyntax` and value 0; a value that leaves 64 bits stops
with `ErrRange` and the value `2^64 - 1`. -/
def parseUintLoop : List Char → Nat → Nat × Option NumErrKind
  | [], n => (n, none)
  | c :: cs, n =>
    if !isDigit c then (0, some .ErrSyntax)
    else if n ≥ (2 ^ 64 - 1) / 10 + 1 then (2 ^ 64 - 1, some .ErrRange)
    else
      let n1 := n * 10 + (c.toNat - '0'.toNat)
      if n1 > 2 ^ 64 - 1 then (2 ^ 64 - 1, some .ErrRange) else parseUintLoop cs n1

/-- Go's `strconv.Atoi`: an optional sign, then one or more decimal digits. The
result is the value and the error; on a syntax error the value is 0, on a range
error it is the nearest bound of `int`. (Atoi's fast path for short strings
computes the same results as `ParseInt(s, 10, 0)`, which this follows.) -/
def Atoi (s : String) : Int × Option Error :=
  let cs := s.toList
  let neg : Bool := cs.head? == some '-'
  let digits : List Char :=
    match cs with
    | '+' :: r => r
    | '-' :: r => r
    | _ => cs
  if digits.isEmpty then (0, some (.numError "Atoi" s .ErrSyntax))
  else
    match parseUintLoop digits 0 with
    | (_, some .ErrSyntax) => (0, some (.numError "Atoi" s .ErrSyntax))
    | (un, _) =>
      if !neg && un ≥ 2 ^ 63 then (2 ^ 63 - 1, some (.numError "Atoi" s .ErrRange))
      else if neg && un > 2 ^ 63 then (-(2 ^ 63), some (.numError "Atoi" s .ErrRange))
      else (if neg then -(un : Int) else (un : Int), none)

/-- Go's `strconv.ParseBool`. -/
def ParseBool (str : String) : Bool × Option Error :=
  if str = "1" ∨ str = "t" ∨ str = "T" ∨ str = "true" ∨ str = "TRUE" ∨ str = "True" then
    (true, none)
  else if str = "0" ∨ str = "f" ∨ str = "F" ∨ str = "false" ∨ str = "FALSE" ∨ str = "False" then
    (false, none)
  else (false, some (.numError "ParseBool" str .ErrSyntax))

/-! ## `float64` -/

/-- An IEEE-754 binary64 datum: a NaN, a signed infinity, or the finite number
`(-1)^neg * m * 2^e`. -/
inductive Float64
  | nan
  | inf (neg : Bool)
  | fin (neg : Bool) (m : Nat) (e : Int)
  deriving DecidableEq, Repr

namespace Float64

/-- The signed zero. -/
def zero (neg : Bool) : Float64 := .fin neg 0 0

/-- Number of binary digits of `n`, with `fuel` steps available. -/
def bitLenAux : Nat → Nat → Nat
  | 0, _ => 0
  | fuel + 1, n => if n = 0 then 0 else bitLenAux fuel (n / 2) + 1

/-- Number of binary digits of `n` (0 for 0). -/
def bitLen (n : Nat) : Nat := bitLenAux n n

/-- The binary64 number nearest to `(-1)^neg * num / den` (ties to even), for
`num, den > 0`: the result is `m * 2^e` with `m < 2^53`, `e ≥ -1074`, and
`m ≥ 2^52` unless `e = -1074`; values past the largest finite number give an
infinity. -/
def roundNearestEven (neg : Bool) (num den : Nat) : Float64 :=
  let l : Int := (bitLen num : Int) - (bitLen den : Int)
  let scaledLE : Bool :=
    if l < 0 then decide (den ≤ num * 2 ^ (-l).toNat) else decide (den * 2 ^ l.toNat ≤ num)
  let e0 : Int := if scaledLE then l else l - 1
  let e : Int := max (e0 - 52) (-1074)
  let a : Nat := if e < 0 then num * 2 ^ (-e).toNat else num
  let b : Nat := if e < 0 then den else den * 2 ^ e.toNat
  let q := a / b
  let r := a % b
  let m : Nat :=
    if 2 * r < b then q else if b < 2 * r then q + 1 else if q % 2 = 0 then q else q + 1
  if m = 0 then zero neg
  else if m = 2 ^ 53 then (if e + 1 > 971 then .inf neg else .fin neg (2 ^ 52) (e + 1))
  else if e > 971 then .inf neg
  else .fin neg m e

/-- The conversion of an integer constant to `float64`. -/
def ofNat (n : Nat) : Float64 := if n = 0 then zero false else roundNearestEven false n 1

/-- IEEE-754 division `x / y` of Go's `float64`, rounded to nearest, ties to even. -/
def div : Float64 → Float64 → Float64
  | .nan, _ => .nan
  | _, .nan => .nan
  | .inf _, .inf _ => .nan
  | .inf s, .fin t _ _ => .inf (xor s t)
  | .fin s _ _, .inf t => zero (xor s t)
  | .fin s m e, .fin t n f =>
    if n = 0 then (if m = 0 then .nan else .inf (xor s t))
    else if m = 0 then zero (xor s t)
    else
      let num : Nat := m * 2 ^ (e - f).toNat
      let den : Nat := n * 2 ^ (f - e).toNat
      roundNearestEven (xor s t) num den

end Float64

/-! ## `strconv.ParseFloat`

The functions of `strconv/atof.go` behind `ParseFloat(s, 64)`. Go reads the string
byte by byte; here it is read character by character, and a character outside ASCII
stops every loop, as each of its bytes does in Go. -/

/-- The byte `c | ('x' - 'X')` of strconv's `lower`: bit 5 of the character code set. -/
def lower (c : Char) : Nat := if c.toNat / 32 % 2 = 0 then c.toNat + 32 else c.toNat

/-- The function `commonPrefixLenIgnoreCase(s, prefix)` of strconv, for a lower-case
`prefix`: the length of the longest prefix of `s` that matches, upper-case letters
of `s` counting as their lower-case form. -/
def commonPrefixLenIgnoreCase : List Char → List Char → Nat
  | c :: s, p :: pre =>
    let c1 : Nat :=
      if 'A'.toNat ≤ c.toNat ∧ c.toNat ≤ 'Z'.toNat then c.toNat + ('a'.toNat - 'A'.toNat)
      else c.toNat
    if c1 ≠ p.toNat then 0 else commonPrefixLenIgnoreCase s pre + 1
  | _, _ => 0

/-- The function `special` of strconv: an optionally signed `inf` or `infinity`, or
`nan`, in any case, at the start of `s`. The result is the value and the number of
characters read. -/
def special (s : List Char) : Option (Float64 × Nat) :=
  let infinity (sign : Bool) (nsign : Nat) (t : List Char) : Option (Float64 × Nat) :=
    let n := commonPrefixLenIgnoreCase t "infinity".toList
    let n := if 3 < n ∧ n < 8 then 3 else n
    if n = 3 ∨ n = 8 then some (.inf sign, nsign + n) else none
  match s with
  | [] => none
  | c :: t =>
    if c = '+' ∨ c = '-' then infinity (c = '-') 1 t
    else if c = 'i' ∨ c = 'I' then infinity false 0 s
    else if c = 'n' ∨ c = 'N' then
      (if commonPrefixLenIgnoreCase s "nan".toList = 3 then some (.nan, 3) else none)
    else none

/-- The variables of the digit loop of strconv's `readFloat`. The mantissa keeps every
digit read (Go keeps the first 19, or 16 hexadecimal ones, and a flag `trunc` that
tells whether a dropped digit was non-zero, from which its conversions round as from
the full digit string), so `nd` is also its number of digits. -/
structure Digits where
  sawdot : Bool
  sawdigits : Bool
  nd : Nat
  dp : Int
  mantissa : Nat
  underscores : Bool

/-- The digit loop of `readFloat`: underscores, one `.`, decimal digits and, with the
base 16, the letters `a` to `f` in either case; leading zeros are not counted. The
result is the state at the first character that stops the loop, and the unread
characters. -/
def readDigits (base : Nat) : List Char → Digits → Digits × List Char
  | [], d => (d, [])
  | c :: cs, d =>
    if c = '_' then readDigits base cs { d with underscores := true }
    else if c = '.' then
      if d.sawdot then (d, c :: cs)
      else readDigits base cs { d with sawdot := true, dp := d.nd }
    else if isDigit c then
      if c = '0' ∧ d.nd = 0 then readDigits base cs { d with sawdigits := true, dp := d.dp - 1 }
      else
        readDigits base cs
          { d with sawdigits := true, nd := d.nd + 1,
                   mantissa := d.mantissa * base + (c.toNat - '0'.toNat) }
    else if base = 16 ∧ 'a'.toNat ≤ lower c ∧ lower c ≤ 'f'.toNat then
      readDigits base cs
        { d with sawdigits := true, nd := d.nd + 1,
                 mantissa := d.mantissa * 16 + (lower c - 'a'.toNat + 10) }
    else (d, c :: cs)

/-- The exponent loop of `readFloat`: decimal digits and underscores; the exponent
stops growing once it has reached 10000. The result is the exponent, whether an
underscore was read, and the unread characters. -/
def readExponent : List Char → Nat → Bool → Nat × Bool × List Char
  | [], e, u => (e, u, [])
  | c :: cs, e, u =>
    if c = '_' then readExponent cs e true
    else if isDigit c then
      readExponent cs (if e < 10000 then e * 10 + (c.toNat - '0'.toNat) else e) u
    else (e, u, c :: cs)

/-- The loop of strconv's `underscoreOK`. The state `saw` is the kind of the last
character: `'^'` for the beginning, `'0'` for a digit or a base prefix, `'_'` for an
underscore, `'!'` for anything else. -/
def underscoreLoop (hex : Bool) : List Char → Char → Bool
  | [], saw => saw != '_'
  | c :: cs, saw =>
    if isDigit c || (hex && decide ('a'.toNat ≤ lower c ∧ lower c ≤ 'f'.toNat)) then
      underscoreLoop hex cs '0'
    else if c = '_' then (if saw != '0' then false else underscoreLoop hex cs '_')
    else if saw = '_' then false
    else underscoreLoop hex cs '!'

/-- The function `underscoreOK` of strconv: after an optional sign and an optional
base prefix (`0b`, `0o` or `0x`, which counts as a digit), an underscore is only
allowed between two digits. -/
def underscoreOK (s : List Char) : Bool :=
  let s1 : List Char :=
    match s with
    | '-' :: t => t
    | '+' :: t => t
    | _ => s
  let pre : Bool :=
    match s1 with
    | '0' :: c :: _ => decide (lower c = 'b'.toNat ∨ lower c = 'o'.toNat ∨ lower c = 'x'.toNat)
    | _ => false
  let hex : Bool :=
    match s1 with
    | '0' :: c :: _ => decide (lower c = 'x'.toNat)
    | _ => false
  if pre then underscoreLoop hex (s1.drop 2) '0' else underscoreLoop hex s1 '^'

/-- The results of strconv's `readFloat`: the number read is
`(-1)^neg * mantissa * 10^exp`, or `(-1)^neg * mantissa * 2^exp` when `hex` is set;
`rest` is the unread part `s[i:]` of the string, and `ok` tells whether a number was
read. -/
structure ReadFloat where
  mantissa : Nat
  exp : Int
  neg : Bool
  hex : Bool
  rest : List Char
  ok : Bool

/-- The function `readFloat` of strconv: an optional sign, an optional `0x` prefix,
digits with at most one `.`, and an exponent, which is optional for a decimal number
and required (with the letter `p`) for a hexadecimal one. -/
def readFloat (s : List Char) : ReadFloat :=
  match s with
  | [] => ⟨0, 0, false, false, s, false⟩
  | c0 :: t0 =>
    let neg : Bool := c0 = '-'
    let s1 : List Char := if c0 = '+' ∨ c0 = '-' then t0 else s
    let hex : Bool :=
      match s1 with
      | '0' :: c :: _ :: _ => decide (lower c = 'x'.toNat)
      | _ => false
    let base : Nat := if hex then 16 else 10
    let expChar : Nat := if hex then 'p'.toNat else 'e'.toNat
    let s2 : List Char := if hex then s1.drop 2 else s1
    let (d, s3) := readDigits base s2 ⟨false, false, 0, 0, 0, false⟩
    if !d.sawdigits then ⟨0, 0, neg, hex, s3, false⟩
    else
      let dp0 : Int := if d.sawdot then d.dp else d.nd
      let dp1 : Int := if hex then dp0 * 4 else dp0
      let ndMant : Int := if hex then (d.nd : Int) * 4 else d.nd
      let fail (r : List Char) : ReadFloat := ⟨d.mantissa, 0, neg, hex, r, false⟩
      let finish (dp : Int) (underscores : Bool) (r : List Char) : ReadFloat :=
        if underscores && !underscoreOK (s.take (s.length - r.length)) then fail r
        else ⟨d.mantissa, if d.mantissa ≠ 0 then dp - ndMant else 0, neg, hex, r, true⟩
      match s3 with
      | c :: t =>
        if lower c = expChar then
          match t with
          | [] => fail t
          | c1 :: t1 =>
            let esign : Int := if c1 = '-' then -1 else 1
            let s4 : List Char := if c1 = '+' ∨ c1 = '-' then t1 else t
            match s4 with
            | [] => fail s4
            | c2 :: _ =>
              if !isDigit c2 then fail s4
              else
                let (e, u, s5) := readExponent s4 0 d.underscores
                finish (dp1 + (e : Int) * esign) u s5
        else if hex then fail s3
        else finish dp1 d.underscores s3
      | [] => if hex then fail s3 else finish dp1 d.underscores s3

/-- The function `atof64` of strconv: the value, the unread part of the string and
the kind of the error. A number that `readFloat` has read is converted to the nearest
binary64 value, ties to even, which is what Go's conversions compute (for a decimal
number of at most 800 digits); a value that rounds past the largest finite number is
an infinity with `ErrRange`. -/
def atof64 (s : List Char) : Float64 × List Char × Option NumErrKind :=
  match special s with
  | some (val, n) => (val, s.drop n, none)
  | none =>
    let r := readFloat s
    if !r.ok then (Float64.zero false, r.rest, some .ErrSyntax)
    else
      let b : Nat := if r.hex then 2 else 10
      let f : Float64 :=
        if r.mantissa = 0 then Float64.zero r.neg
        else if r.exp < 0 then Float64.roundNearestEven r.neg r.mantissa (b ^ (-r.exp).toNat)
        else Float64.roundNearestEven r.neg (r.mantissa * b ^ r.exp.toNat) 1
      match f with
      | .inf sg => (.inf sg, r.rest, some .ErrRange)
      | v => (v, r.rest, none)

/-- Go's `strconv.ParseFloat(s, 64)`: the value of `atof64` and its error, or a syntax
error with the value 0 when part of the string is left unread. -/
def ParseFloat (s : String) : Float64 × Option Error :=
  match atof64 s.toList with
  | (f, rest, err) =>
    if !rest.isEmpty && err != some .ErrSyntax then
      (Float64.zero false, some (.numError "ParseFloat" s .ErrSyntax))
    else (f, err.map (fun kind => .numError "ParseFloat" s kind))

/-! ## External collaborators -/

/-- The functions `Marshal` calls that the general theorems leave open: `time.Parse`,
`strconv.ParseFloat(s, 64)` and the repository's `parseLocation`, with the types
`time.Time` and `Location` of their results. Each returns its value together with
its error, as in Go. -/
structure Lib where
  /-- Go's `time.Time`. -/
  Time : Type
  /-- The repository's `Location`. -/
  Location : Type
  /-- The call `time.Parse(layout, value)`. -/
  timeParse : String → String → Time × Option Error
  /-- The call `parseLocation(lat, long, elv)`. -/
  parseLocation : String → String → String → Location × Option Error
  /-- The call `strconv.ParseFloat(s, 64)`. -/
  ParseFloat : String → Float64 × Option Error

/-! ## The data model -/

/-- A Go `map[int]int`: an association list with at most one entry per key. -/
abbrev GoMap := List (Int × Int)

namespace GoMap

/-- The statement `m[k] = v`. -/
def set (m : GoMap) (k v : Int) : GoMap := (k, v) :: m.filter (fun p => p.1 ≠ k)

/-- The lookup `v, ok := m[k]`. -/
def get? (m : GoMap) (k : Int) : Option Int := (m.find? (fun p => p.1 = k)).map (fun p => p.2)

/-- The keys of the map. -/
def keys (m : GoMap) : List Int := m.map (fun p => p.1)

/-- The builtin `len(m)`. -/
def len (m : GoMap) : Nat := m.length

end GoMap

/-- The struct `DataLine`: a single line in LeafSpy's CSV logfile. -/
structure DataLine (L : Lib) where
  DateTime : L.Time
  Loc : L.Location
  Speed : Int
  Gids : Int
  SOC : Int
  AHr : Int
  PackVolts : Float64
  PackAmps : Float64
  MaxCP : Int
  MinCP : Int
  AvgCP : Int
  DiffCP : Int
  Judgment : Int
  PackT1F : Float64
  PackT1C : Float64
  PackT2F : Float64
  PackT2C : Float64
  PackT3F : Float64
  PackT3C : Float64
  PackT4F : Float64
  PackT4C : Float64
  CP : GoMap
  Bat12VAmp : Float64
  VIN : String
  Hx : Float64
  Bat12VVolt : Float64
  OdoKm : Float64
  QC : Int
  L1L2 : Int
  TPFL : Float64
  TPFR : Float64
  TPRR : Float64
  TPRL : Float64
  AmbientF : Float64
  SOH : Float64
  RegenWh : Int
  BLevel : Int
  EpochTime : Float64
  MotorPwr : Int
  AuxPwr : Int
  ACPwr : Int
  ACComp : Int
  EstPwrAC : Int
  EstPwrHtr : Int
  PlugState : Int
  ChargeMode : Int
  OBCOutPwr : Int
  Gear : Int
  HVolt1 : Float64
  HVolt2 : Float64
  GPSStatus : String
  PowerSW : Bool
  BMS : Bool
  OBC : Bool
  Debug : String
  MotorTemp : Int
  Inverter2 : Int
  Inverter4 : Int
  Speed1 : Float64
  Speed2 : Float64
  WiperStatus : String
  TorqueNm : Float64

/-! ## Statements -/

/-- The variables of a running call of `Marshal`: the record behind the receiver
`line` and the named result `err`. -/
structure Frame (L : Lib) where
  line : DataLine L
  err : Option Error

/-- What a statement does to the call: go on to the next statement, or return
(the returned error is then the frame's `err`). -/
inductive Flow (L : Lib)
  | next (s : Frame L)
  | ret (s : Frame L)

/-- The frame a statement leaves. -/
def Flow.frame {L : Lib} : Flow L → Frame L
  | .next s => s
  | .ret s => s

/-- A statement of the body of `Marshal`. -/
abbrev Stmt (L : Lib) := Frame L → Flow L

/-- Runs statements in order until one returns. -/
def run {L : Lib} : List (Stmt L) → Frame L → Flow L
  | [], s => .next s
  | st :: rest, s =>
    match st s with
    | .next s1 => run rest s1
    | .ret s1 => .ret s1

/-- The element `fields[i]` (the length check of `Marshal` keeps `i` in bounds). -/
def fld (fields : List String) (i : Nat) : String := fields.getD i ""

/-- The pattern `line.X, err = f(...)` followed by `if err != nil { return err }`. -/
def assignChecked {L : Lib} {α : Type} (setX : DataLine L → α → DataLine L)
    (r : α × Option Error) : Stmt L := fun s =>
  let s1 : Frame L := { line := setX s.line r.1, err := r.2 }
  if s1.err.isSome then .ret s1 else .next s1

/-- The pattern `line.X, err = f(...)` followed by `if err != nil { return nil }`. -/
def assignLenient {L : Lib} {α : Type} (setX : DataLine L → α → DataLine L)
    (r : α × Option Error) : Stmt L := fun s =>
  let s1 : Frame L := { line := setX s.line r.1, err := r.2 }
  if s1.err.isSome then .ret { s1 with err := none } else .next s1

/-- A statement that only updates the record. -/
def assign {L : Lib} (f : DataLine L → DataLine L) : Stmt L := fun s =>
  .next { s with line := f s.line }

/-- The guard `if tok != "none" { ... }`. -/
def unlessNone {L : Lib} (tok : String) (st : Stmt L) : Stmt L := fun s =>
  if tok ≠ "none" then st s else .next s

/-- The loop body `line.CP[i], err = strconv.Atoi(fields[22+i])`: the error is
stored in `err` and not looked at. -/
def cpStep {L : Lib} (fields : List String) (s : Frame L) (i : Nat) : Frame L :=
  let r := Atoi (fld fields (22 + i))
  { line := { s.line with CP := s.line.CP.set (i : Int) r.1 }, err := r.2 }

/-- The loop `for i := 1; i <= 96; i++ { line.CP[i], err = strconv.Atoi(fields[22+i]) }`. -/
def cpLoop {L : Lib} (fields : List String) : Stmt L := fun s =>
  .next ((List.range' 1 96).foldl (cpStep fields) s)

/-- The statement `return nil`. -/
def returnNil {L : Lib} : Stmt L := fun s => .ret { s with err := none }

/-! ## The body of `Marshal` -/

section Body

variable (L : Lib) (fields : List String)

/-- Fields 0 to 3: `DateTime` and `Loc`. -/
def stmtsHead : List (Stmt L) :=
  [ assignChecked (fun l v => { l with DateTime := v })
      (L.timeParse "2006/01/02 15:04:05" (fld fields 0)),
    assignChecked (fun l v => { l with Loc := v })
      (L.parseLocation (fld fields 1) (fld fields 2) (fld fields 3)) ]

/-- Fields 4 to 14: `Speed` to `Judgment`. -/
def stmtsPack : List (Stmt L) :=
  [ assignChecked (fun l v => { l with Speed := v }) (Atoi (fld fields 4)),
    assignChecked (fun l v => { l with Gids := v }) (Atoi (fld fields 5)),
    assignChecked (fun l v => { l with SOC := v }) (Atoi (fld fields 6)),
    assignChecked (fun l v => { l with AHr := v }) (Atoi (fld fields 7)),
    assignChecked (fun l v => { l with PackVolts := v }) (L.ParseFloat (fld fields 8)),
    assignChecked (fun l v => { l with PackAmps := v }) (L.ParseFloat (fld fields 9)),
    assignChecked (fun l v => { l with MaxCP := v }) (Atoi (fld fields 10)),
    assignChecked (fun l v => { l with MinCP := v }) (Atoi (fld fields 11)),
    assignChecked (fun l v => { l with AvgCP := v }) (Atoi (fld fields 12)),
    assignChecked (fun l v => { l with DiffCP := v }) (Atoi (fld fields 13)),
    assignChecked (fun l v => { l with Judgment := v }) (Atoi (fld fields 14)) ]

/-- Fields 15 to 22: the optional pack temperatures `PackT1F` to `PackT4C`. -/
def stmtsTemps : List (Stmt L) :=
  [ unlessNone (fld fields 15)
      (assignChecked (fun l v => { l with PackT1F := v }) (L.ParseFloat (fld fields 15))),
    unlessNone (fld fields 16)
      (assignChecked (fun l v => { l with PackT1C := v }) (L.ParseFloat (fld fields 16))),
    unlessNone (fld fields 17)
      (assignChecked (fun l v => { l with PackT2F := v }) (L.ParseFloat (fld fields 17))),
    unlessNone (fld fields 18)
      (assignChecked (fun l v => { l with PackT2C := v }) (L.ParseFloat (fld fields 18))),
    unlessNone (fld fields 19)
      (assignChecked (fun l v => { l with PackT3F := v }) (L.ParseFloat (fld fields 19))),
    unlessNone (fld fields 20)
      (assignChecked (fun l v => { l with PackT3C := v }) (L.ParseFloat (fld fields 20))),
    unlessNone (fld fields 21)
      (assignChecked (fun l v => { l with PackT4F := v }) (L.ParseFloat (fld fields 21))),
    unlessNone (fld fields 22)
      (assignChecked (fun l v => { l with PackT4C := v }) (L.ParseFloat (fld fields 22))) ]

/-- Fields 23 to 118: `line.CP = make(map[int]int)` and the loop over the cells. -/
def stmtsCells : List (Stmt L) :=
  [ assign (fun l => { l with CP := [] }),
    cpLoop fields ]

/-- Fields 119 to 134: `Bat12VAmp` to `EpochTime`. -/
def stmtsCar : List (Stmt L) :=
  [ assignChecked (fun l v => { l with Bat12VAmp := v }) (L.ParseFloat (fld fields 119)),
    assign (fun l => { l with VIN := fld fields 120 }),
    assignChecked (fun l v => { l with Hx := v }) (L.ParseFloat (fld fields 121)),
    assignChecked (fun l v => { l with Bat12VVolt := v }) (L.ParseFloat (fld fields 122)),
    assignChecked (fun l v => { l with OdoKm := v }) (L.ParseFloat (fld fields 123)),
    assignChecked (fun l v => { l with QC := v }) (Atoi (fld fields 124)),
    assignChecked (fun l v => { l with L1L2 := v }) (Atoi (fld fields 125)),
    assignChecked (fun l v => { l with TPFL := v }) (L.ParseFloat (fld fields 126)),
    assignChecked (fun l v => { l with TPFR := v }) (L.ParseFloat (fld fields 127)),
    assignChecked (fun l v => { l with TPRR := v }) (L.ParseFloat (fld fields 128)),
    assignChecked (fun l v => { l with TPRL := v }) (L.ParseFloat (fld fields 129)),
    assignChecked (fun l v => { l with AmbientF := v }) (L.ParseFloat (fld fields 130)),
    assignChecked (fun l v => { l with SOH := v }) (L.ParseFloat (fld fields 131)),
    assignChecked (fun l v => { l with RegenWh := v }) (Atoi (fld fields 132)),
    assignChecked (fun l v => { l with BLevel := v }) (Atoi (fld fields 133)),
    assignChecked (fun l v => { l with EpochTime := v }) (L.ParseFloat (fld fields 134)) ]

/-- Fields 135 to 140: the power figures `MotorPwr` to `EstPwrHtr`, four of them
rescaled after the parse. -/
def stmtsPower : List (Stmt L) :=
  [ assignChecked (fun l v => { l with MotorPwr := v }) (Atoi (fld fields 135)),
    assignChecked (fun l v => { l with AuxPwr := v }) (Atoi (fld fields 136)),
    assign (fun l => { l with AuxPwr := wrapInt (l.AuxPwr * 100) }),
    assignChecked (fun l v => { l with ACPwr := v }) (Atoi (fld fields 137)),
    assign (fun l => { l with ACPwr := wrapInt (l.ACPwr * 250) }),
    assignChecked (fun l v => { l with ACComp := v }) (Atoi (fld fields 138)),
    assignChecked (fun l v => { l with EstPwrAC := v }) (Atoi (fld fields 139)),
    assign (fun l => { l with EstPwrAC := wrapInt (l.EstPwrAC * 50) }),
    assignChecked (fun l v => { l with EstPwrHtr := v }) (Atoi (fld fields 140)),
    assign (fun l => { l with EstPwrHtr := wrapInt (l.EstPwrHtr * 250) }) ]

/-- Fields 141 to 147: `PlugState` to `GPSStatus`. -/
def stmtsState : List (Stmt L) :=
  [ assignChecked (fun l v => { l with PlugState := v }) (Atoi (fld fields 141)),
    assignChecked (fun l v => { l with ChargeMode := v }) (Atoi (fld fields 142)),
    assignChecked (fun l v => { l with OBCOutPwr := v }) (Atoi (fld fields 143)),
    assignChecked (fun l v => { l with Gear := v }) (Atoi (fld fields 144)),
    assignChecked (fun l v => { l with HVolt1 := v }) (L.ParseFloat (fld fields 145)),
    assignChecked (fun l v => { l with HVolt2 := v }) (L.ParseFloat (fld fields 146)),
    assign (fun l => { l with GPSStatus := fld fields 147 }) ]

/-- Fields 148 to 150: the booleans `PowerSW`, `BMS` and `OBC`. -/
def stmtsBool : List (Stmt L) :=
  [ assignLenient (fun l v => { l with PowerSW := v }) (ParseBool (fld fields 148)),
    assignLenient (fun l v => { l with BMS := v }) (ParseBool (fld fields 149)),
    assignLenient (fun l v => { l with OBC := v }) (ParseBool (fld fields 150)) ]

/-- Fields 151 to 158: `Debug` to `TorqueNm`, and the final `return nil`. -/
def stmtsTail : List (Stmt L) :=
  [ assign (fun l => { l with Debug := fld fields 151 }),
    assignChecked (fun l v => { l with MotorTemp := v }) (Atoi (fld fields 152)),
    assign (fun l => { l with MotorTemp := wrapInt (l.MotorTemp - 40) }),
    assignChecked (fun l v => { l with Inverter2 := v }) (Atoi (fld fields 153)),
    assign (fun l => { l with Inverter2 := wrapInt (l.Inverter2 - 40) }),
    assignChecked (fun l v => { l with Inverter4 := v }) (Atoi (fld fields 154)),
    assign (fun l => { l with Inverter4 := wrapInt (l.Inverter4 - 40) }),
    assignChecked (fun l v => { l with Speed1 := v }) (L.ParseFloat (fld fields 155)),
    assign (fun l => { l with Speed1 := l.Speed1.div (Float64.ofNat 100) }),
    assignChecked (fun l v => { l with Speed2 := v }) (L.ParseFloat (fld fields 156)),
    assign (fun l => { l with Speed2 := l.Speed2.div (Float64.ofNat 100) }),
    assign (fun l => { l with WiperStatus := fld fields 157 }),
    assignChecked (fun l v => { l with TorqueNm := v }) (L.ParseFloat (fld fields 158)),
    returnNil ]

/-- The statements of `Marshal` after the check of the number of fields. -/
def body : List (Stmt L) :=
  stmtsHead L fields ++ stmtsPack L fields ++ stmtsTemps L fields ++ stmtsCells L fields ++
    stmtsCar L fields ++ stmtsPower L fields ++ stmtsState L fields ++ stmtsBool L fields ++
    stmtsTail L fields

end Body

/-- The error of a row with the wrong number of fields. -/
def columnsError : Error := .errorString "Number of columns in CSV file not appropriate"

/-- The method `func (line *DataLine) Marshal(fields []string) (err error)`: from the
record behind the receiver and the row, the record after the call and the returned
error (`none` is `nil`). -/
def Marshal (L : Lib) (line : DataLine L) (fields : List String) : DataLine L × Option Error :=
  if fields.length ≠ 159 then (line, some columnsError)
  else
    let out := (run (body L fields) { line := line, err := none }).frame
    (out.line, out.err)

/-! ## A concrete library and concrete rows

An executable instance of `Lib`, used to evaluate `Marshal` on explicit rows. -/

/-- The value of a string of decimal digits. -/
def digitsValue (cs : List Char) : Nat :=
  cs.foldl (fun n c => n * 10 + (c.toNat - '0'.toNat)) 0

/-- A calendar date and time of day. -/
structure SampleTime where
  year : Nat
  month : Nat
  day : Nat
  hour : Nat
  minute : Nat
  second : Nat
  deriving DecidableEq, Repr

/-- The number of days of a month. -/
def daysIn (year month : Nat) : Nat :=
  if month = 2 then
    (if year % 4 = 0 ∧ (year % 100 ≠ 0 ∨ year % 400 = 0) then 29 else 28)
  else if month = 4 ∨ month = 6 ∨ month = 9 ∨ month = 11 then 30
  else 31

/-- A `time.Parse` for values of the exact shape `YYYY/MM/DD HH:MM:SS` with a valid
date and time of day; on these it succeeds, as Go does with the layout
`2006/01/02 15:04:05`. Every other value is rejected, with the zero time: this leaves
out the further values Go accepts with that layout (a one-digit hour, fractional
seconds, a run of spaces between date and time), and the error keeps the layout and the
value only. The theorems about `Marshal` do not depend on it: they hold for every
`timeParse`. -/
def sampleTimeParse (layout value : String) : SampleTime × Option Error :=
  let bad : SampleTime × Option Error :=
    (⟨1, 1, 1, 0, 0, 0⟩, some (.parseError layout value "" "" ""))
  match value.toList with
  | [y1, y2, y3, y4, '/', m1, m2, '/', d1, d2, ' ', h1, h2, ':', n1, n2, ':', s1, s2] =>
    if [y1, y2, y3, y4, m1, m2, d1, d2, h1, h2, n1, n2, s1, s2].all isDigit then
      let t : SampleTime :=
        ⟨digitsValue [y1, y2, y3, y4], digitsValue [m1, m2], digitsValue [d1, d2],
          digitsValue [h1, h2], digitsValue [n1, n2], digitsValue [s1, s2]⟩
      if 1 ≤ t.month ∧ t.month ≤ 12 ∧ 1 ≤ t.day ∧ t.day ≤ daysIn t.year t.month ∧
          t.hour < 24 ∧ t.minute < 60 ∧ t.second < 60 then (t, none)
      else bad
    else bad
  | _ => bad

/-- Modelled from the spec: `parseLocation` and the type `Location` are code of the
repository outside the verified files; the spec describes the function as a
sub-parser that, given three raw text fields, returns an opaque Location value or a
parse error. Here the Location keeps the three texts, and a row without latitude or
longitude text is a parse error. -/
def sampleParseLocation (lat long elv : String) : (String × String × String) × Option Error :=
  if lat = "" ∨ long = "" then (("", "", ""), some (.errorString "invalid location"))
  else ((lat, long, elv), none)

/-- The concrete library. -/
def sampleLib : Lib where
  Time := SampleTime
  Location := String × String × String
  timeParse := sampleTimeParse
  parseLocation := sampleParseLocation
  ParseFloat := ParseFloat

/-- The zero value of `DataLine`: what a fresh `DataLine{}` holds. -/
def zeroLine : DataLine sampleLib where
  DateTime := ⟨1, 1, 1, 0, 0, 0⟩
  Loc := ("", "", "")
  Speed := 0
  Gids := 0
  SOC := 0
  AHr := 0
  PackVolts := Float64.zero false
  PackAmps := Float64.zero false
  MaxCP := 0
  MinCP := 0
  AvgCP := 0
  DiffCP := 0
  Judgment := 0
  PackT1F := Float64.zero false
  PackT1C := Float64.zero false
  PackT2F := Float64.zero false
  PackT2C := Float64.zero false
  PackT3F := Float64.zero false
  PackT3C := Float64.zero false
  PackT4F := Float64.zero false
  PackT4C := Float64.zero false
  CP := []
  Bat12VAmp := Float64.zero false
  VIN := ""
  Hx := Float64.zero false
  Bat12VVolt := Float64.zero false
  OdoKm := Float64.zero false
  QC := 0
  L1L2 := 0
  TPFL := Float64.zero false
  TPFR := Float64.zero false
  TPRR := Float64.zero false
  TPRL := Float64.zero false
  AmbientF := Float64.zero false
  SOH := Float64.zero false
  RegenWh := 0
  BLevel := 0
  EpochTime := Float64.zero false
  MotorPwr := 0
  AuxPwr := 0
  ACPwr := 0
  ACComp := 0
  EstPwrAC := 0
  EstPwrHtr := 0
  PlugState := 0
  ChargeMode := 0
  OBCOutPwr := 0
  Gear := 0
  HVolt1 := Float64.zero false
  HVolt2 := Float64.zero false
  GPSStatus := ""
  PowerSW := false
  BMS := false
  OBC := false
  Debug := ""
  MotorTemp := 0
  Inverter2 := 0
  Inverter4 := 0
  Speed1 := Float64.zero false
  Speed2 := Float64.zero false
  WiperStatus := ""
  TorqueNm := Float64.zero false

/-- A well-formed row of 159 fields. -/
def sampleRow : List String :=
  [ "2020/01/02 03:04:05", "51 30.12345", "-0 7.54321", "35",
    "0", "285", "954321", "612345", "393.5", "-1.25",
    "4105", "4093", "4100", "12", "0",
    "61.2", "16.2", "60.8", "16.0", "none", "none", "60.1", "15.6" ] ++
  List.replicate 96 "4100" ++
  [ "0.5", "1N4AZ0CP0DC400000", "78.21", "14.32", "45210.7", "12", "840",
    "36.5", "36.25", "35.75", "36.0", "68", "88.4", "1250", "0", "1577934245",
    "3", "5", "2", "0", "4", "1",
    "0", "0", "0", "4", "393.1", "392.9", "A",
    "1", "true", "0",
    "0", "30", "70", "65", "2495", "2500", "0", "12.5" ]

/-- The row with field `i` replaced by `tok`. -/
def withField (row : List String) (i : Nat) (tok : String) : List String := row.set i tok

/-! ## Positions of the row by type, and well-formed rows -/

/-- The positions parsed with `strconv.Atoi` outside the cell loop. -/
def intPositions : List Nat :=
  [4, 5, 6, 7, 10, 11, 12, 13, 14, 124, 125, 132, 133, 135, 136, 137, 138, 139, 140,
    141, 142, 143, 144, 152, 153, 154]

/-- The positions parsed with `strconv.ParseFloat` without a sentinel. -/
def floatPositions : List Nat :=
  [8, 9, 119, 121, 122, 123, 126, 127, 128, 129, 130, 131, 134, 145, 146, 155, 156, 158]

/-- The positions of the optional pack temperatures. -/
def optPositions : List Nat := [15, 16, 17, 18, 19, 20, 21, 22]

/-- The positions of the 96 cell fields. -/
def cellPositions : List Nat := List.range' 23 96

/-- The positions parsed with `strconv.ParseBool`. -/
def boolPositions : List Nat := [148, 149, 150]

/-- A row of 159 fields each of which is well-formed for its type: the date-time and
the location parse, every integer, float, cell and boolean field parses, and every
optional temperature is the sentinel `none` or parses as a float. -/
def WellFormed (L : Lib) (fields : List String) : Prop :=
  fields.length = 159 ∧
  (L.timeParse "2006/01/02 15:04:05" (fld fields 0)).2 = none ∧
  (L.parseLocation (fld fields 1) (fld fields 2) (fld fields 3)).2 = none ∧
  (∀ i ∈ intPositions, (Atoi (fld fields i)).2 = none) ∧
  (∀ i ∈ floatPositions, (L.ParseFloat (fld fields i)).2 = none) ∧
  (∀ i ∈ optPositions, fld fields i = "none" ∨ (L.ParseFloat (fld fields i)).2 = none) ∧
  (∀ i ∈ cellPositions, (Atoi (fld fields i)).2 = none) ∧
  (∀ i ∈ boolPositions, (ParseBool (fld fields i)).2 = none)

instance (L : Lib) (fields : List String) : Decidable (WellFormed L fields) := by
  unfold WellFormed; infer_instance

/-! ## Definitions used in the statements and proofs -/

section ProofDefs

variable {L : Lib}

/-- Every statement of the list has the property. -/
def All (P : Stmt L → Prop) : List (Stmt L) → Prop
  | [] => True
  | st :: rest => P st ∧ All P rest

/-- The statement returns only with a non-nil error. -/
def OnlyErr (st : Stmt L) : Prop := ∀ s s1, st s = .ret s1 → s1.err ≠ none

/-- The statement returns only with a nil error. -/
def NeverErr (st : Stmt L) : Prop := ∀ s s1, st s = .ret s1 → s1.err = none

/-- The statement leaves a component of the record as it was. -/
structure Preserves {α : Type} (proj : DataLine L → α) (st : Stmt L) : Prop where
  keeps : ∀ s, proj (st s).frame.line = proj s.line

/-- The statements before the power figures. -/
def beforePower (L : Lib) (fields : List String) : List (Stmt L) :=
  stmtsHead L fields ++ stmtsPack L fields ++ stmtsTemps L fields ++ stmtsCells L fields ++
    stmtsCar L fields

/-- The statements before `Debug`. -/
def beforeTail (L : Lib) (fields : List String) : List (Stmt L) :=
  beforePower L fields ++ stmtsPower L fields ++ stmtsState L fields ++ stmtsBool L fields

/-- The record field decoded from the optional temperature at position `k`
(15 to 22: `PackT1F`, `PackT1C`, ..., `PackT4F`, `PackT4C`). -/
def optField {L : Lib} (l : DataLine L) : Nat → Float64
  | 15 => l.PackT1F
  | 16 => l.PackT1C
  | 17 => l.PackT2F
  | 18 => l.PackT2C
  | 19 => l.PackT3F
  | 20 => l.PackT3C
  | 21 => l.PackT4F
  | 22 => l.PackT4C
  | _ => Float64.zero false

/-- The map that `n` rounds of the cell loop build from an empty map: key `i` holds
the value `strconv.Atoi` returns for `fields[22+i]`. -/
def cpTable (fields : List String) (n : Nat) : GoMap :=
  (List.range' 1 n).reverse.map (fun (i : Nat) => ((i : Int), (Atoi (fld fields (22 + i))).1))

/-- A record whose `CP` map already holds entries under other keys. -/
def usedLine : DataLine sampleLib := { zeroLine with CP := [(0, 7), (200, 9), (5, 1)] }

/-- The sample row with the first cell (field 23) set to 4001 and the last cell
(field 118) set to 4096. -/
def cellRow : List String := withField (withField sampleRow 23 "4001") 118 "4096"

/-- The parse error `Marshal` looks at for the field at position `i`: that of
`strconv.Atoi` for an integer position, that of `strconv.ParseFloat` for a float
position and for an optional temperature other than the sentinel, none for any other
position. -/
def fieldError (L : Lib) (fields : List String) (i : Nat) : Option Error :=
  if i ∈ intPositions then (Atoi (fld fields i)).2
  else if i ∈ floatPositions then (L.ParseFloat (fld fields i)).2
  else if i ∈ optPositions then
    (if fld fields i = "none" then none else (L.ParseFloat (fld fields i)).2)
  else none

/-- The positions 4 to 22 and 119 to 146, in ascending order. -/
def checkedPositions : List Nat := List.range' 4 19 ++ List.range' 119 28

/-- The plain integer and float positions among them: 4 to 14, 119, and 121 to 146. -/
def plainPositions : List Nat := List.range' 4 11 ++ [119] ++ List.range' 121 26

/-- The parse error of the lowest-positioned invalid field among 4 to 22 and 119 to
146, if there is one. -/
def firstError (L : Lib) (fields : List String) : Option Error :=
  checkedPositions.findSome? (fieldError L fields)

/-- The statement returns with the error `e` when `oe` is `some e`, and goes on when
`oe` is `none`. -/
structure Reports (st : Stmt L) (oe : Option Error) : Prop where
  ret : ∀ e, oe = some e → ∀ s, ∃ s1, st s = .ret s1 ∧ s1.err = some e
  next : oe = none → ∀ s, ∃ s1, st s = .next s1

/-- The statements of the first list report the errors of the second, one by one. -/
def AllReport : List (Stmt L) → List (Option Error) → Prop
  | [], [] => True
  | st :: A, oe :: E => Reports st oe ∧ AllReport A E
  | _, _ => False

/-- For each statement of fields 4 to 147, the position whose parse error it checks,
if it checks one. -/
def midPositions : List (Option Nat) :=
  [some 4, some 5, some 6, some 7, some 8, some 9, some 10, some 11, some 12, some 13, some 14,
    some 15, some 16, some 17, some 18, some 19, some 20, some 21, some 22,
    none, none,
    some 119, some 120, some 121, some 122, some 123, some 124, some 125, some 126, some 127,
    some 128, some 129, some 130, some 131, some 132, some 133, some 134,
    some 135, some 136, none, some 137, none, some 138, some 139, none, some 140, none,
    some 141, some 142, some 143, some 144, some 145, some 146, none]

/-- The sample row with two invalid fields: `Gids` (field 5) is `x` and `Hx`
(field 121) is `y`. -/
def twoBadRow : List String := withField (withField sampleRow 5 "x") 121 "y"

/-- A row of 159 fields that `Marshal` decodes to the end: the date-time and the
location parse, every integer, float and boolean field outside the cell loop parses,
and every optional temperature is the sentinel `none` or parses as a float. (The
cell fields are not constrained.) -/
def Decodable (L : Lib) (fields : List String) : Prop :=
  fields.length = 159 ∧
  (L.timeParse "2006/01/02 15:04:05" (fld fields 0)).2 = none ∧
  (L.parseLocation (fld fields 1) (fld fields 2) (fld fields 3)).2 = none ∧
  (∀ i ∈ intPositions, (Atoi (fld fields i)).2 = none) ∧
  (∀ i ∈ floatPositions, (L.ParseFloat (fld fields i)).2 = none) ∧
  (∀ i ∈ optPositions, fld fields i = "none" ∨ (L.ParseFloat (fld fields i)).2 = none) ∧
  (∀ i ∈ boolPositions, (ParseBool (fld fields i)).2 = none)

instance (L : Lib) (fields : List String) : Decidable (Decodable L fields) := by
  unfold Decodable; infer_instance

/-- The record a complete decode of the row leaves behind the receiver: every field
is the value parsed from its position, rescaled where the source rescales it, except
that an optional temperature whose token is the sentinel `none` keeps the value
`line` held. -/
def decoded (L : Lib) (line : DataLine L) (fields : List String) : DataLine L where
  DateTime := (L.timeParse "2006/01/02 15:04:05" (fld fields 0)).1
  Loc := (L.parseLocation (fld fields 1) (fld fields 2) (fld fields 3)).1
  Speed := (Atoi (fld fields 4)).1
  Gids := (Atoi (fld fields 5)).1
  SOC := (Atoi (fld fields 6)).1
  AHr := (Atoi (fld fields 7)).1
  PackVolts := (L.ParseFloat (fld fields 8)).1
  PackAmps := (L.ParseFloat (fld fields 9)).1
  MaxCP := (Atoi (fld fields 10)).1
  MinCP := (Atoi (fld fields 11)).1
  AvgCP := (Atoi (fld fields 12)).1
  DiffCP := (Atoi (fld fields 13)).1
  Judgment := (Atoi (fld fields 14)).1
  PackT1F :=
    if fld fields 15 = "none" then line.PackT1F else (L.ParseFloat (fld fields 15)).1
  PackT1C :=
    if fld fields 16 = "none" then line.PackT1C else (L.ParseFloat (fld fields 16)).1
  PackT2F :=
    if fld fields 17 = "none" then line.PackT2F else (L.ParseFloat (fld fields 17)).1
  PackT2C :=
    if fld fields 18 = "none" then line.PackT2C else (L.ParseFloat (fld fields 18)).1
  PackT3F :=
    if fld fields 19 = "none" then line.PackT3F else (L.ParseFloat (fld fields 19)).1
  PackT3C :=
    if fld fields 20 = "none" then line.PackT3C else (L.ParseFloat (fld fields 20)).1
  PackT4F :=
    if fld fields 21 = "none" then line.PackT4F else (L.ParseFloat (fld fields 21)).1
  PackT4C :=
    if fld fields 22 = "none" then line.PackT4C else (L.ParseFloat (fld fields 22)).1
  CP := cpTable fields 96
  Bat12VAmp := (L.ParseFloat (fld fields 119)).1
  VIN := fld fields 120
  Hx := (L.ParseFloat (fld fields 121)).1
  Bat12VVolt := (L.ParseFloat (fld fields 122)).1
  OdoKm := (L.ParseFloat (fld fields 123)).1
  QC := (Atoi (fld fields 124)).1
  L1L2 := (Atoi (fld fields 125)).1
  TPFL := (L.ParseFloat (fld fields 126)).1
  TPFR := (L.ParseFloat (fld fields 127)).1
  TPRR := (L.ParseFloat (fld fields 128)).1
  TPRL := (L.ParseFloat (fld fields 129)).1
  AmbientF := (L.ParseFloat (fld fields 130)).1
  SOH := (L.ParseFloat (fld fields 131)).1
  RegenWh := (Atoi (fld fields 132)).1
  BLevel := (Atoi (fld fields 133)).1
  EpochTime := (L.ParseFloat (fld fields 134)).1
  MotorPwr := (Atoi (fld fields 135)).1
  AuxPwr := wrapInt ((Atoi (fld fields 136)).1 * 100)
  ACPwr := wrapInt ((Atoi (fld fields 137)).1 * 250)
  ACComp := (Atoi (fld fields 138)).1
  EstPwrAC := wrapInt ((Atoi (fld fields 139)).1 * 50)
  EstPwrHtr := wrapInt ((Atoi (fld fields 140)).1 * 250)
  PlugState := (Atoi (fld fields 141)).1
  ChargeMode := (Atoi (fld fields 142)).1
  OBCOutPwr := (Atoi (fld fields 143)).1
  Gear := (Atoi (fld fields 144)).1
  HVolt1 := (L.ParseFloat (fld fields 145)).1
  HVolt2 := (L.ParseFloat (fld fields 146)).1
  GPSStatus := fld fields 147
  PowerSW := (ParseBool (fld fields 148)).1
  BMS := (ParseBool (fld fields 149)).1
  OBC := (ParseBool (fld fields 150)).1
  Debug := fld fields 151
  MotorTemp := wrapInt ((Atoi (fld fields 152)).1 - 40)
  Inverter2 := wrapInt ((Atoi (fld fields 153)).1 - 40)
  Inverter4 := wrapInt ((Atoi (fld fields 154)).1 - 40)
  Speed1 := (L.ParseFloat (fld fields 155)).1.div (Float64.ofNat 100)
  Speed2 := (L.ParseFloat (fld fields 156)).1.div (Float64.ofNat 100)
  WiperStatus := fld fields 157
  TorqueNm := (L.ParseFloat (fld fields 158)).1

/-- For each statement of fields 151 to 158, the position whose parse error it checks,
if it checks one. -/
def tailPositions : List (Option Nat) :=
  [none, some 152, none, some 153, none, some 154, none, some 155, none, some 156, none,
    none, some 158]

/-- The positions 4 to 22, 119 to 146 and 152 to 158 of the fields whose parse error
`Marshal` checks, in ascending order. -/
def allCheckedPositions : List Nat := checkedPositions ++ [152, 153, 154, 155, 156, 158]

/-- The errors the statements of the body look at, in the order of the statements,
when the boolean tokens are valid: those of the date-time and of the location, then
the parse error of each checked position (`none` for a statement that checks
nothing). -/
def reportedErrors (L : Lib) (fields : List String) : List (Option Error) :=
  ((L.timeParse "2006/01/02 15:04:05" (fld fields 0)).2 ::
    (L.parseLocation (fld fields 1) (fld fields 2) (fld fields 3)).2 ::
    midPositions.map (fun (o : Option Nat) => o.bind (fieldError L fields))) ++
    [none, none, none] ++
    tailPositions.map (fun (o : Option Nat) => o.bind (fieldError L fields))

instance : DecidableEq sampleLib.Time := by
  show DecidableEq SampleTime
  infer_instance

/-- Two outcomes of a statement agree: both go on, or both return the same error. -/
def SameOutcome (a b : Flow L) : Prop :=
  match a, b with
  | .next _, .next _ => True
  | .ret x, .ret y => x.err = y.err
  | _, _ => False

/-- Two statements have agreeing outcomes on any two frames. -/
def Alike (st1 st2 : Stmt L) : Prop := ∀ s t, SameOutcome (st1 s) (st2 t)

/-- The statements of two lists are alike, one by one. -/
def AllAlike : List (Stmt L) → List (Stmt L) → Prop
  | [], [] => True
  | a :: A, b :: B => Alike a b ∧ AllAlike A B
  | _, _ => False

/-- The record left by decoding the sample row with `PackT3F` (field 19) set to 60.5
into the zero record. -/
def reusedLine : DataLine sampleLib :=
  (Marshal sampleLib zeroLine (withField sampleRow 19 "60.5")).1

/-- Modelled from the spec: the function `CtoF` is code of the repository outside the
verified files (only its test, `Test_CtoF`, is among them); the spec gives it as the
exact affine formula `F = C × 9/5 + 32`. It is modelled over the rationals. -/
def CtoF (c : ℚ) : ℚ := c * 9 / 5 + 32

/-- Modelled from the spec: the function `FtoC` is code of the repository outside the
verified files (only its test, `Test_FtoC`, is among them); the spec gives it as the
exact affine formula `C = (F − 32) × 5/9`. It is modelled over the rationals. -/
def FtoC (f : ℚ) : ℚ := (f - 32) * 5 / 9

/-- The tolerance `EPS = 1e-5` of the tests. -/
def EPS : ℚ := 1 / 100000

/-- The table of `Test_CtoF`: inputs and expected values. -/
def testsCtoF : List (ℚ × ℚ) :=
  [(-273.15, -459.67), (-40.0, -40.0), (-17.77778, 0.0), (0.0, 32.0), (37.0, 98.6),
    (100.0, 212.0)]

/-- The table of `Test_FtoC`: inputs and expected values. -/
def testsFtoC : List (ℚ × ℚ) :=
  [(-459.67, -273.15), (-40.0, -40.0), (0.0, -17.77778), (32.0, 0.0), (98.6, 37.0),
    (212.0, 100.0)]

/-- The positions at which a call of `Marshal` on a row of 159 fields can stop before
the final `return nil`, in ascending order: 0 for the date-time, 1 for the location
(read from the fields 1 to 3), the checked positions 4 to 22 and 119 to 146, the
booleans 148 to 150, and 152 to 156 and 158. -/
def stopPositions : List Nat :=
  [0, 1] ++ checkedPositions ++ boolPositions ++ [152, 153, 154, 155, 156, 158]

/-- The parse error `Marshal` looks at for the stop position `k`: that of `time.Parse`
for 0, that of `parseLocation` for 1, that of `strconv.ParseBool` for a boolean
position, and the error of the field otherwise. -/
def posError (L : Lib) (fields : List String) (k : Nat) : Option Error :=
  if k = 0 then (L.timeParse "2006/01/02 15:04:05" (fld fields 0)).2
  else if k = 1 then (L.parseLocation (fld fields 1) (fld fields 2) (fld fields 3)).2
  else if k ∈ boolPositions then (ParseBool (fld fields k)).2
  else fieldError L fields k

/-- Every stop position before `k` is valid. -/
def ValidBefore (L : Lib) (fields : List String) (k : Nat) : Prop :=
  ∀ j ∈ stopPositions, j < k → posError L fields j = none

instance (L : Lib) (fields : List String) (k : Nat) : Decidable (ValidBefore L fields k) := by
  unfold ValidBefore; infer_instance

/-- The decode of the row stops at position `k`: `k` is the lowest stop position
whose parse fails. -/
def StopsAt (L : Lib) (fields : List String) (k : Nat) : Prop :=
  k ∈ stopPositions ∧ ValidBefore L fields k ∧ posError L fields k ≠ none

instance (L : Lib) (fields : List String) (k : Nat) : Decidable (StopsAt L fields k) := by
  unfold StopsAt; infer_instance

/-- The record a decode that stops at position `k` leaves behind the receiver: a
field decoded from a position before `k` holds its decoded value (rescaled where the
source rescales it; an optional temperature whose token is the sentinel `none` keeps
the value `line` held), the field of position `k` holds the value its parser
returned, not rescaled, and a field decoded from a position after `k` holds the value
`line` held. The `CP` map is the cell table once position 22 is passed. -/
def partialRecord (L : Lib) (line : DataLine L) (fields : List String) (k : Nat) :
    DataLine L where
  DateTime := (L.timeParse "2006/01/02 15:04:05" (fld fields 0)).1
  Loc :=
    if 1 ≤ k then (L.parseLocation (fld fields 1) (fld fields 2) (fld fields 3)).1
    else line.Loc
  Speed := if 4 ≤ k then (Atoi (fld fields 4)).1 else line.Speed
  Gids := if 5 ≤ k then (Atoi (fld fields 5)).1 else line.Gids
  SOC := if 6 ≤ k then (Atoi (fld fields 6)).1 else line.SOC
  AHr := if 7 ≤ k then (Atoi (fld fields 7)).1 else line.AHr
  PackVolts := if 8 ≤ k then (L.ParseFloat (fld fields 8)).1 else line.PackVolts
  PackAmps := if 9 ≤ k then (L.ParseFloat (fld fields 9)).1 else line.PackAmps
  MaxCP := if 10 ≤ k then (Atoi (fld fields 10)).1 else line.MaxCP
  MinCP := if 11 ≤ k then (Atoi (fld fields 11)).1 else line.MinCP
  AvgCP := if 12 ≤ k then (Atoi (fld fields 12)).1 else line.AvgCP
  DiffCP := if 13 ≤ k then (Atoi (fld fields 13)).1 else line.DiffCP
  Judgment := if 14 ≤ k then (Atoi (fld fields 14)).1 else line.Judgment
  PackT1F :=
    if 15 ≤ k then
      (if fld fields 15 = "none" then line.PackT1F else (L.ParseFloat (fld fields 15)).1)
    else line.PackT1F
  PackT1C :=
    if 16 ≤ k then
      (if fld fields 16 = "none" then line.PackT1C else (L.ParseFloat (fld fields 16)).1)
    else line.PackT1C
  PackT2F :=
    if 17 ≤ k then
      (if fld fields 17 = "none" then line.PackT2F else (L.ParseFloat (fld fields 17)).1)
    else line.PackT2F
  PackT2C :=
    if 18 ≤ k then
      (if fld fields 18 = "none" then line.PackT2C else (L.ParseFloat (fld fields 18)).1)
    else line.PackT2C
  PackT3F :=
    if 19 ≤ k then
      (if fld fields 19 = "none" then line.PackT3F else (L.ParseFloat (fld fields 19)).1)
    else line.PackT3F
  PackT3C :=
    if 20 ≤ k then
      (if fld fields 20 = "none" then line.PackT3C else (L.ParseFloat (fld fields 20)).1)
    else line.PackT3C
  PackT4F :=
    if 21 ≤ k then
      (if fld fields 21 = "none" then line.PackT4F else (L.ParseFloat (fld fields 21)).1)
    else line.PackT4F
  PackT4C :=
    if 22 ≤ k then
      (if fld fields 22 = "none" then line.PackT4C else (L.ParseFloat (fld fields 22)).1)
    else line.PackT4C
  CP := if 22 < k then cpTable fields 96 else line.CP
  Bat12VAmp := if 119 ≤ k then (L.ParseFloat (fld fields 119)).1 else line.Bat12VAmp
  VIN := if 120 ≤ k then fld fields 120 else line.VIN
  Hx := if 121 ≤ k then (L.ParseFloat (fld fields 121)).1 else line.Hx
  Bat12VVolt := if 122 ≤ k then (L.ParseFloat (fld fields 122)).1 else line.Bat12VVolt
  OdoKm := if 123 ≤ k then (L.ParseFloat (fld fields 123)).1 else line.OdoKm
  QC := if 124 ≤ k then (Atoi (fld fields 124)).1 else line.QC
  L1L2 := if 125 ≤ k then (Atoi (fld fields 125)).1 else line.L1L2
  TPFL := if 126 ≤ k then (L.ParseFloat (fld fields 126)).1 else line.TPFL
  TPFR := if 127 ≤ k then (L.ParseFloat (fld fields 127)).1 else line.TPFR
  TPRR := if 128 ≤ k then (L.ParseFloat (fld fields 128)).1 else line.TPRR
  TPRL := if 129 ≤ k then (L.ParseFloat (fld fields 129)).1 else line.TPRL
  AmbientF := if 130 ≤ k then (L.ParseFloat (fld fields 130)).1 else line.AmbientF
  SOH := if 131 ≤ k then (L.ParseFloat (fld fields 131)).1 else line.SOH
  RegenWh := if 132 ≤ k then (Atoi (fld fields 132)).1 else line.RegenWh
  BLevel := if 133 ≤ k then (Atoi (fld fields 133)).1 else line.BLevel
  EpochTime := if 134 ≤ k then (L.ParseFloat (fld fields 134)).1 else line.EpochTime
  MotorPwr := if 135 ≤ k then (Atoi (fld fields 135)).1 else line.MotorPwr
  AuxPwr :=
    if 136 < k then wrapInt ((Atoi (fld fields 136)).1 * 100)
    else if k = 136 then (Atoi (fld fields 136)).1 else line.AuxPwr
  ACPwr :=
    if 137 < k then wrapInt ((Atoi (fld fields 137)).1 * 250)
    else if k = 137 then (Atoi (fld fields 137)).1 else line.ACPwr
  ACComp := if 138 ≤ k then (Atoi (fld fields 138)).1 else line.ACComp
  EstPwrAC :=
    if 139 < k then wrapInt ((Atoi (fld fields 139)).1 * 50)
    else if k = 139 then (Atoi (fld fields 139)).1 else line.EstPwrAC
  EstPwrHtr :=
    if 140 < k then wrapInt ((Atoi (fld fields 140)).1 * 250)
    else if k = 140 then (Atoi (fld fields 140)).1 else line.EstPwrHtr
  PlugState := if 141 ≤ k then (Atoi (fld fields 141)).1 else line.PlugState
  ChargeMode := if 142 ≤ k then (Atoi (fld fields 142)).1 else line.ChargeMode
  OBCOutPwr := if 143 ≤ k then (Atoi (fld fields 143)).1 else line.OBCOutPwr
  Gear := if 144 ≤ k then (Atoi (fld fields 144)).1 else line.Gear
  HVolt1 := if 145 ≤ k then (L.ParseFloat (fld fields 145)).1 else line.HVolt1
  HVolt2 := if 146 ≤ k then (L.ParseFloat (fld fields 146)).1 else line.HVolt2
  GPSStatus := if 147 ≤ k then fld fields 147 else line.GPSStatus
  PowerSW := if 148 ≤ k then (ParseBool (fld fields 148)).1 else line.PowerSW
  BMS := if 149 ≤ k then (ParseBool (fld fields 149)).1 else line.BMS
  OBC := if 150 ≤ k then (ParseBool (fld fields 150)).1 else line.OBC
  Debug := if 151 ≤ k then fld fields 151 else line.Debug
  MotorTemp :=
    if 152 < k then wrapInt ((Atoi (fld fields 152)).1 - 40)
    else if k = 152 then (Atoi (fld fields 152)).1 else line.MotorTemp
  Inverter2 :=
    if 153 < k then wrapInt ((Atoi (fld fields 153)).1 - 40)
    else if k = 153 then (Atoi (fld fields 153)).1 else line.Inverter2
  Inverter4 :=
    if 154 < k then wrapInt ((Atoi (fld fields 154)).1 - 40)
    else if k = 154 then (Atoi (fld fields 154)).1 else line.Inverter4
  Speed1 :=
    if 155 < k then (L.ParseFloat (fld fields 155)).1.div (Float64.ofNat 100)
    else if k = 155 then (L.ParseFloat (fld fields 155)).1 else line.Speed1
  Speed2 :=
    if 156 < k then (L.ParseFloat (fld fields 156)).1.div (Float64.ofNat 100)
    else if k = 156 then (L.ParseFloat (fld fields 156)).1 else line.Speed2
  WiperStatus := if 157 ≤ k then fld fields 157 else line.WiperStatus
  TorqueNm := if 158 ≤ k then (L.ParseFloat (fld fields 158)).1 else line.TorqueNm

end ProofDefs

/-! ## Rules for lists of statements -/

section Rules

variable {L : Lib}

theorem All_append (P : Stmt L → Prop) (A B : List (Stmt L)) :
    All P (A ++ B) ↔ All P A ∧ All P B := by
  induction A with
  | nil => simp [All]
  | cons st rest ih => simp [All, ih, and_assoc]

theorem run_append (A B : List (Stmt L)) (s : Frame L) :
    run (A ++ B) s = match run A s with
      | .next s1 => run B s1
      | .ret s1 => .ret s1 := by
  induction A generalizing s with
  | nil => simp [run]
  | cons st rest ih =>
    simp only [List.cons_append, run]
    cases st s with
    | next s1 => simpa using ih s1
    | ret s1 => rfl

theorem run_onlyErr (A : List (Stmt L)) (hA : All OnlyErr A) (s s1 : Frame L)
    (h : run A s = .ret s1) : s1.err ≠ none := by
  induction A generalizing s with
  | nil => simp [run] at h
  | cons st rest ih =>
    simp only [run] at h
    cases hst : st s with
    | next s2 => rw [hst] at h; exact ih hA.2 s2 h
    | ret s2 =>
      rw [hst] at h
      have h2 : s2 = s1 := by injection h
      subst h2
      exact hA.1 s s2 hst

theorem run_neverErr (A : List (Stmt L)) (hA : All NeverErr A) (s s1 : Frame L)
    (h : run A s = .ret s1) : s1.err = none := by
  induction A generalizing s with
  | nil => simp [run] at h
  | cons st rest ih =>
    simp only [run] at h
    cases hst : st s with
    | next s2 => rw [hst] at h; exact ih hA.2 s2 h
    | ret s2 =>
      rw [hst] at h
      have h2 : s2 = s1 := by injection h
      subst h2
      exact hA.1 s s2 hst

theorem run_preserves {α : Type} (proj : DataLine L → α) (A : List (Stmt L))
    (hA : All (Preserves proj) A) (s : Frame L) :
    proj (run A s).frame.line = proj s.line := by
  induction A generalizing s with
  | nil => simp [run, Flow.frame]
  | cons st rest ih =>
    have h1 := hA.1.keeps s
    simp only [run]
    cases hst : st s with
    | next s2 =>
      rw [hst] at h1
      simp only [Flow.frame] at h1
      rw [ih hA.2 s2, h1]
    | ret s2 =>
      rw [hst] at h1
      simpa [Flow.frame] using h1

/-! ### The statement forms -/

theorem onlyErr_assignChecked {α : Type} (setX : DataLine L → α → DataLine L)
    (r : α × Option Error) : OnlyErr (assignChecked setX r) := by
  intro s s1 h
  unfold assignChecked at h
  cases hr : r.2 with
  | none => simp [hr] at h
  | some e =>
    simp [hr] at h
    subst h
    simp

theorem onlyErr_assignLenient {α : Type} (setX : DataLine L → α → DataLine L)
    (r : α × Option Error) (hr : r.2 = none) : OnlyErr (assignLenient setX r) := by
  intro s s1 h
  simp [assignLenient, hr] at h

theorem onlyErr_assign (f : DataLine L → DataLine L) : OnlyErr (assign f) := by
  intro s s1 h
  simp [assign] at h

theorem onlyErr_unlessNone (tok : String) (st : Stmt L) (h : OnlyErr st) :
    OnlyErr (unlessNone tok st) := by
  intro s s1 hs
  unfold unlessNone at hs
  split at hs
  · exact h s s1 hs
  · cases hs

theorem onlyErr_cpLoop (fields : List String) : OnlyErr (cpLoop (L := L) fields) := by
  intro s s1 h
  simp [cpLoop] at h

theorem neverErr_assignChecked {α : Type} (setX : DataLine L → α → DataLine L)
    (r : α × Option Error) (hr : r.2 = none) : NeverErr (assignChecked setX r) := by
  intro s s1 h
  simp [assignChecked, hr] at h

theorem neverErr_assignLenient {α : Type} (setX : DataLine L → α → DataLine L)
    (r : α × Option Error) : NeverErr (assignLenient setX r) := by
  intro s s1 h
  unfold assignLenient at h
  cases hr : r.2 with
  | none => simp [hr] at h
  | some e =>
    simp [hr] at h
    subst h
    rfl

theorem neverErr_assign (f : DataLine L → DataLine L) : NeverErr (assign f) := by
  intro s s1 h
  simp [assign] at h

theorem neverErr_unlessNone (tok : String) (st : Stmt L)
    (h : tok = "none" ∨ NeverErr st) : NeverErr (unlessNone tok st) := by
  intro s s1 hs
  unfold unlessNone at hs
  split at hs
  · rcases h with h | h
    · contradiction
    · exact h s s1 hs
  · cases hs

theorem neverErr_cpLoop (fields : List String) : NeverErr (cpLoop (L := L) fields) := by
  intro s s1 h
  simp [cpLoop] at h

theorem neverErr_returnNil : NeverErr (returnNil (L := L)) := by
  intro s s1 h
  simp [returnNil] at h
  subst h
  rfl

theorem preserves_assignChecked {α β : Type} (proj : DataLine L → β)
    (setX : DataLine L → α → DataLine L) (r : α × Option Error)
    (h : ∀ l v, proj (setX l v) = proj l) : Preserves proj (assignChecked setX r) := by
  refine ⟨fun s => ?_⟩
  unfold assignChecked
  simp only []
  split <;> simp [Flow.frame, h]

theorem preserves_assignLenient {α β : Type} (proj : DataLine L → β)
    (setX : DataLine L → α → DataLine L) (r : α × Option Error)
    (h : ∀ l v, proj (setX l v) = proj l) : Preserves proj (assignLenient setX r) := by
  refine ⟨fun s => ?_⟩
  unfold assignLenient
  simp only []
  split <;> simp [Flow.frame, h]

theorem preserves_assign {β : Type} (proj : DataLine L → β) (f : DataLine L → DataLine L)
    (h : ∀ l, proj (f l) = proj l) : Preserves proj (assign f) := by
  refine ⟨fun s => ?_⟩
  simp [assign, Flow.frame, h]

theorem preserves_unlessNone {β : Type} (proj : DataLine L → β) (tok : String) (st : Stmt L)
    (h : tok = "none" ∨ Preserves proj st) : Preserves proj (unlessNone tok st) := by
  refine ⟨fun s => ?_⟩
  unfold unlessNone
  split
  · rcases h with h | h
    · contradiction
    · exact h.keeps s
  · rfl

theorem preserves_returnNil {β : Type} (proj : DataLine L → β) :
    Preserves proj (returnNil (L := L)) := by
  refine ⟨fun s => ?_⟩
  simp [returnNil, Flow.frame]

end Rules

/-! ## Rules for `Marshal` -/

section MarshalRules

variable {L : Lib}

theorem onlyErr_stmtsHead (fields : List String) : All OnlyErr (stmtsHead L fields) := by
  simp [stmtsHead, All, onlyErr_assignChecked]

theorem onlyErr_stmtsPack (fields : List String) : All OnlyErr (stmtsPack L fields) := by
  simp [stmtsPack, All, onlyErr_assignChecked]

theorem onlyErr_stmtsTemps (fields : List String) : All OnlyErr (stmtsTemps L fields) := by
  simp [stmtsTemps, All, onlyErr_assignChecked, onlyErr_unlessNone]

theorem onlyErr_stmtsCells (fields : List String) : All OnlyErr (stmtsCells L fields) := by
  simp [stmtsCells, All, onlyErr_assign, onlyErr_cpLoop]

theorem onlyErr_stmtsCar (fields : List String) : All OnlyErr (stmtsCar L fields) := by
  simp [stmtsCar, All, onlyErr_assignChecked, onlyErr_assign]

theorem onlyErr_stmtsPower (fields : List String) : All OnlyErr (stmtsPower L fields) := by
  simp [stmtsPower, All, onlyErr_assignChecked, onlyErr_assign]

theorem onlyErr_stmtsState (fields : List String) : All OnlyErr (stmtsState L fields) := by
  simp [stmtsState, All, onlyErr_assignChecked, onlyErr_assign]

/-- With valid boolean tokens the three boolean statements do not return. -/
theorem onlyErr_stmtsBool (fields : List String)
    (h : ∀ i ∈ boolPositions, (ParseBool (fld fields i)).2 = none) :
    All OnlyErr (stmtsBool L fields) := by
  have h148 := h 148 (by decide)
  have h149 := h 149 (by decide)
  have h150 := h 150 (by decide)
  simp [stmtsBool, All, onlyErr_assignLenient, h148, h149, h150]

theorem marshal_of_length (line : DataLine L) (fields : List String)
    (hlen : fields.length = 159) :
    Marshal L line fields =
      ((run (body L fields) { line := line, err := none }).frame.line,
        (run (body L fields) { line := line, err := none }).frame.err) := by
  simp [Marshal, hlen]

theorem length_of_marshal_nil (line : DataLine L) (fields : List String)
    (h : (Marshal L line fields).2 = none) : fields.length = 159 := by
  by_contra hlen
  simp [Marshal, hlen] at h

/-- If the body is `A ++ M ++ B`, the statements of `A` and `M` return only with an
error, `M` leaves the component `proj` of the record at `v` and `B` does not touch
it, then a call that returns nil leaves `proj` at `v`. -/
theorem marshal_nil_rule {α : Type} (line : DataLine L) (fields : List String)
    (A M B : List (Stmt L)) (proj : DataLine L → α) (v : α)
    (hb : body L fields = A ++ M ++ B) (hA : All OnlyErr A) (hM : All OnlyErr M)
    (hset : ∀ s s1, run M s = .next s1 → proj s1.line = v)
    (hB : All (Preserves proj) B)
    (hnil : (Marshal L line fields).2 = none) :
    proj (Marshal L line fields).1 = v := by
  have hlen := length_of_marshal_nil line fields hnil
  rw [marshal_of_length line fields hlen] at hnil ⊢
  simp only [] at hnil ⊢
  rw [hb, List.append_assoc, run_append] at hnil ⊢
  cases hA1 : run A { line := line, err := none } with
  | ret s1 =>
    simp only [hA1, Flow.frame] at hnil
    exact absurd hnil (run_onlyErr A hA _ s1 hA1)
  | next s1 =>
    simp only [hA1] at hnil ⊢
    rw [run_append] at hnil ⊢
    cases hM1 : run M s1 with
    | ret s2 =>
      simp only [hM1, Flow.frame] at hnil
      exact absurd hnil (run_onlyErr M hM _ s2 hM1)
    | next s2 =>
      simp only [hM1]
      rw [run_preserves proj B hB s2]
      exact hset s1 s2 hM1

/-- If the body is `A ++ st :: B`, the statements of `A` return only with an error
and `st` always returns with an error, then a call on a row of 159 fields returns a
non-nil error. -/
theorem marshal_err_rule (line : DataLine L) (fields : List String)
    (A B : List (Stmt L)) (st : Stmt L)
    (hb : body L fields = A ++ st :: B) (hA : All OnlyErr A)
    (hst : ∀ s, ∃ s1, st s = .ret s1 ∧ s1.err ≠ none)
    (hlen : fields.length = 159) :
    (Marshal L line fields).2 ≠ none := by
  rw [marshal_of_length line fields hlen]
  simp only []
  rw [hb, run_append]
  cases hA1 : run A { line := line, err := none } with
  | ret s1 => exact run_onlyErr A hA _ s1 hA1
  | next s1 =>
    obtain ⟨s2, h2, h3⟩ := hst s1
    simp only [run, h2]
    exact h3

/-- If every statement of the body returns only with a nil error, the call returns
nil on a row of 159 fields. -/
theorem marshal_nil_of_neverErr (line : DataLine L) (fields : List String)
    (hall : All NeverErr (body L fields)) (hlen : fields.length = 159) :
    (Marshal L line fields).2 = none := by
  rw [marshal_of_length line fields hlen]
  simp only []
  cases hr : run (body L fields) { line := line, err := none } with
  | ret s1 => exact run_neverErr _ hall _ s1 hr
  | next s1 =>
    exfalso
    have hb : body L fields =
        (stmtsHead L fields ++ stmtsPack L fields ++ stmtsTemps L fields ++
          stmtsCells L fields ++ stmtsCar L fields ++ stmtsPower L fields ++
          stmtsState L fields ++ stmtsBool L fields ++ (stmtsTail L fields).dropLast) ++
        [returnNil] := by
      simp [body, stmtsTail]
    rw [hb, run_append] at hr
    split at hr
    · simp [run, returnNil] at hr
    · cases hr

end MarshalRules

/-! ## The claims -/

/-- C1: on a row whose number of fields is not 159, `Marshal` returns the
number-of-columns error and the record behind the receiver is the one it was before
the call; no parser of the library takes part in the result. -/
theorem marshal_wrong_length (L : Lib) (line : DataLine L) (fields : List String)
    (h : fields.length ≠ 159) :
    (Marshal L line fields).2 = some columnsError ∧ (Marshal L line fields).1 = line := by
  simp [Marshal, h]

/-- Witness for C1: the sample row without its last field has 158 fields. -/
theorem marshal_wrong_length_witness :
    sampleRow.dropLast.length = 158 ∧
      (Marshal sampleLib zeroLine sampleRow.dropLast).2 = some columnsError ∧
      (Marshal sampleLib zeroLine sampleRow.dropLast).1 = zeroLine :=
  ⟨by decide, marshal_wrong_length sampleLib zeroLine sampleRow.dropLast (by decide)⟩

theorem neverErr_body {L : Lib} (fields : List String) (h : WellFormed L fields) :
    All NeverErr (body L fields) := by
  obtain ⟨_, ht, hl, hi, hf, ho, _, _⟩ := h
  simp only [body, All_append, stmtsHead, stmtsPack, stmtsTemps, stmtsCells, stmtsCar,
    stmtsPower, stmtsState, stmtsBool, stmtsTail, All, and_true]
  repeat' apply And.intro
  all_goals first
    | exact neverErr_assignChecked _ _ ht
    | exact neverErr_assignChecked _ _ hl
    | exact neverErr_assignChecked _ _ (hi _ (by decide))
    | exact neverErr_assignChecked _ _ (hf _ (by decide))
    | exact neverErr_unlessNone _ _ ((ho _ (by decide)).imp id (neverErr_assignChecked _ _))
    | exact neverErr_assign _
    | exact neverErr_cpLoop _
    | exact neverErr_assignLenient _ _
    | exact neverErr_returnNil

/-- C2: on a row of 159 fields in which the date-time, the location, every integer
field, every float field (an optional temperature may also be the sentinel `none`),
all 96 cell fields and the three boolean fields are well-formed, `Marshal` returns
a nil error. -/
theorem marshal_wellFormed_nil (L : Lib) (line : DataLine L) (fields : List String)
    (h : WellFormed L fields) : (Marshal L line fields).2 = none :=
  marshal_nil_of_neverErr line fields (neverErr_body fields h) h.1

/-- The sample row is well-formed for the sample library. -/
theorem wellFormed_sampleRow : WellFormed sampleLib sampleRow := by decide

/-- Witness for C2: the sample row. -/
theorem marshal_wellFormed_nil_witness :
    WellFormed sampleLib sampleRow ∧ (Marshal sampleLib zeroLine sampleRow).2 = none :=
  ⟨wellFormed_sampleRow, marshal_wellFormed_nil sampleLib zeroLine sampleRow wellFormed_sampleRow⟩

/-! ### Splitting the body at a statement -/

section Splits

variable {L : Lib}

theorem list_split3 {α : Type} (X : List α) (k m : Nat) :
    X = X.take k ++ (X.drop k).take m ++ X.drop (k + m) := by
  rw [List.append_assoc, ← List.drop_drop, List.take_append_drop, List.take_append_drop]

theorem onlyErr_beforePower (fields : List String) : All OnlyErr (beforePower L fields) := by
  simp only [beforePower, All_append]
  exact ⟨⟨⟨⟨onlyErr_stmtsHead fields, onlyErr_stmtsPack fields⟩, onlyErr_stmtsTemps fields⟩,
    onlyErr_stmtsCells fields⟩, onlyErr_stmtsCar fields⟩

theorem onlyErr_beforeTail (fields : List String)
    (h : ∀ i ∈ boolPositions, (ParseBool (fld fields i)).2 = none) :
    All OnlyErr (beforeTail L fields) := by
  simp only [beforeTail, All_append]
  exact ⟨⟨⟨onlyErr_beforePower fields, onlyErr_stmtsPower fields⟩, onlyErr_stmtsState fields⟩,
    onlyErr_stmtsBool fields h⟩

/-- The body, split around `m` statements of the power figures that start at
statement `k` of `stmtsPower`. -/
theorem body_split_power (fields : List String) (k m : Nat) :
    body L fields =
      (beforePower L fields ++ (stmtsPower L fields).take k) ++
        ((stmtsPower L fields).drop k).take m ++
        ((stmtsPower L fields).drop (k + m) ++
          (stmtsState L fields ++ stmtsBool L fields ++ stmtsTail L fields)) := by
  have h := list_split3 (stmtsPower L fields) k m
  simp only [body, beforePower, List.append_assoc]
  congr 5
  conv_lhs => rw [h]
  simp only [List.append_assoc]

/-- The body, split around `m` statements of the tail that start at statement `k` of
`stmtsTail`. -/
theorem body_split_tail (fields : List String) (k m : Nat) :
    body L fields =
      (beforeTail L fields ++ (stmtsTail L fields).take k) ++
        ((stmtsTail L fields).drop k).take m ++ (stmtsTail L fields).drop (k + m) := by
  have h := list_split3 (stmtsTail L fields) k m
  simp only [body, beforeTail, beforePower, List.append_assoc]
  congr 8
  conv_lhs => rw [h]
  simp only [List.append_assoc]

/-- A checked parse that goes on has stored the parsed value. -/
theorem run_parse {α : Type} (setX : DataLine L → α → DataLine L) (r : α × Option Error)
    (s s1 : Frame L) (h : run [assignChecked setX r] s = .next s1) :
    s1.line = setX s.line r.1 := by
  cases hr : r.2 with
  | some e => simp [run, assignChecked, hr] at h
  | none =>
    simp [run, assignChecked, hr] at h
    rw [← h]

/-- A checked parse followed by a rescaling that goes on has stored the rescaled
parsed value. -/
theorem run_parse_scale {α : Type} (setX : DataLine L → α → DataLine L)
    (r : α × Option Error) (f : DataLine L → DataLine L)
    (s s1 : Frame L) (h : run [assignChecked setX r, assign f] s = .next s1) :
    s1.line = f (setX s.line r.1) := by
  cases hr : r.2 with
  | some e => simp [run, assignChecked, hr] at h
  | none =>
    simp [run, assignChecked, assign, hr] at h
    rw [← h]

end Splits

theorem wrapInt_of_inRange (z : Int) (h : InIntRange z) : wrapInt z = z := by
  unfold InIntRange at h
  unfold wrapInt
  omega

/-- The power figures after a successful call (used for C3). -/
theorem power_after_nil (L : Lib) (line : DataLine L) (fields : List String)
    (hnil : (Marshal L line fields).2 = none) :
    (Marshal L line fields).1.MotorPwr = (Atoi (fld fields 135)).1 ∧
    (Marshal L line fields).1.AuxPwr = wrapInt ((Atoi (fld fields 136)).1 * 100) ∧
    (Marshal L line fields).1.ACPwr = wrapInt ((Atoi (fld fields 137)).1 * 250) ∧
    (Marshal L line fields).1.ACComp = (Atoi (fld fields 138)).1 ∧
    (Marshal L line fields).1.EstPwrAC = wrapInt ((Atoi (fld fields 139)).1 * 50) ∧
    (Marshal L line fields).1.EstPwrHtr = wrapInt ((Atoi (fld fields 140)).1 * 250) := by
  refine ⟨?_, ?_, ?_, ?_, ?_, ?_⟩
  · refine marshal_nil_rule line fields _ _ _ (fun l => l.MotorPwr) _
      (body_split_power fields 0 1) ?_ ?_ ?_ ?_ hnil
    · simpa [All_append, stmtsPower, All, onlyErr_assignChecked, onlyErr_assign] using
        onlyErr_beforePower fields
    · simp [stmtsPower, All, onlyErr_assignChecked, onlyErr_assign]
    · intro s s1 h
      simp only [stmtsPower, List.drop, List.take] at h
      rw [run_parse _ _ s s1 h]
    · simp only [stmtsPower, stmtsState, stmtsBool, stmtsTail, List.drop, All_append, All,
        and_true]
      repeat' apply And.intro
      all_goals first
        | exact preserves_assignChecked _ _ _ (fun _ _ => rfl)
        | exact preserves_assign _ _ (fun _ => rfl)
        | exact preserves_assignLenient _ _ _ (fun _ _ => rfl)
        | exact preserves_returnNil _
  · refine marshal_nil_rule line fields _ _ _ (fun l => l.AuxPwr) _
      (body_split_power fields 1 2) ?_ ?_ ?_ ?_ hnil
    · simpa [All_append, stmtsPower, All, onlyErr_assignChecked, onlyErr_assign] using
        onlyErr_beforePower fields
    · simp [stmtsPower, All, onlyErr_assignChecked, onlyErr_assign]
    · intro s s1 h
      simp only [stmtsPower, List.drop, List.take] at h
      rw [run_parse_scale _ _ _ s s1 h]
    · simp only [stmtsPower, stmtsState, stmtsBool, stmtsTail, List.drop, All_append, All,
        and_true]
      repeat' apply And.intro
      all_goals first
        | exact preserves_assignChecked _ _ _ (fun _ _ => rfl)
        | exact preserves_assign _ _ (fun _ => rfl)
        | exact preserves_assignLenient _ _ _ (fun _ _ => rfl)
        | exact preserves_returnNil _
  · refine marshal_nil_rule line fields _ _ _ (fun l => l.ACPwr) _
      (body_split_power fields 3 2) ?_ ?_ ?_ ?_ hnil
    · simpa [All_append, stmtsPower, All, onlyErr_assignChecked, onlyErr_assign] using
        onlyErr_beforePower fields
    · simp [stmtsPower, All, onlyErr_assignChecked, onlyErr_assign]
    · intro s s1 h
      simp only [stmtsPower, List.drop, List.take] at h
      rw [run_parse_scale _ _ _ s s1 h]
    · simp only [stmtsPower, stmtsState, stmtsBool, stmtsTail, List.drop, All_append, All,
        and_true]
      repeat' apply And.intro
      all_goals first
        | exact preserves_assignChecked _ _ _ (fun _ _ => rfl)
        | exact preserves_assign _ _ (fun _ => rfl)
        | exact preserves_assignLenient _ _ _ (fun _ _ => rfl)
        | exact preserves_returnNil _
  · refine marshal_nil_rule line fields _ _ _ (fun l => l.ACComp) _
      (body_split_power fields 5 1) ?_ ?_ ?_ ?_ hnil
    · simpa [All_append, stmtsPower, All, onlyErr_assignChecked, onlyErr_assign] using
        onlyErr_beforePower fields
    · simp [stmtsPower, All, onlyErr_assignChecked, onlyErr_assign]
    · intro s s1 h
      simp only [stmtsPower, List.drop, List.take] at h
      rw [run_parse _ _ s s1 h]
    · simp only [stmtsPower, stmtsState, stmtsBool, stmtsTail, List.drop, All_append, All,
        and_true]
      repeat' apply And.intro
      all_goals first
        | exact preserves_assignChecked _ _ _ (fun _ _ => rfl)
        | exact preserves_assign _ _ (fun _ => rfl)
        | exact preserves_assignLenient _ _ _ (fun _ _ => rfl)
        | exact preserves_returnNil _
  · refine marshal_nil_rule line fields _ _ _ (fun l => l.EstPwrAC) _
      (body_split_power fields 6 2) ?_ ?_ ?_ ?_ hnil
    · simpa [All_append, stmtsPower, All, onlyErr_assignChecked, onlyErr_assign] using
        onlyErr_beforePower fields
    · simp [stmtsPower, All, onlyErr_assignChecked, onlyErr_assign]
    · intro s s1 h
      simp only [stmtsPower, List.drop, List.take] at h
      rw [run_parse_scale _ _ _ s s1 h]
    · simp only [stmtsPower, stmtsState, stmtsBool, stmtsTail, List.drop, All_append, All,
        and_true]
      repeat' apply And.intro
      all_goals first
        | exact preserves_assignChecked _ _ _ (fun _ _ => rfl)
        | exact preserves_assign _ _ (fun _ => rfl)
        | exact preserves_assignLenient _ _ _ (fun _ _ => rfl)
        | exact preserves_returnNil _
  · refine marshal_nil_rule line fields _ _ _ (fun l => l.EstPwrHtr) _
      (body_split_power fields 8 2) ?_ ?_ ?_ ?_ hnil
    · simpa [All_append, stmtsPower, All, onlyErr_assignChecked, onlyErr_assign] using
        onlyErr_beforePower fields
    · simp [stmtsPower, All, onlyErr_assignChecked, onlyErr_assign]
    · intro s s1 h
      simp only [stmtsPower, List.drop, List.take] at h
      rw [run_parse_scale _ _ _ s s1 h]
    · simp only [stmtsPower, stmtsState, stmtsBool, stmtsTail, List.drop, All_append, All,
        and_true]
      repeat' apply And.intro
      all_goals first
        | exact preserves_assignChecked _ _ _ (fun _ _ => rfl)
        | exact preserves_assign _ _ (fun _ => rfl)
        | exact preserves_assignLenient _ _ _ (fun _ _ => rfl)
        | exact preserves_returnNil _

/-- C3, as amended: on a well-formed row of 159 fields `Marshal` succeeds and the
power fields hold the raw integers rescaled in Go's 64-bit wrap-around arithmetic,
`AuxPwr = 100 * int(fields[136])`, `ACPwr = 250 * int(fields[137])`,
`EstPwrAC = 50 * int(fields[139])`, `EstPwrHtr = 250 * int(fields[140])`, each equal
to the exact product whenever that product fits in an `int`; raw auxiliary power
`5` decodes to 500; `ACComp` (field 138) and `MotorPwr` (field 135) are stored
unscaled. -/
theorem marshal_power_fields (L : Lib) (line : DataLine L) (fields : List String)
    (h : WellFormed L fields) :
    (Marshal L line fields).2 = none ∧
    (Marshal L line fields).1.AuxPwr = wrapInt (100 * (Atoi (fld fields 136)).1) ∧
    (Marshal L line fields).1.ACPwr = wrapInt (250 * (Atoi (fld fields 137)).1) ∧
    (Marshal L line fields).1.EstPwrAC = wrapInt (50 * (Atoi (fld fields 139)).1) ∧
    (Marshal L line fields).1.EstPwrHtr = wrapInt (250 * (Atoi (fld fields 140)).1) ∧
    (InIntRange (100 * (Atoi (fld fields 136)).1) →
      (Marshal L line fields).1.AuxPwr = 100 * (Atoi (fld fields 136)).1) ∧
    (InIntRange (250 * (Atoi (fld fields 137)).1) →
      (Marshal L line fields).1.ACPwr = 250 * (Atoi (fld fields 137)).1) ∧
    (InIntRange (50 * (Atoi (fld fields 139)).1) →
      (Marshal L line fields).1.EstPwrAC = 50 * (Atoi (fld fields 139)).1) ∧
    (InIntRange (250 * (Atoi (fld fields 140)).1) →
      (Marshal L line fields).1.EstPwrHtr = 250 * (Atoi (fld fields 140)).1) ∧
    (fld fields 136 = "5" → (Marshal L line fields).1.AuxPwr = 500) ∧
    (Marshal L line fields).1.ACComp = (Atoi (fld fields 138)).1 ∧
    (Marshal L line fields).1.MotorPwr = (Atoi (fld fields 135)).1 := by
  have hnil := marshal_nil_of_neverErr line fields (neverErr_body fields h) h.1
  obtain ⟨hm, ha, hac, hcomp, hest, hhtr⟩ := power_after_nil L line fields hnil
  rw [Int.mul_comm] at ha hac hest hhtr
  refine ⟨hnil, ha, hac, hest, hhtr, ?_, ?_, ?_, ?_, ?_, hcomp, hm⟩
  · intro hr
    rw [ha, wrapInt_of_inRange _ hr]
  · intro hr
    rw [hac, wrapInt_of_inRange _ hr]
  · intro hr
    rw [hest, wrapInt_of_inRange _ hr]
  · intro hr
    rw [hhtr, wrapInt_of_inRange _ hr]
  · intro h5
    rw [ha, h5]
    decide

/-- Witness for C3: the sample row, whose auxiliary power field is `5`. -/
theorem marshal_power_fields_witness :
    WellFormed sampleLib sampleRow ∧ fld sampleRow 136 = "5" ∧
      (Marshal sampleLib zeroLine sampleRow).1.AuxPwr = 500 :=
  ⟨wellFormed_sampleRow, by decide,
    (marshal_power_fields sampleLib zeroLine sampleRow wellFormed_sampleRow).2.2.2.2.2.2.2.2.2.1
      (by decide)⟩

/-- Counterexample to C3 as stated: the row whose auxiliary power field is the largest
`int`, `9223372036854775807`, is well-formed and decodes without error, yet `AuxPwr`
is -100 and not 100 times the raw integer, because `line.AuxPwr *= 100` wraps. -/
theorem marshal_auxPwr_wraps :
    WellFormed sampleLib (withField sampleRow 136 "9223372036854775807") ∧
    (Marshal sampleLib zeroLine (withField sampleRow 136 "9223372036854775807")).2 = none ∧
    (Atoi (fld (withField sampleRow 136 "9223372036854775807") 136)).1 =
      9223372036854775807 ∧
    (Marshal sampleLib zeroLine (withField sampleRow 136 "9223372036854775807")).1.AuxPwr =
      -100 ∧
    (Marshal sampleLib zeroLine (withField sampleRow 136 "9223372036854775807")).1.AuxPwr ≠
      100 * (Atoi (fld (withField sampleRow 136 "9223372036854775807") 136)).1 := by
  decide


/-- An assignment stores what it assigns. -/
theorem run_assign {L : Lib} (f : DataLine L → DataLine L) (s s1 : Frame L)
    (h : run [assign f] s = .next s1) : s1.line = f s.line := by
  simp [run, assign] at h
  rw [← h]

/-- The fields after the booleans, after a successful call on a row whose boolean
tokens are valid (used for C4 and C5). -/
theorem tail_after_nil (L : Lib) (line : DataLine L) (fields : List String)
    (hbool : ∀ i ∈ boolPositions, (ParseBool (fld fields i)).2 = none)
    (hnil : (Marshal L line fields).2 = none) :
    (Marshal L line fields).1.Debug = fld fields 151 ∧
    (Marshal L line fields).1.MotorTemp = wrapInt ((Atoi (fld fields 152)).1 - 40) ∧
    (Marshal L line fields).1.Inverter2 = wrapInt ((Atoi (fld fields 153)).1 - 40) ∧
    (Marshal L line fields).1.Inverter4 = wrapInt ((Atoi (fld fields 154)).1 - 40) ∧
    (Marshal L line fields).1.Speed1 =
      (L.ParseFloat (fld fields 155)).1.div (Float64.ofNat 100) ∧
    (Marshal L line fields).1.Speed2 =
      (L.ParseFloat (fld fields 156)).1.div (Float64.ofNat 100) ∧
    (Marshal L line fields).1.WiperStatus = fld fields 157 ∧
    (Marshal L line fields).1.TorqueNm = (L.ParseFloat (fld fields 158)).1 := by
  refine ⟨?_, ?_, ?_, ?_, ?_, ?_, ?_, ?_⟩
  · refine marshal_nil_rule line fields _ _ _ (fun l => l.Debug) _
      (body_split_tail fields 0 1) ?_ ?_ ?_ ?_ hnil
    · simpa [All_append, stmtsTail, All, onlyErr_assignChecked, onlyErr_assign] using
        onlyErr_beforeTail fields hbool
    · simp [stmtsTail, All, onlyErr_assignChecked, onlyErr_assign]
    · intro s s1 h
      simp only [stmtsTail, List.drop, List.take] at h
      rw [run_assign _ s s1 h]
    · simp only [stmtsTail, List.drop, All_append, All, and_true]
      repeat' apply And.intro
      all_goals first
        | exact preserves_assignChecked _ _ _ (fun _ _ => rfl)
        | exact preserves_assign _ _ (fun _ => rfl)
        | exact preserves_returnNil _
  · refine marshal_nil_rule line fields _ _ _ (fun l => l.MotorTemp) _
      (body_split_tail fields 1 2) ?_ ?_ ?_ ?_ hnil
    · simpa [All_append, stmtsTail, All, onlyErr_assignChecked, onlyErr_assign] using
        onlyErr_beforeTail fields hbool
    · simp [stmtsTail, All, onlyErr_assignChecked, onlyErr_assign]
    · intro s s1 h
      simp only [stmtsTail, List.drop, List.take] at h
      rw [run_parse_scale _ _ _ s s1 h]
    · simp only [stmtsTail, List.drop, All_append, All, and_true]
      repeat' apply And.intro
      all_goals first
        | exact preserves_assignChecked _ _ _ (fun _ _ => rfl)
        | exact preserves_assign _ _ (fun _ => rfl)
        | exact preserves_returnNil _
  · refine marshal_nil_rule line fields _ _ _ (fun l => l.Inverter2) _
      (body_split_tail fields 3 2) ?_ ?_ ?_ ?_ hnil
    · simpa [All_append, stmtsTail, All, onlyErr_assignChecked, onlyErr_assign] using
        onlyErr_beforeTail fields hbool
    · simp [stmtsTail, All, onlyErr_assignChecked, onlyErr_assign]
    · intro s s1 h
      simp only [stmtsTail, List.drop, List.take] at h
      rw [run_parse_scale _ _ _ s s1 h]
    · simp only [stmtsTail, List.drop, All_append, All, and_true]
      repeat' apply And.intro
      all_goals first
        | exact preserves_assignChecked _ _ _ (fun _ _ => rfl)
        | exact preserves_assign _ _ (fun _ => rfl)
        | exact preserves_returnNil _
  · refine marshal_nil_rule line fields _ _ _ (fun l => l.Inverter4) _
      (body_split_tail fields 5 2) ?_ ?_ ?_ ?_ hnil
    · simpa [All_append, stmtsTail, All, onlyErr_assignChecked, onlyErr_assign] using
        onlyErr_beforeTail fields hbool
    · simp [stmtsTail, All, onlyErr_assignChecked, onlyErr_assign]
    · intro s s1 h
      simp only [stmtsTail, List.drop, List.take] at h
      rw [run_parse_scale _ _ _ s s1 h]
    · simp only [stmtsTail, List.drop, All_append, All, and_true]
      repeat' apply And.intro
      all_goals first
        | exact preserves_assignChecked _ _ _ (fun _ _ => rfl)
        | exact preserves_assign _ _ (fun _ => rfl)
        | exact preserves_returnNil _
  · refine marshal_nil_rule line fields _ _ _ (fun l => l.Speed1) _
      (body_split_tail fields 7 2) ?_ ?_ ?_ ?_ hnil
    · simpa [All_append, stmtsTail, All, onlyErr_assignChecked, onlyErr_assign] using
        onlyErr_beforeTail fields hbool
    · simp [stmtsTail, All, onlyErr_assignChecked, onlyErr_assign]
    · intro s s1 h
      simp only [stmtsTail, List.drop, List.take] at h
      rw [run_parse_scale _ _ _ s s1 h]
    · simp only [stmtsTail, List.drop, All_append, All, and_true]
      repeat' apply And.intro
      all_goals first
        | exact preserves_assignChecked _ _ _ (fun _ _ => rfl)
        | exact preserves_assign _ _ (fun _ => rfl)
        | exact preserves_returnNil _
  · refine marshal_nil_rule line fields _ _ _ (fun l => l.Speed2) _
      (body_split_tail fields 9 2) ?_ ?_ ?_ ?_ hnil
    · simpa [All_append, stmtsTail, All, onlyErr_assignChecked, onlyErr_assign] using
        onlyErr_beforeTail fields hbool
    · simp [stmtsTail, All, onlyErr_assignChecked, onlyErr_assign]
    · intro s s1 h
      simp only [stmtsTail, List.drop, List.take] at h
      rw [run_parse_scale _ _ _ s s1 h]
    · simp only [stmtsTail, List.drop, All_append, All, and_true]
      repeat' apply And.intro
      all_goals first
        | exact preserves_assignChecked _ _ _ (fun _ _ => rfl)
        | exact preserves_assign _ _ (fun _ => rfl)
        | exact preserves_returnNil _
  · refine marshal_nil_rule line fields _ _ _ (fun l => l.WiperStatus) _
      (body_split_tail fields 11 1) ?_ ?_ ?_ ?_ hnil
    · simpa [All_append, stmtsTail, All, onlyErr_assignChecked, onlyErr_assign] using
        onlyErr_beforeTail fields hbool
    · simp [stmtsTail, All, onlyErr_assignChecked, onlyErr_assign]
    · intro s s1 h
      simp only [stmtsTail, List.drop, List.take] at h
      rw [run_assign _ s s1 h]
    · simp only [stmtsTail, List.drop, All_append, All, and_true]
      repeat' apply And.intro
      all_goals first
        | exact preserves_assignChecked _ _ _ (fun _ _ => rfl)
        | exact preserves_assign _ _ (fun _ => rfl)
        | exact preserves_returnNil _
  · refine marshal_nil_rule line fields _ _ _ (fun l => l.TorqueNm) _
      (body_split_tail fields 12 1) ?_ ?_ ?_ ?_ hnil
    · simpa [All_append, stmtsTail, All, onlyErr_assignChecked, onlyErr_assign] using
        onlyErr_beforeTail fields hbool
    · simp [stmtsTail, All, onlyErr_assignChecked, onlyErr_assign]
    · intro s s1 h
      simp only [stmtsTail, List.drop, List.take] at h
      rw [run_parse _ _ s s1 h]
    · simp only [stmtsTail, List.drop, All, and_true]
      exact preserves_returnNil _

/-- C4, as amended: on a well-formed row of 159 fields `Marshal` succeeds and
`MotorTemp`, `Inverter2` and `Inverter4` hold `int(fields[152]) - 40`,
`int(fields[153]) - 40` and `int(fields[154]) - 40` computed in Go's 64-bit
wrap-around arithmetic, each equal to the exact difference whenever that difference
fits in an `int`; raw motor temperature `30` decodes to -10. -/
theorem marshal_temperature_fields (L : Lib) (line : DataLine L) (fields : List String)
    (h : WellFormed L fields) :
    (Marshal L line fields).2 = none ∧
    (Marshal L line fields).1.MotorTemp = wrapInt ((Atoi (fld fields 152)).1 - 40) ∧
    (Marshal L line fields).1.Inverter2 = wrapInt ((Atoi (fld fields 153)).1 - 40) ∧
    (Marshal L line fields).1.Inverter4 = wrapInt ((Atoi (fld fields 154)).1 - 40) ∧
    (InIntRange ((Atoi (fld fields 152)).1 - 40) →
      (Marshal L line fields).1.MotorTemp = (Atoi (fld fields 152)).1 - 40) ∧
    (InIntRange ((Atoi (fld fields 153)).1 - 40) →
      (Marshal L line fields).1.Inverter2 = (Atoi (fld fields 153)).1 - 40) ∧
    (InIntRange ((Atoi (fld fields 154)).1 - 40) →
      (Marshal L line fields).1.Inverter4 = (Atoi (fld fields 154)).1 - 40) ∧
    (fld fields 152 = "30" → (Marshal L line fields).1.MotorTemp = -10) := by
  have hnil := marshal_nil_of_neverErr line fields (neverErr_body fields h) h.1
  obtain ⟨_, hm, h2, h4, _⟩ := tail_after_nil L line fields h.2.2.2.2.2.2.2 hnil
  refine ⟨hnil, hm, h2, h4, ?_, ?_, ?_, ?_⟩
  · intro hr
    rw [hm, wrapInt_of_inRange _ hr]
  · intro hr
    rw [h2, wrapInt_of_inRange _ hr]
  · intro hr
    rw [h4, wrapInt_of_inRange _ hr]
  · intro h30
    rw [hm, h30]
    decide

/-- Witness for C4: the sample row, whose motor temperature field is `30`. -/
theorem marshal_temperature_fields_witness :
    WellFormed sampleLib sampleRow ∧ fld sampleRow 152 = "30" ∧
      (Marshal sampleLib zeroLine sampleRow).1.MotorTemp = -10 :=
  ⟨wellFormed_sampleRow, by decide,
    (marshal_temperature_fields sampleLib zeroLine sampleRow wellFormed_sampleRow).2.2.2.2.2.2.2
      (by decide)⟩

/-- Counterexample to C4 as stated: the row whose motor temperature field is the
smallest `int`, `-9223372036854775808`, is well-formed and decodes without error, yet
`MotorTemp` is 9223372036854775768 and not the raw integer minus 40, because
`line.MotorTemp -= 40` wraps. -/
theorem marshal_motorTemp_wraps :
    WellFormed sampleLib (withField sampleRow 152 "-9223372036854775808") ∧
    (Marshal sampleLib zeroLine (withField sampleRow 152 "-9223372036854775808")).2 = none ∧
    (Atoi (fld (withField sampleRow 152 "-9223372036854775808") 152)).1 =
      -9223372036854775808 ∧
    (Marshal sampleLib zeroLine
      (withField sampleRow 152 "-9223372036854775808")).1.MotorTemp = 9223372036854775768 ∧
    (Marshal sampleLib zeroLine
      (withField sampleRow 152 "-9223372036854775808")).1.MotorTemp ≠
      (Atoi (fld (withField sampleRow 152 "-9223372036854775808") 152)).1 - 40 := by
  decide

/-- C5: on a well-formed row of 159 fields `Marshal` succeeds, `Speed1` is the
`float64` value of `fields[155]` divided by 100 and `Speed2` the `float64` value of
`fields[156]` divided by 100, the division being that of `float64`; when the value
parsed from field 155 is 2495, `Speed1` is the `float64` nearest to 2495/100, that is
24.95. -/
theorem marshal_speed_fields (L : Lib) (line : DataLine L) (fields : List String)
    (h : WellFormed L fields) :
    (Marshal L line fields).2 = none ∧
    (Marshal L line fields).1.Speed1 =
      (L.ParseFloat (fld fields 155)).1.div (Float64.ofNat 100) ∧
    (Marshal L line fields).1.Speed2 =
      (L.ParseFloat (fld fields 156)).1.div (Float64.ofNat 100) ∧
    ((L.ParseFloat (fld fields 155)).1 = Float64.ofNat 2495 →
      (Marshal L line fields).1.Speed1 = Float64.roundNearestEven false 2495 100) := by
  have hnil := marshal_nil_of_neverErr line fields (neverErr_body fields h) h.1
  obtain ⟨_, _, _, _, h1, h2, _⟩ := tail_after_nil L line fields h.2.2.2.2.2.2.2 hnil
  refine ⟨hnil, h1, h2, ?_⟩
  intro hv
  rw [h1, hv]
  decide

/-- Witness for C5: the sample row, whose field 155 is `2495`; the speed is the
`float64` 7022800668930867 * 2^(-48), the one nearest to 24.95. -/
theorem marshal_speed_fields_witness :
    WellFormed sampleLib sampleRow ∧ fld sampleRow 155 = "2495" ∧
      (sampleLib.ParseFloat (fld sampleRow 155)).1 = Float64.ofNat 2495 ∧
      (Marshal sampleLib zeroLine sampleRow).1.Speed1 = Float64.roundNearestEven false 2495 100 ∧
      Float64.roundNearestEven false 2495 100 = Float64.fin false 7022800668930867 (-48) :=
  ⟨wellFormed_sampleRow, by decide, by decide,
    (marshal_speed_fields sampleLib zeroLine sampleRow wellFormed_sampleRow).2.2.2 (by decide),
    by decide⟩


/-! ### The optional pack temperatures -/

theorem preserves_cpLoop {L : Lib} {β : Type} (proj : DataLine L → β) (fields : List String)
    (h : ∀ l m, proj { l with CP := m } = proj l) : Preserves proj (cpLoop fields) := by
  refine ⟨fun s => ?_⟩
  simp only [cpLoop, Flow.frame]
  generalize List.range' 1 96 = xs
  induction xs generalizing s with
  | nil => rfl
  | cons i rest ih =>
    simp only [List.foldl_cons]
    rw [ih]
    unfold cpStep
    exact h _ _

/-- If no statement of the body touches a component of the record, the call leaves
it as it was, whatever it returns. -/
theorem marshal_preserves {L : Lib} {β : Type} (proj : DataLine L → β) (line : DataLine L)
    (fields : List String) (hall : All (Preserves proj) (body L fields)) :
    proj (Marshal L line fields).1 = proj line := by
  unfold Marshal
  split
  · rfl
  · exact run_preserves proj _ hall _

/-- With the sentinel at position `k`, no statement touches the field of `k`. -/
theorem preserves_optField {L : Lib} (fields : List String) (k : Nat)
    (hk : k ∈ optPositions) (h : fld fields k = "none") :
    All (Preserves (fun l => optField l k)) (body L fields) := by
  simp only [optPositions, List.mem_cons, List.mem_singleton, List.not_mem_nil, or_false] at hk
  rcases hk with rfl | rfl | rfl | rfl | rfl | rfl | rfl | rfl
  all_goals
    simp only [body, All_append, stmtsHead, stmtsPack, stmtsTemps, stmtsCells, stmtsCar,
      stmtsPower, stmtsState, stmtsBool, stmtsTail, All, and_true]
    simp [preserves_assignChecked, preserves_assign, preserves_assignLenient,
      preserves_unlessNone, preserves_cpLoop, preserves_returnNil, optField, h]

/-- The body, split before statement `k` of the optional temperatures. -/
theorem body_split_temps {L : Lib} (fields : List String) (k : Nat) :
    body L fields =
      (stmtsHead L fields ++ stmtsPack L fields ++ (stmtsTemps L fields).take k) ++
        ((stmtsTemps L fields).drop k ++
          (stmtsCells L fields ++ stmtsCar L fields ++ stmtsPower L fields ++
            stmtsState L fields ++ stmtsBool L fields ++ stmtsTail L fields)) := by
  have h := (List.take_append_drop k (stmtsTemps L fields)).symm
  simp only [body, List.append_assoc]
  congr 2
  conv_lhs => rw [h]
  simp only [List.append_assoc]

/-- An optional temperature that is neither the sentinel nor a float makes its
statement return with the parse error. -/
theorem unlessNone_fails {L : Lib} {α : Type} (tok : String)
    (setX : DataLine L → α → DataLine L) (r : α × Option Error)
    (h1 : tok ≠ "none") (h2 : r.2 ≠ none) (s : Frame L) :
    ∃ s1, unlessNone tok (assignChecked setX r) s = .ret s1 ∧ s1.err ≠ none := by
  cases hr : r.2 with
  | none => exact absurd hr h2
  | some e =>
    refine ⟨{ line := setX s.line r.1, err := some e }, ?_, by simp⟩
    simp [unlessNone, assignChecked, h1, hr]

/-- An optional temperature that is neither the sentinel nor a float is a decode
failure. -/
theorem marshal_optField_fails {L : Lib} (line : DataLine L) (fields : List String) (k : Nat)
    (hk : k ∈ optPositions) (hlen : fields.length = 159) (h1 : fld fields k ≠ "none")
    (h2 : (L.ParseFloat (fld fields k)).2 ≠ none) : (Marshal L line fields).2 ≠ none := by
  have hpre : All OnlyErr (stmtsHead L fields ++ stmtsPack L fields) := by
    rw [All_append]
    exact ⟨onlyErr_stmtsHead fields, onlyErr_stmtsPack fields⟩
  simp only [optPositions, List.mem_cons, List.mem_singleton, List.not_mem_nil, or_false] at hk
  rcases hk with rfl | rfl | rfl | rfl | rfl | rfl | rfl | rfl
  · have hb := body_split_temps (L := L) fields 0
    simp only [stmtsTemps, List.drop, List.take, List.cons_append] at hb
    refine marshal_err_rule line fields _ _ _ hb ?_ (unlessNone_fails _ _ _ h1 h2) hlen
    rw [All_append]
    exact ⟨hpre, by simp [All, onlyErr_unlessNone, onlyErr_assignChecked]⟩
  · have hb := body_split_temps (L := L) fields 1
    simp only [stmtsTemps, List.drop, List.take, List.cons_append] at hb
    refine marshal_err_rule line fields _ _ _ hb ?_ (unlessNone_fails _ _ _ h1 h2) hlen
    rw [All_append]
    exact ⟨hpre, by simp [All, onlyErr_unlessNone, onlyErr_assignChecked]⟩
  · have hb := body_split_temps (L := L) fields 2
    simp only [stmtsTemps, List.drop, List.take, List.cons_append] at hb
    refine marshal_err_rule line fields _ _ _ hb ?_ (unlessNone_fails _ _ _ h1 h2) hlen
    rw [All_append]
    exact ⟨hpre, by simp [All, onlyErr_unlessNone, onlyErr_assignChecked]⟩
  · have hb := body_split_temps (L := L) fields 3
    simp only [stmtsTemps, List.drop, List.take, List.cons_append] at hb
    refine marshal_err_rule line fields _ _ _ hb ?_ (unlessNone_fails _ _ _ h1 h2) hlen
    rw [All_append]
    exact ⟨hpre, by simp [All, onlyErr_unlessNone, onlyErr_assignChecked]⟩
  · have hb := body_split_temps (L := L) fields 4
    simp only [stmtsTemps, List.drop, List.take, List.cons_append] at hb
    refine marshal_err_rule line fields _ _ _ hb ?_ (unlessNone_fails _ _ _ h1 h2) hlen
    rw [All_append]
    exact ⟨hpre, by simp [All, onlyErr_unlessNone, onlyErr_assignChecked]⟩
  · have hb := body_split_temps (L := L) fields 5
    simp only [stmtsTemps, List.drop, List.take, List.cons_append] at hb
    refine marshal_err_rule line fields _ _ _ hb ?_ (unlessNone_fails _ _ _ h1 h2) hlen
    rw [All_append]
    exact ⟨hpre, by simp [All, onlyErr_unlessNone, onlyErr_assignChecked]⟩
  · have hb := body_split_temps (L := L) fields 6
    simp only [stmtsTemps, List.drop, List.take, List.cons_append] at hb
    refine marshal_err_rule line fields _ _ _ hb ?_ (unlessNone_fails _ _ _ h1 h2) hlen
    rw [All_append]
    exact ⟨hpre, by simp [All, onlyErr_unlessNone, onlyErr_assignChecked]⟩
  · have hb := body_split_temps (L := L) fields 7
    simp only [stmtsTemps, List.drop, List.take, List.cons_append] at hb
    refine marshal_err_rule line fields _ _ _ hb ?_ (unlessNone_fails _ _ _ h1 h2) hlen
    rw [All_append]
    exact ⟨hpre, by simp [All, onlyErr_unlessNone, onlyErr_assignChecked]⟩

/-! ### The cell table -/

theorem cp_fold {L : Lib} (fields : List String) (n : Nat) (s : Frame L)
    (hs : s.line.CP = []) :
    ((List.range' 1 n).foldl (cpStep fields) s).line.CP = cpTable fields n := by
  induction n with
  | zero => simpa [cpTable] using hs
  | succ n ih =>
    rw [List.range'_1_concat, List.foldl_append]
    simp only [List.foldl_cons, List.foldl_nil, cpStep, GoMap.set]
    rw [ih]
    have hfilter : (cpTable fields n).filter (fun p => decide (p.1 ≠ ((1 + n : Nat) : Int))) =
        cpTable fields n := by
      rw [List.filter_eq_self]
      intro p hp
      simp only [cpTable, List.mem_map, List.mem_reverse, List.mem_range'_1] at hp
      obtain ⟨i, hi, rfl⟩ := hp
      simp only [ne_eq, decide_eq_true_eq]
      omega
    rw [hfilter]
    simp [cpTable, List.range'_1_concat]

theorem cpTable_len (fields : List String) (n : Nat) : (cpTable fields n).len = n := by
  simp [cpTable, GoMap.len]

theorem cpTable_keys (fields : List String) (n : Nat) (k : Int) :
    k ∈ (cpTable fields n).keys ↔ 1 ≤ k ∧ k ≤ n := by
  simp only [cpTable, GoMap.keys, List.map_map, List.mem_map, List.mem_reverse,
    List.mem_range'_1, Function.comp]
  constructor
  · rintro ⟨i, hi, rfl⟩
    omega
  · intro hk
    refine ⟨k.toNat, ?_, ?_⟩ <;> omega

theorem cpTable_get (fields : List String) (n i : Nat) (h1 : 1 ≤ i) (hn : i ≤ n) :
    (cpTable fields n).get? (i : Int) = some (Atoi (fld fields (22 + i))).1 := by
  have hmem : i ∈ (List.range' 1 n).reverse := by
    simp only [List.mem_reverse, List.mem_range'_1]
    omega
  unfold cpTable GoMap.get?
  generalize (List.range' 1 n).reverse = l at hmem
  induction l with
  | nil => cases hmem
  | cons j rest ih =>
    by_cases hj : j = i
    · subst hj
      simp
    · have hne : ¬ ((j : Int) = (i : Int)) := by omega
      have hrest : i ∈ rest := by
        rcases List.mem_cons.mp hmem with h | h
        · exact absurd h.symm hj
        · exact h
      simp only [List.map_cons, decide_eq_true_eq]
      rw [List.find?_cons_of_neg _ (by simpa using hne)]
      simpa using ih hrest

/-- The cell table after a successful call (used for C7 and C8). -/
theorem cp_after_nil (L : Lib) (line : DataLine L) (fields : List String)
    (hnil : (Marshal L line fields).2 = none) :
    (Marshal L line fields).1.CP = cpTable fields 96 := by
  have hb : body L fields =
      (stmtsHead L fields ++ stmtsPack L fields ++ stmtsTemps L fields) ++ stmtsCells L fields ++
        (stmtsCar L fields ++ stmtsPower L fields ++ stmtsState L fields ++ stmtsBool L fields ++
          stmtsTail L fields) := by
    simp only [body, List.append_assoc]
  refine marshal_nil_rule line fields _ _ _ (fun l => l.CP) _ hb ?_ ?_ ?_ ?_ hnil
  · simp only [All_append]
    exact ⟨⟨onlyErr_stmtsHead fields, onlyErr_stmtsPack fields⟩, onlyErr_stmtsTemps fields⟩
  · exact onlyErr_stmtsCells fields
  · intro s s1 h
    simp only [stmtsCells, run, assign, cpLoop, Flow.next.injEq] at h
    rw [← h]
    exact cp_fold fields 96 _ rfl
  · simp only [stmtsCar, stmtsPower, stmtsState, stmtsBool, stmtsTail, All_append, All,
      and_true]
    repeat' apply And.intro
    all_goals first
      | exact preserves_assignChecked _ _ _ (fun _ _ => rfl)
      | exact preserves_assign _ _ (fun _ => rfl)
      | exact preserves_assignLenient _ _ _ (fun _ _ => rfl)
      | exact preserves_returnNil _

theorem cpTable_nodup (fields : List String) (n : Nat) : (cpTable fields n).keys.Nodup := by
  simp only [cpTable, GoMap.keys, List.map_map]
  refine List.Nodup.map ?_ (List.nodup_reverse.mpr (List.nodup_range' 1 n))
  intro a b h
  simpa using h

/-- C7: whenever `Marshal` returns a nil error, the `CP` map of the record has
exactly 96 entries and its keys are exactly 1, 2, ..., 96 (each once), whatever the
record behind the receiver held before the call. -/
theorem marshal_cp_keys (L : Lib) (line : DataLine L) (fields : List String)
    (hnil : (Marshal L line fields).2 = none) :
    (Marshal L line fields).1.CP.len = 96 ∧
    (Marshal L line fields).1.CP.keys.Nodup ∧
    ∀ k : Int, k ∈ (Marshal L line fields).1.CP.keys ↔ 1 ≤ k ∧ k ≤ 96 := by
  rw [cp_after_nil L line fields hnil]
  exact ⟨cpTable_len fields 96, cpTable_nodup fields 96, fun k => cpTable_keys fields 96 k⟩

/-- Witness for C7: decoding the sample row into a record whose `CP` map held the
keys 0, 200 and 5. -/
theorem marshal_cp_keys_witness :
    (Marshal sampleLib usedLine sampleRow).2 = none ∧
    (Marshal sampleLib usedLine sampleRow).1.CP.len = 96 ∧
    (0 : Int) ∉ (Marshal sampleLib usedLine sampleRow).1.CP.keys ∧
    (96 : Int) ∈ (Marshal sampleLib usedLine sampleRow).1.CP.keys :=
  ⟨by decide, (marshal_cp_keys sampleLib usedLine sampleRow (by decide)).1,
    fun h => absurd (((marshal_cp_keys sampleLib usedLine sampleRow (by decide)).2.2 0).mp h).1
      (by decide),
    ((marshal_cp_keys sampleLib usedLine sampleRow (by decide)).2.2 96).mpr (by decide)⟩

/-- An optional temperature that is not the sentinel and whose statement goes on has
stored the parsed value. -/
theorem run_unlessNone_parse {L : Lib} {α : Type} (tok : String)
    (setX : DataLine L → α → DataLine L) (r : α × Option Error) (htok : tok ≠ "none")
    (s s1 : Frame L) (h : run [unlessNone tok (assignChecked setX r)] s = .next s1) :
    s1.line = setX s.line r.1 := by
  cases hr : r.2 with
  | some e => simp [run, unlessNone, assignChecked, htok, hr] at h
  | none =>
    simp [run, unlessNone, assignChecked, htok, hr] at h
    rw [← h]

/-- `PackT4C` after a successful call on a row whose field 22 is not the sentinel. -/
theorem packT4C_after_nil (L : Lib) (line : DataLine L) (fields : List String)
    (h22 : fld fields 22 ≠ "none") (hnil : (Marshal L line fields).2 = none) :
    (Marshal L line fields).1.PackT4C = (L.ParseFloat (fld fields 22)).1 := by
  have hb := body_split_temps (L := L) fields 7
  simp only [stmtsTemps, List.drop, List.take] at hb
  rw [← List.append_assoc] at hb
  refine marshal_nil_rule line fields _ _ _ (fun l => l.PackT4C) _ hb ?_ ?_ ?_ ?_ hnil
  · simp only [All_append]
    exact ⟨⟨onlyErr_stmtsHead fields, onlyErr_stmtsPack fields⟩,
      by simp [All, onlyErr_unlessNone, onlyErr_assignChecked]⟩
  · simp [All, onlyErr_unlessNone, onlyErr_assignChecked]
  · intro s s1 h
    rw [run_unlessNone_parse _ _ _ h22 s s1 h]
  · simp only [stmtsCells, stmtsCar, stmtsPower, stmtsState, stmtsBool, stmtsTail, All_append,
      All, and_true]
    simp [preserves_assignChecked, preserves_assign, preserves_assignLenient, preserves_cpLoop,
      preserves_returnNil]

/-- `Bat12VAmp` after a successful call. -/
theorem bat12VAmp_after_nil (L : Lib) (line : DataLine L) (fields : List String)
    (hnil : (Marshal L line fields).2 = none) :
    (Marshal L line fields).1.Bat12VAmp = (L.ParseFloat (fld fields 119)).1 := by
  have hb : body L fields =
      (stmtsHead L fields ++ stmtsPack L fields ++ stmtsTemps L fields ++ stmtsCells L fields) ++
        (stmtsCar L fields).take 1 ++
        ((stmtsCar L fields).drop 1 ++ (stmtsPower L fields ++ stmtsState L fields ++
          stmtsBool L fields ++ stmtsTail L fields)) := by
    have h : ∀ x : List (Stmt L), (stmtsCar L fields).take 1 ++ ((stmtsCar L fields).drop 1 ++ x) =
        stmtsCar L fields ++ x := fun x => by
      rw [← List.append_assoc, List.take_append_drop]
    simp only [body, List.append_assoc, h]
  refine marshal_nil_rule line fields _ _ _ (fun l => l.Bat12VAmp) _ hb ?_ ?_ ?_ ?_ hnil
  · simp only [All_append]
    exact ⟨⟨⟨onlyErr_stmtsHead fields, onlyErr_stmtsPack fields⟩, onlyErr_stmtsTemps fields⟩,
      onlyErr_stmtsCells fields⟩
  · simp [stmtsCar, All, onlyErr_assignChecked]
  · intro s s1 h
    simp only [stmtsCar, List.take] at h
    rw [run_parse _ _ s s1 h]
  · simp only [stmtsCar, stmtsPower, stmtsState, stmtsBool, stmtsTail, List.drop, All_append,
      All, and_true]
    simp [preserves_assignChecked, preserves_assign, preserves_assignLenient,
      preserves_returnNil]

/-- C8: whenever `Marshal` succeeds, `CP[i]` is the integer `strconv.Atoi` returns
for `fields[22+i]`, for every `i` from 1 to 96: the 96 cell fields are the positions
23 to 118, stored under their 1-based index, between `PackT4C`, decoded from field 22,
and `Bat12VAmp`, decoded from field 119. -/
theorem marshal_cp_values (L : Lib) (line : DataLine L) (fields : List String)
    (hnil : (Marshal L line fields).2 = none) :
    (∀ i : Nat, 1 ≤ i → i ≤ 96 →
      (Marshal L line fields).1.CP.get? (i : Int) = some (Atoi (fld fields (22 + i))).1) ∧
    (fld fields 22 ≠ "none" →
      (Marshal L line fields).1.PackT4C = (L.ParseFloat (fld fields 22)).1) ∧
    (Marshal L line fields).1.Bat12VAmp = (L.ParseFloat (fld fields 119)).1 := by
  refine ⟨?_, fun h22 => packT4C_after_nil L line fields h22 hnil,
    bat12VAmp_after_nil L line fields hnil⟩
  intro i h1 h96
  rw [cp_after_nil L line fields hnil]
  exact cpTable_get fields 96 i h1 h96

/-- Witness for C8: in the decoded `cellRow`, `CP[1]` is 4001 and `CP[96]` is 4096. -/
theorem marshal_cp_values_witness :
    (Marshal sampleLib zeroLine cellRow).2 = none ∧
    (Marshal sampleLib zeroLine cellRow).1.CP.get? 1 = some 4001 ∧
    (Marshal sampleLib zeroLine cellRow).1.CP.get? 96 = some 4096 :=
  ⟨by decide,
    ((marshal_cp_values sampleLib zeroLine cellRow (by decide)).1 1 (by decide) (by decide)).trans
      (by decide),
    ((marshal_cp_values sampleLib zeroLine cellRow (by decide)).1 96 (by decide) (by decide)).trans
      (by decide)⟩


/-- C9, the code at the failing input: the sample row with its first cell (field 23)
set to `x` has 159 fields and `strconv.Atoi` rejects the cell, yet `Marshal` returns
nil and stores 0 under key 1, because the error of the cell loop is overwritten by
the parse of `Bat12VAmp`. -/
theorem marshal_bad_cell_returns_nil :
    (withField sampleRow 23 "x").length = 159 ∧
    (Atoi (fld (withField sampleRow 23 "x") 23)).2 =
      some (.numError "Atoi" "x" .ErrSyntax) ∧
    (Marshal sampleLib zeroLine (withField sampleRow 23 "x")).2 = none ∧
    (Marshal sampleLib zeroLine (withField sampleRow 23 "x")).1.CP.get? 1 = some 0 := by
  decide

/-! ### Fail-fast order -/

section Reports

variable {L : Lib}

theorem reports_assignChecked {α : Type} (setX : DataLine L → α → DataLine L)
    (r : α × Option Error) : Reports (assignChecked setX r) r.2 := by
  constructor
  · intro e he s
    exact ⟨{ line := setX s.line r.1, err := r.2 }, by simp [assignChecked, he], he⟩
  · intro he s
    exact ⟨{ line := setX s.line r.1, err := r.2 }, by simp [assignChecked, he]⟩

theorem reports_assign (f : DataLine L → DataLine L) : Reports (assign f) none := by
  constructor
  · intro e he
    cases he
  · intro _ s
    exact ⟨_, rfl⟩

theorem reports_cpLoop (fields : List String) : Reports (cpLoop (L := L) fields) none := by
  constructor
  · intro e he
    cases he
  · intro _ s
    exact ⟨_, rfl⟩

theorem reports_unlessNone (tok : String) (st : Stmt L) (oe : Option Error)
    (h : Reports st oe) :
    Reports (unlessNone tok st) (if tok = "none" then none else oe) := by
  by_cases htok : tok = "none"
  · simp only [htok, if_true]
    constructor
    · intro e he
      cases he
    · intro _ s
      exact ⟨s, by simp [unlessNone]⟩
  · simp only [htok, if_false]
    constructor
    · intro e he s
      obtain ⟨s1, h1, h2⟩ := h.ret e he s
      exact ⟨s1, by simp [unlessNone, htok, h1], h2⟩
    · intro he s
      obtain ⟨s1, h1⟩ := h.next he s
      exact ⟨s1, by simp [unlessNone, htok, h1]⟩

/-- When some statement reports an error, the run returns with the first one. -/
theorem run_reports_some (A : List (Stmt L)) (E : List (Option Error)) (h : AllReport A E)
    (e : Error) (hE : E.findSome? id = some e) (s : Frame L) :
    ∃ s1, run A s = .ret s1 ∧ s1.err = some e := by
  induction A generalizing E s with
  | nil =>
    cases E with
    | nil => simp at hE
    | cons oe E => simp [AllReport] at h
  | cons st A ih =>
    cases E with
    | nil => simp [AllReport] at h
    | cons oe E =>
      obtain ⟨h1, h2⟩ := h
      cases hoe : oe with
      | some e1 =>
        simp only [hoe, List.findSome?_cons, id, Option.some.injEq] at hE
        subst hE
        obtain ⟨s1, hs1, herr⟩ := h1.ret e1 hoe s
        exact ⟨s1, by simp [run, hs1], herr⟩
      | none =>
        simp only [hoe, List.findSome?_cons, id] at hE
        obtain ⟨s1, hs1⟩ := h1.next hoe s
        obtain ⟨s2, hs2, herr⟩ := ih E h2 hE s1
        exact ⟨s2, by simp [run, hs1, hs2], herr⟩

end Reports

theorem midPositions_checked : midPositions.filterMap id = checkedPositions := by decide

theorem findSome_bind {α β : Type} (g : α → Option β) (l : List (Option α)) :
    (l.map (fun o => o.bind g)).findSome? id = (l.filterMap id).findSome? g := by
  induction l with
  | nil => rfl
  | cons o rest ih =>
    cases o with
    | none => simpa [List.findSome?_cons] using ih
    | some a =>
      cases hg : g a with
      | none => simpa [List.findSome?_cons, hg] using ih
      | some b => simp [List.findSome?_cons, hg]

/-- The statements of fields 4 to 147 report the parse errors of their positions. -/
theorem allReport_mid (L : Lib) (fields : List String) :
    AllReport
      (stmtsPack L fields ++ stmtsTemps L fields ++ stmtsCells L fields ++ stmtsCar L fields ++
        stmtsPower L fields ++ stmtsState L fields)
      (midPositions.map (fun o => o.bind (fieldError L fields))) := by
  simp only [stmtsPack, stmtsTemps, stmtsCells, stmtsCar, stmtsPower, stmtsState,
    List.cons_append, List.nil_append, midPositions, List.map_cons, List.map_nil,
    Option.bind_some, Option.bind_none, AllReport, and_true]
  simp [fieldError, intPositions, floatPositions, optPositions, reports_assignChecked,
    reports_assign, reports_cpLoop, reports_unlessNone]

theorem plain_subset_checked : ∀ i ∈ plainPositions, i ∈ checkedPositions := by decide

/-- With a date-time and a location that parse, a call on a row of 159 fields in
which some checked field is invalid returns the first of the parse errors. -/
theorem marshal_returns_firstError {L : Lib} (line : DataLine L) (fields : List String)
    (hlen : fields.length = 159)
    (ht : (L.timeParse "2006/01/02 15:04:05" (fld fields 0)).2 = none)
    (hl : (L.parseLocation (fld fields 1) (fld fields 2) (fld fields 3)).2 = none)
    (e : Error) (he : firstError L fields = some e) :
    (Marshal L line fields).2 = some e := by
  have hb : body L fields =
      (stmtsHead L fields ++
        (stmtsPack L fields ++ stmtsTemps L fields ++ stmtsCells L fields ++ stmtsCar L fields ++
          stmtsPower L fields ++ stmtsState L fields)) ++
        (stmtsBool L fields ++ stmtsTail L fields) := by
    simp only [body, List.append_assoc]
  have hrep : AllReport
      (stmtsHead L fields ++
        (stmtsPack L fields ++ stmtsTemps L fields ++ stmtsCells L fields ++ stmtsCar L fields ++
          stmtsPower L fields ++ stmtsState L fields))
      ((L.timeParse "2006/01/02 15:04:05" (fld fields 0)).2 ::
        (L.parseLocation (fld fields 1) (fld fields 2) (fld fields 3)).2 ::
        midPositions.map (fun o => o.bind (fieldError L fields))) := by
    simp only [stmtsHead, List.cons_append, List.nil_append, AllReport]
    exact ⟨reports_assignChecked _ _, reports_assignChecked _ _, allReport_mid L fields⟩
  have hfind : ((L.timeParse "2006/01/02 15:04:05" (fld fields 0)).2 ::
        (L.parseLocation (fld fields 1) (fld fields 2) (fld fields 3)).2 ::
        midPositions.map (fun o => o.bind (fieldError L fields))).findSome? id = some e := by
    rw [List.findSome?_cons, ht, List.findSome?_cons, hl]
    simp only [id]
    rw [findSome_bind, midPositions_checked]
    exact he
  obtain ⟨s1, hs1, herr⟩ := run_reports_some _ _ hrep e hfind { line := line, err := none }
  rw [marshal_of_length line fields hlen]
  simp only []
  rw [hb, run_append, hs1]
  exact herr

/-- C10: on a row of 159 fields whose date-time and location parse, if a plain
integer or float field at positions 4 to 14, 119 or 121 to 146 is not syntactically
valid, `Marshal` returns a non-nil error, and that error is the parse error of the
lowest-positioned invalid field among the positions 4 to 22 and 119 to 146: the
fields listed before it are all valid. -/
theorem marshal_first_error (L : Lib) (line : DataLine L) (fields : List String)
    (hlen : fields.length = 159)
    (ht : (L.timeParse "2006/01/02 15:04:05" (fld fields 0)).2 = none)
    (hl : (L.parseLocation (fld fields 1) (fld fields 2) (fld fields 3)).2 = none)
    (hbad : ∃ i ∈ plainPositions, fieldError L fields i ≠ none) :
    (Marshal L line fields).2 ≠ none ∧
    (Marshal L line fields).2 = firstError L fields ∧
    ∃ pre k post, checkedPositions = pre ++ k :: post ∧
      fieldError L fields k = (Marshal L line fields).2 ∧
      ∀ j ∈ pre, fieldError L fields j = none := by
  obtain ⟨i, hi, hne⟩ := hbad
  have hsome : firstError L fields ≠ none := by
    intro hnone
    rw [firstError, List.findSome?_eq_none_iff] at hnone
    exact hne (hnone i (plain_subset_checked i hi))
  obtain ⟨e, he⟩ := Option.ne_none_iff_exists'.mp hsome
  have hm := marshal_returns_firstError line fields hlen ht hl e he
  refine ⟨by rw [hm]; simp, by rw [hm, he], ?_⟩
  obtain ⟨pre, k, post, h1, h2, h3⟩ := List.findSome?_eq_some_iff.mp he
  exact ⟨pre, k, post, h1, by rw [hm, h2], h3⟩

/-- Witness for C10: the row with invalid fields 5 and 121 returns the `Atoi` error of
field 5, the lower position. -/
theorem marshal_first_error_witness :
    fieldError sampleLib twoBadRow 5 = some (.numError "Atoi" "x" .ErrSyntax) ∧
    fieldError sampleLib twoBadRow 121 = some (.numError "ParseFloat" "y" .ErrSyntax) ∧
    (Marshal sampleLib zeroLine twoBadRow).2 = firstError sampleLib twoBadRow ∧
    firstError sampleLib twoBadRow = some (.numError "Atoi" "x" .ErrSyntax) :=
  ⟨by decide, by decide,
    (marshal_first_error sampleLib zeroLine twoBadRow (by decide) (by decide) (by decide)
      ⟨5, by decide, by decide⟩).2.1,
    by decide⟩

/-! ### The boolean fields -/

/-- When no statement reports an error, the run goes through all of them. -/
theorem run_reports_none {L : Lib} (A : List (Stmt L)) (E : List (Option Error))
    (h : AllReport A E) (hE : E.findSome? id = none) (s : Frame L) :
    ∃ s1, run A s = .next s1 := by
  induction A generalizing E s with
  | nil => exact ⟨s, rfl⟩
  | cons st A ih =>
    cases E with
    | nil => simp [AllReport] at h
    | cons oe E =>
      obtain ⟨h1, h2⟩ := h
      cases hoe : oe with
      | some e1 => simp [hoe, List.findSome?_cons] at hE
      | none =>
        simp only [hoe, List.findSome?_cons, id] at hE
        obtain ⟨s1, hs1⟩ := h1.next hoe s
        obtain ⟨s2, hs2⟩ := ih E h2 hE s1
        exact ⟨s2, by simp [run, hs1, hs2]⟩

/-- The statements of fields 0 to 147, and the errors they report. -/
theorem allReport_upTo147 (L : Lib) (fields : List String) :
    AllReport
      (stmtsHead L fields ++
        (stmtsPack L fields ++ stmtsTemps L fields ++ stmtsCells L fields ++ stmtsCar L fields ++
          stmtsPower L fields ++ stmtsState L fields))
      ((L.timeParse "2006/01/02 15:04:05" (fld fields 0)).2 ::
        (L.parseLocation (fld fields 1) (fld fields 2) (fld fields 3)).2 ::
        midPositions.map (fun o => o.bind (fieldError L fields))) := by
  simp only [stmtsHead, List.cons_append, List.nil_append, AllReport]
  exact ⟨reports_assignChecked _ _, reports_assignChecked _ _, allReport_mid L fields⟩

/-- With a date-time and a location that parse and valid fields at the positions 4 to
22 and 119 to 146, the statements of fields 0 to 147 all go on. -/
theorem run_upTo147 {L : Lib} (fields : List String)
    (ht : (L.timeParse "2006/01/02 15:04:05" (fld fields 0)).2 = none)
    (hl : (L.parseLocation (fld fields 1) (fld fields 2) (fld fields 3)).2 = none)
    (hok : ∀ i ∈ checkedPositions, fieldError L fields i = none) (s : Frame L) :
    ∃ s1, run (stmtsHead L fields ++
        (stmtsPack L fields ++ stmtsTemps L fields ++ stmtsCells L fields ++ stmtsCar L fields ++
          stmtsPower L fields ++ stmtsState L fields)) s = .next s1 := by
  refine run_reports_none _ _ (allReport_upTo147 L fields) ?_ s
  rw [List.findSome?_cons, ht, List.findSome?_cons, hl]
  simp only [id]
  rw [findSome_bind, midPositions_checked, List.findSome?_eq_none_iff]
  exact hok

/-- The body, split before the booleans. -/
theorem body_split_bool {L : Lib} (fields : List String) :
    body L fields =
      (stmtsHead L fields ++
        (stmtsPack L fields ++ stmtsTemps L fields ++ stmtsCells L fields ++ stmtsCar L fields ++
          stmtsPower L fields ++ stmtsState L fields)) ++
        (stmtsBool L fields ++ stmtsTail L fields) := by
  simp only [body, List.append_assoc]

/-- With an invalid boolean token, the boolean statements return nil. -/
theorem run_bool_stops {L : Lib} (fields : List String) (B : List (Stmt L))
    (hbad : ∃ i ∈ boolPositions, (ParseBool (fld fields i)).2 ≠ none) (s : Frame L) :
    ∃ s1, run (stmtsBool L fields ++ B) s = .ret s1 ∧ s1.err = none := by
  obtain ⟨i, hi, hne⟩ := hbad
  simp only [boolPositions, List.mem_cons, List.mem_singleton, List.not_mem_nil, or_false] at hi
  cases h148 : (ParseBool (fld fields 148)).2 with
  | some e => simp [stmtsBool, run, assignLenient, h148]
  | none =>
    cases h149 : (ParseBool (fld fields 149)).2 with
    | some e => simp [stmtsBool, run, assignLenient, h148, h149]
    | none =>
      cases h150 : (ParseBool (fld fields 150)).2 with
      | some e => simp [stmtsBool, run, assignLenient, h148, h149, h150]
      | none =>
        rcases hi with rfl | rfl | rfl
        · exact absurd h148 hne
        · exact absurd h149 hne
        · exact absurd h150 hne

/-- C11: on a row of 159 fields whose fields before position 148 all decode (the
date-time and the location parse, the fields at positions 4 to 22 and 119 to 146 are
valid), if the token of `PowerSW` (148), `BMS` (149) or `OBC` (150) is not a valid
boolean, `Marshal` does not report a decode failure: it returns a nil error. -/
theorem marshal_bad_bool_nil (L : Lib) (line : DataLine L) (fields : List String)
    (hlen : fields.length = 159)
    (ht : (L.timeParse "2006/01/02 15:04:05" (fld fields 0)).2 = none)
    (hl : (L.parseLocation (fld fields 1) (fld fields 2) (fld fields 3)).2 = none)
    (hok : ∀ i ∈ checkedPositions, fieldError L fields i = none)
    (hbad : ∃ i ∈ boolPositions, (ParseBool (fld fields i)).2 ≠ none) :
    (Marshal L line fields).2 = none := by
  obtain ⟨s1, hs1⟩ := run_upTo147 fields ht hl hok { line := line, err := none }
  obtain ⟨s2, hs2, herr⟩ := run_bool_stops fields (stmtsTail L fields) hbad s1
  rw [marshal_of_length line fields hlen]
  simp only []
  rw [body_split_bool, run_append, hs1]
  simp only [hs2, Flow.frame]
  exact herr

/-- Witness for C11: the sample row with the `BMS` token (field 149) set to `maybe`. -/
theorem marshal_bad_bool_nil_witness :
    (ParseBool (fld (withField sampleRow 149 "maybe") 149)).2 ≠ none ∧
    (Marshal sampleLib zeroLine (withField sampleRow 149 "maybe")).2 = none :=
  ⟨by decide,
    marshal_bad_bool_nil sampleLib zeroLine (withField sampleRow 149 "maybe") (by decide)
      (by decide) (by decide) (by decide) ⟨149, by decide, by decide⟩⟩

/-! ### The complete decode -/

/-- An optional temperature that is the sentinel or parses: its statement goes on,
and the field holds the parsed value unless the token is the sentinel. -/
theorem unlessNone_ok {L : Lib} {α : Type} (tok : String) (setX : DataLine L → α → DataLine L)
    (getX : DataLine L → α) (r : α × Option Error) (heta : ∀ l, setX l (getX l) = l)
    (h : tok = "none" ∨ r.2 = none) (s : Frame L) :
    unlessNone tok (assignChecked setX r) s =
      .next { line := setX s.line (if tok = "none" then getX s.line else r.1),
              err := if tok = "none" then s.err else none } := by
  by_cases htok : tok = "none"
  · simp [unlessNone, htok, heta]
  · have hr : r.2 = none := h.resolve_left htok
    simp [unlessNone, assignChecked, htok, hr]

/-- The cell loop only changes `CP`. -/
theorem cp_fold_line {L : Lib} (fields : List String) (xs : List Nat) (s : Frame L) :
    (xs.foldl (cpStep fields) s).line =
      { s.line with CP := (xs.foldl (cpStep fields) s).line.CP } := by
  induction xs generalizing s with
  | nil => rfl
  | cons i rest ih =>
    simp only [List.foldl_cons]
    rw [ih]
    simp [cpStep]

/-- The cell loop, started on an empty map, leaves the cell table. -/
theorem cpLoop_eq {L : Lib} (fields : List String) (s : Frame L) (hs : s.line.CP = []) :
    cpLoop fields s =
      .next { line := { s.line with CP := cpTable fields 96 },
              err := ((List.range' 1 96).foldl (cpStep fields) s).err } := by
  unfold cpLoop
  have h1 := cp_fold_line fields (List.range' 1 96) s
  have h2 := cp_fold fields 96 s hs
  generalize (List.range' 1 96).foldl (cpStep fields) s = t at h1 h2 ⊢
  cases t with
  | mk l e =>
    simp only [] at h1 h2 ⊢
    rw [h2] at h1
    rw [← h1]

/-- On a decodable row `Marshal` runs to the final `return nil` and leaves the
decoded record. -/
theorem marshal_decodable {L : Lib} (line : DataLine L) (fields : List String)
    (h : Decodable L fields) :
    Marshal L line fields = (decoded L line fields, none) := by
  obtain ⟨hlen, ht, hl, hi, hf, ho, hb⟩ := h
  have h15 := unlessNone_ok (fld fields 15) (fun (l : DataLine L) v => { l with PackT1F := v })
    (fun l => l.PackT1F) (L.ParseFloat (fld fields 15)) (fun _ => rfl) (ho 15 (by decide))
  have h16 := unlessNone_ok (fld fields 16) (fun (l : DataLine L) v => { l with PackT1C := v })
    (fun l => l.PackT1C) (L.ParseFloat (fld fields 16)) (fun _ => rfl) (ho 16 (by decide))
  have h17 := unlessNone_ok (fld fields 17) (fun (l : DataLine L) v => { l with PackT2F := v })
    (fun l => l.PackT2F) (L.ParseFloat (fld fields 17)) (fun _ => rfl) (ho 17 (by decide))
  have h18 := unlessNone_ok (fld fields 18) (fun (l : DataLine L) v => { l with PackT2C := v })
    (fun l => l.PackT2C) (L.ParseFloat (fld fields 18)) (fun _ => rfl) (ho 18 (by decide))
  have h19 := unlessNone_ok (fld fields 19) (fun (l : DataLine L) v => { l with PackT3F := v })
    (fun l => l.PackT3F) (L.ParseFloat (fld fields 19)) (fun _ => rfl) (ho 19 (by decide))
  have h20 := unlessNone_ok (fld fields 20) (fun (l : DataLine L) v => { l with PackT3C := v })
    (fun l => l.PackT3C) (L.ParseFloat (fld fields 20)) (fun _ => rfl) (ho 20 (by decide))
  have h21 := unlessNone_ok (fld fields 21) (fun (l : DataLine L) v => { l with PackT4F := v })
    (fun l => l.PackT4F) (L.ParseFloat (fld fields 21)) (fun _ => rfl) (ho 21 (by decide))
  have h22 := unlessNone_ok (fld fields 22) (fun (l : DataLine L) v => { l with PackT4C := v })
    (fun l => l.PackT4C) (L.ParseFloat (fld fields 22)) (fun _ => rfl) (ho 22 (by decide))
  rw [marshal_of_length line fields hlen]
  simp only [body, stmtsHead, stmtsPack, stmtsTemps, stmtsCells, stmtsCar, stmtsPower,
    stmtsState, stmtsBool, stmtsTail, List.cons_append, List.nil_append]
  simp [run, h15, h16, h17, h18, h19, h20, h21, h22, assignChecked, assignLenient, assign,
    returnNil, cpLoop_eq, Flow.frame, ht, hl, hi, hf, hb, intPositions, floatPositions,
    boolPositions, decoded]

theorem reports_assignLenient {L : Lib} {α : Type} (setX : DataLine L → α → DataLine L)
    (r : α × Option Error) (hr : r.2 = none) : Reports (assignLenient setX r) none := by
  constructor
  · intro e he
    cases he
  · intro _ s
    exact ⟨{ line := setX s.line r.1, err := r.2 }, by simp [assignLenient, hr]⟩

theorem AllReport_append {L : Lib} (A B : List (Stmt L)) (E F : List (Option Error))
    (hA : AllReport A E) (hB : AllReport B F) : AllReport (A ++ B) (E ++ F) := by
  induction A generalizing E with
  | nil =>
    cases E with
    | nil => simpa using hB
    | cons oe E => simp [AllReport] at hA
  | cons st A ih =>
    cases E with
    | nil => simp [AllReport] at hA
    | cons oe E => exact ⟨hA.1, ih E hA.2⟩

/-- With valid boolean tokens, the boolean statements go on. -/
theorem allReport_bool {L : Lib} (fields : List String)
    (hbool : ∀ i ∈ boolPositions, (ParseBool (fld fields i)).2 = none) :
    AllReport (stmtsBool L fields) [none, none, none] := by
  simp only [stmtsBool, AllReport, and_true]
  exact ⟨reports_assignLenient _ _ (hbool 148 (by decide)),
    reports_assignLenient _ _ (hbool 149 (by decide)),
    reports_assignLenient _ _ (hbool 150 (by decide))⟩

/-- The statements of fields 151 to 158 report the parse errors of their positions. -/
theorem allReport_tail (L : Lib) (fields : List String) :
    AllReport (stmtsTail L fields).dropLast
      (tailPositions.map (fun o => o.bind (fieldError L fields))) := by
  simp only [stmtsTail, List.dropLast, tailPositions, List.map_cons, List.map_nil,
    Option.bind_some, Option.bind_none, AllReport, and_true]
  simp [fieldError, intPositions, floatPositions, optPositions, reports_assignChecked,
    reports_assign]

theorem tailPositions_checked :
    checkedPositions ++ tailPositions.filterMap id = allCheckedPositions := by decide

/-- With valid boolean tokens, a call on a row of 159 fields in which the date-time,
the location or a checked field is invalid returns a non-nil error. -/
theorem marshal_err_of_invalid {L : Lib} (line : DataLine L) (fields : List String)
    (hlen : fields.length = 159)
    (hbool : ∀ i ∈ boolPositions, (ParseBool (fld fields i)).2 = none)
    (e : Error)
    (he : (reportedErrors L fields).findSome? id = some e) :
    (Marshal L line fields).2 = some e := by
  have hb : body L fields =
      ((stmtsHead L fields ++
        (stmtsPack L fields ++ stmtsTemps L fields ++ stmtsCells L fields ++ stmtsCar L fields ++
          stmtsPower L fields ++ stmtsState L fields)) ++ stmtsBool L fields ++
        (stmtsTail L fields).dropLast) ++ [returnNil] := by
    simp [body, stmtsTail]
  have hrep := AllReport_append _ _ _ _
    (AllReport_append _ _ _ _ (allReport_upTo147 L fields) (allReport_bool fields hbool))
    (allReport_tail L fields)
  obtain ⟨s1, hs1, herr⟩ := run_reports_some _ _ hrep e he { line := line, err := none }
  rw [marshal_of_length line fields hlen]
  simp only []
  rw [hb, run_append, hs1]
  exact herr

/-- A call that returns nil on a row whose boolean tokens are valid has decoded every
field: the row is decodable. -/
theorem decodable_of_nil {L : Lib} (line : DataLine L) (fields : List String)
    (hbool : ∀ i ∈ boolPositions, (ParseBool (fld fields i)).2 = none)
    (hnil : (Marshal L line fields).2 = none) : Decodable L fields := by
  have hlen := length_of_marshal_nil line fields hnil
  have hnone : (reportedErrors L fields).findSome? id = none := by
    cases hE : (reportedErrors L fields).findSome? id with
    | none => rfl
    | some e =>
      rw [marshal_err_of_invalid line fields hlen hbool e hE] at hnil
      cases hnil
  rw [reportedErrors, List.append_assoc, List.cons_append, List.cons_append,
    List.findSome?_cons] at hnone
  cases ht : (L.timeParse "2006/01/02 15:04:05" (fld fields 0)).2 with
  | some e => simp [ht] at hnone
  | none =>
    rw [ht, List.findSome?_cons] at hnone
    cases hl : (L.parseLocation (fld fields 1) (fld fields 2) (fld fields 3)).2 with
    | some e => simp [hl] at hnone
    | none =>
      rw [hl] at hnone
      simp only [id] at hnone
      have hall : ∀ i ∈ allCheckedPositions, fieldError L fields i = none := by
        rw [List.findSome?_append, List.findSome?_append, findSome_bind, findSome_bind,
          midPositions_checked] at hnone
        simp only [List.findSome?_cons, List.findSome?_nil, id, Option.none_or,
          Option.or_eq_none, List.findSome?_eq_none_iff] at hnone
        intro i hi
        rw [← tailPositions_checked, List.mem_append] at hi
        rcases hi with hi | hi
        · exact hnone.1 i hi
        · exact hnone.2 i hi
      refine ⟨hlen, ht, hl, ?_, ?_, ?_, hbool⟩
      · intro i hi
        have h1 : i ∈ allCheckedPositions := by revert i; decide
        have h2 := hall i h1
        simpa [fieldError, hi] using h2
      · intro i hi
        have h1 : i ∈ allCheckedPositions := by revert i; decide
        have h0 : i ∉ intPositions := by revert i; decide
        have h2 := hall i h1
        simpa [fieldError, hi, h0] using h2
      · intro i hi
        have h1 : i ∈ allCheckedPositions := by revert i; decide
        have h0 : i ∉ intPositions := by revert i; decide
        have h0' : i ∉ floatPositions := by revert i; decide
        have h2 := hall i h1
        simp only [fieldError, hi, h0, h0', if_true, if_false] at h2
        by_cases hn : fld fields i = "none"
        · exact Or.inl hn
        · simp only [hn, if_false] at h2
          exact Or.inr h2

/-- C12, as amended: for every row and every prior state of the receiver, whenever
`Marshal` returns nil on a row whose three boolean tokens are valid, every record
field has been assigned from the row - the record is `decoded L line fields`, with
`Debug = fields[151]`, `WiperStatus = fields[157]`, `MotorTemp = int(fields[152]) - 40`
in Go's wrap-around arithmetic (the exact difference when it fits in an `int`) and
`TorqueNm` the value of `fields[158]` - the only exception being the optional
temperatures whose token is `none`, which keep the receiver's value. -/
theorem marshal_nil_assigns_all (L : Lib) (line : DataLine L) (fields : List String)
    (hbool : ∀ i ∈ boolPositions, (ParseBool (fld fields i)).2 = none)
    (hnil : (Marshal L line fields).2 = none) :
    (Marshal L line fields).1 = decoded L line fields ∧
    (Marshal L line fields).1.Debug = fld fields 151 ∧
    (Marshal L line fields).1.WiperStatus = fld fields 157 ∧
    (Marshal L line fields).1.MotorTemp = wrapInt ((Atoi (fld fields 152)).1 - 40) ∧
    (InIntRange ((Atoi (fld fields 152)).1 - 40) →
      (Marshal L line fields).1.MotorTemp = (Atoi (fld fields 152)).1 - 40) ∧
    (Marshal L line fields).1.TorqueNm = (L.ParseFloat (fld fields 158)).1 ∧
    (∀ k ∈ optPositions, fld fields k ≠ "none" →
      optField (Marshal L line fields).1 k = (L.ParseFloat (fld fields k)).1) := by
  have hm := marshal_decodable line fields (decodable_of_nil line fields hbool hnil)
  rw [hm]
  refine ⟨rfl, rfl, rfl, rfl, ?_, rfl, ?_⟩
  · intro hr
    simp only [decoded]
    exact wrapInt_of_inRange _ hr
  · intro k hk hne
    simp only [optPositions, List.mem_cons, List.mem_singleton, List.not_mem_nil,
      or_false] at hk
    rcases hk with rfl | rfl | rfl | rfl | rfl | rfl | rfl | rfl <;>
      simp [optField, decoded, hne]

/-- Witness for C12: the sample row, decoded into a record that held other values. -/
theorem marshal_nil_assigns_all_witness :
    (Marshal sampleLib usedLine sampleRow).2 = none ∧
    (Marshal sampleLib usedLine sampleRow).1.Debug = "0" ∧
    (Marshal sampleLib usedLine sampleRow).1.MotorTemp = -10 :=
  ⟨by decide,
    (marshal_nil_assigns_all sampleLib usedLine sampleRow (by decide) (by decide)).2.1.trans
      (by decide),
    (marshal_nil_assigns_all sampleLib usedLine sampleRow (by decide) (by decide)).2.2.2.1.trans
      (by decide)⟩

/-- Counterexample to C12 as stated: on the sample row with the `PowerSW` token
(field 148) set to `maybe`, `Marshal` returns nil, yet `Debug`, `MotorTemp` and
`WiperStatus`, which are neither optional temperatures nor booleans, have not been
assigned from the row: they hold the zero values of the receiver. -/
theorem marshal_bad_bool_skips_rest :
    (Marshal sampleLib zeroLine (withField sampleRow 148 "maybe")).2 = none ∧
    fld (withField sampleRow 148 "maybe") 151 = "0" ∧
    (Marshal sampleLib zeroLine (withField sampleRow 148 "maybe")).1.Debug = "" ∧
    (Atoi (fld (withField sampleRow 148 "maybe") 152)).1 - 40 = -10 ∧
    (Marshal sampleLib zeroLine (withField sampleRow 148 "maybe")).1.MotorTemp = 0 ∧
    fld (withField sampleRow 148 "maybe") 157 = "0" ∧
    (Marshal sampleLib zeroLine (withField sampleRow 148 "maybe")).1.WiperStatus = "" := by
  decide

/-! ### Failing rows: the record a failing decode leaves -/

theorem int_stop : ∀ i ∈ intPositions,
    i ∈ stopPositions ∧ i ≠ 0 ∧ i ≠ 1 ∧ i ∉ boolPositions := by decide

theorem float_stop : ∀ i ∈ floatPositions,
    i ∈ stopPositions ∧ i ≠ 0 ∧ i ≠ 1 ∧ i ∉ boolPositions ∧ i ∉ intPositions := by decide

theorem opt_stop : ∀ i ∈ optPositions,
    i ∈ stopPositions ∧ i ≠ 0 ∧ i ≠ 1 ∧ i ∉ boolPositions ∧ i ∉ intPositions ∧
      i ∉ floatPositions := by decide

theorem bool_stop : ∀ i ∈ boolPositions, i ∈ stopPositions ∧ i ≠ 0 ∧ i ≠ 1 := by decide

/-- What the validity of the positions before `k` says, type by type. -/
theorem validBefore_facts {L : Lib} (fields : List String) (k : Nat)
    (h : ValidBefore L fields k) :
    (0 < k → (L.timeParse "2006/01/02 15:04:05" (fld fields 0)).2 = none) ∧
    (1 < k → (L.parseLocation (fld fields 1) (fld fields 2) (fld fields 3)).2 = none) ∧
    (∀ i ∈ intPositions, i < k → (Atoi (fld fields i)).2 = none) ∧
    (∀ i ∈ floatPositions, i < k → (L.ParseFloat (fld fields i)).2 = none) ∧
    (∀ i ∈ optPositions, i < k →
      fld fields i = "none" ∨ (L.ParseFloat (fld fields i)).2 = none) ∧
    (∀ i ∈ boolPositions, i < k → (ParseBool (fld fields i)).2 = none) := by
  refine ⟨?_, ?_, ?_, ?_, ?_, ?_⟩
  · intro hk
    simpa [posError] using h 0 (by decide) hk
  · intro hk
    simpa [posError] using h 1 (by decide) hk
  · intro i hi hk
    obtain ⟨h1, h2, h3, h4⟩ := int_stop i hi
    simpa [posError, fieldError, hi, h2, h3, h4] using h i h1 hk
  · intro i hi hk
    obtain ⟨h1, h2, h3, h4, h5⟩ := float_stop i hi
    simpa [posError, fieldError, hi, h2, h3, h4, h5] using h i h1 hk
  · intro i hi hk
    obtain ⟨h1, h2, h3, h4, h5, h6⟩ := opt_stop i hi
    have h7 := h i h1 hk
    simp only [posError, fieldError, hi, h2, h3, h4, h5, h6, if_true, if_false] at h7
    by_cases hn : fld fields i = "none"
    · exact Or.inl hn
    · simp only [hn, if_false] at h7
      exact Or.inr h7
  · intro i hi hk
    obtain ⟨h1, h2, h3⟩ := bool_stop i hi
    simpa [posError, hi, h2, h3] using h i h1 hk

theorem validBefore_mono {L : Lib} (fields : List String) (b k : Nat) (hb : b ≤ k)
    (h : ValidBefore L fields k) : ValidBefore L fields b :=
  fun j hj hjb => h j hj (Nat.lt_of_lt_of_le hjb hb)

/-- The date-time and the location: the statements stop at the first that fails. -/
theorem stop_head {L : Lib} (line : DataLine L) (fields : List String) (k : Nat)
    (hk : k ∈ [0, 1]) (hv : ValidBefore L fields k) (e : Error)
    (he : posError L fields k = some e) (B : List (Stmt L)) :
    run (stmtsHead L fields ++ B) { line := line, err := none } =
      .ret { line := partialRecord L line fields k, err := some e } := by
  obtain ⟨ht, -, -, -, -, -⟩ := validBefore_facts fields k hv
  simp only [List.mem_cons, List.mem_singleton, List.not_mem_nil, or_false] at hk
  rcases hk with rfl | rfl
  all_goals
    simp [posError] at he
    simp only [stmtsHead, List.cons_append, List.nil_append]
    simp [run, assignChecked, ht, he, partialRecord]

theorem pass_head {L : Lib} (line : DataLine L) (fields : List String)
    (hv : ValidBefore L fields 2) :
    ∃ e1, run (stmtsHead L fields) { line := line, err := none } =
      .next { line := partialRecord L line fields 1, err := e1 } := by
  obtain ⟨ht, hl, -, -, -, -⟩ := validBefore_facts fields 2 hv
  simp only [stmtsHead]
  simp [run, assignChecked, ht, hl, partialRecord]

/-- An optional temperature that is neither the sentinel nor a float: its statement
returns with the parser's value in the field and the parser's error. -/
theorem unlessNone_ret {L : Lib} {α : Type} (tok : String)
    (setX : DataLine L → α → DataLine L) (r : α × Option Error)
    (h1 : tok ≠ "none") (h2 : r.2 ≠ none) (s : Frame L) :
    unlessNone tok (assignChecked setX r) s = .ret { line := setX s.line r.1, err := r.2 } := by
  cases hr : r.2 with
  | none => exact absurd hr h2
  | some e => simp [unlessNone, assignChecked, h1, hr]

/-- The statements of the positions 4 to 14 stop at the lowest position that fails. -/
theorem stop_pack {L : Lib} (line : DataLine L) (fields : List String) (k : Nat)
    (hk : k ∈ [4, 5, 6, 7, 8, 9, 10, 11, 12, 13, 14])
    (hv : ValidBefore L fields k) (e : Error) (he : posError L fields k = some e)
    (B : List (Stmt L)) (e0 : Option Error) :
    run (stmtsPack L fields ++ B) { line := partialRecord L line fields 1, err := e0 } =
      .ret { line := partialRecord L line fields k, err := some e } := by
  obtain ⟨-, -, hi, hf, ho, hb⟩ := validBefore_facts fields k hv
  simp only [List.mem_cons, List.mem_singleton, List.not_mem_nil, or_false] at hk
  rcases hk with rfl | rfl | rfl | rfl | rfl | rfl | rfl | rfl | rfl | rfl | rfl
  all_goals try (simp [posError, fieldError, intPositions, floatPositions, optPositions,
    boolPositions] at he)
  all_goals
    simp only [stmtsPack, List.cons_append, List.nil_append, List.append_assoc]
    simp [run, assignChecked, assignLenient, assign, hi, hf, hb, he, partialRecord, intPositions,
      floatPositions, boolPositions]

theorem pass_pack {L : Lib} (line : DataLine L) (fields : List String)
    (hv : ValidBefore L fields 15) (e0 : Option Error) :
    ∃ e1, run (stmtsPack L fields) { line := partialRecord L line fields 1, err := e0 } =
      .next { line := partialRecord L line fields 14, err := e1 } := by
  obtain ⟨-, -, hi, hf, ho, hb⟩ := validBefore_facts fields 15 hv
  simp only [stmtsPack, List.cons_append, List.nil_append, List.append_assoc]
  simp [run, assignChecked, assignLenient, assign, hi, hf, hb, partialRecord, intPositions,
    floatPositions, boolPositions]

/-- The statements of the positions 15 to 22 stop at the lowest position that fails. -/
theorem stop_temps {L : Lib} (line : DataLine L) (fields : List String) (k : Nat)
    (hk : k ∈ [15, 16, 17, 18, 19, 20, 21, 22])
    (hv : ValidBefore L fields k) (e : Error) (he : posError L fields k = some e)
    (B : List (Stmt L)) (e0 : Option Error) :
    run (stmtsTemps L fields ++ B) { line := partialRecord L line fields 14, err := e0 } =
      .ret { line := partialRecord L line fields k, err := some e } := by
  obtain ⟨-, -, hi, hf, ho, hb⟩ := validBefore_facts fields k hv
  have h15 : 15 < k → ∀ s : Frame L, _ := fun hlt =>
    unlessNone_ok (fld fields 15) (fun (l : DataLine L) v => { l with PackT1F := v })
      (fun l => l.PackT1F) (L.ParseFloat (fld fields 15)) (fun _ => rfl) (ho 15 (by decide) hlt)
  have h16 : 16 < k → ∀ s : Frame L, _ := fun hlt =>
    unlessNone_ok (fld fields 16) (fun (l : DataLine L) v => { l with PackT1C := v })
      (fun l => l.PackT1C) (L.ParseFloat (fld fields 16)) (fun _ => rfl) (ho 16 (by decide) hlt)
  have h17 : 17 < k → ∀ s : Frame L, _ := fun hlt =>
    unlessNone_ok (fld fields 17) (fun (l : DataLine L) v => { l with PackT2F := v })
      (fun l => l.PackT2F) (L.ParseFloat (fld fields 17)) (fun _ => rfl) (ho 17 (by decide) hlt)
  have h18 : 18 < k → ∀ s : Frame L, _ := fun hlt =>
    unlessNone_ok (fld fields 18) (fun (l : DataLine L) v => { l with PackT2C := v })
      (fun l => l.PackT2C) (L.ParseFloat (fld fields 18)) (fun _ => rfl) (ho 18 (by decide) hlt)
  have h19 : 19 < k → ∀ s : Frame L, _ := fun hlt =>
    unlessNone_ok (fld fields 19) (fun (l : DataLine L) v => { l with PackT3F := v })
      (fun l => l.PackT3F) (L.ParseFloat (fld fields 19)) (fun _ => rfl) (ho 19 (by decide) hlt)
  have h20 : 20 < k → ∀ s : Frame L, _ := fun hlt =>
    unlessNone_ok (fld fields 20) (fun (l : DataLine L) v => { l with PackT3C := v })
      (fun l => l.PackT3C) (L.ParseFloat (fld fields 20)) (fun _ => rfl) (ho 20 (by decide) hlt)
  have h21 : 21 < k → ∀ s : Frame L, _ := fun hlt =>
    unlessNone_ok (fld fields 21) (fun (l : DataLine L) v => { l with PackT4F := v })
      (fun l => l.PackT4F) (L.ParseFloat (fld fields 21)) (fun _ => rfl) (ho 21 (by decide) hlt)
  have h22 : 22 < k → ∀ s : Frame L, _ := fun hlt =>
    unlessNone_ok (fld fields 22) (fun (l : DataLine L) v => { l with PackT4C := v })
      (fun l => l.PackT4C) (L.ParseFloat (fld fields 22)) (fun _ => rfl) (ho 22 (by decide) hlt)
  simp only [List.mem_cons, List.mem_singleton, List.not_mem_nil, or_false] at hk
  rcases hk with rfl | rfl | rfl | rfl | rfl | rfl | rfl | rfl
  all_goals try (simp [posError, fieldError, intPositions, floatPositions, optPositions,
    boolPositions] at he)
  all_goals obtain ⟨hne, he⟩ := he
  all_goals
    simp only [stmtsTemps, List.cons_append, List.nil_append, List.append_assoc]
    simp [run, assignChecked, assign, hi, hf, he, hne, h15, h16, h17, h18, h19, h20, h21, h22,
      unlessNone_ret, partialRecord, intPositions, floatPositions]

theorem pass_temps {L : Lib} (line : DataLine L) (fields : List String)
    (hv : ValidBefore L fields 23) (e0 : Option Error) :
    ∃ e1, run (stmtsTemps L fields) { line := partialRecord L line fields 14, err := e0 } =
      .next { line := partialRecord L line fields 22, err := e1 } := by
  obtain ⟨-, -, hi, hf, ho, hb⟩ := validBefore_facts fields 23 hv
  have h15 : 15 < 23 → ∀ s : Frame L, _ := fun hlt =>
    unlessNone_ok (fld fields 15) (fun (l : DataLine L) v => { l with PackT1F := v })
      (fun l => l.PackT1F) (L.ParseFloat (fld fields 15)) (fun _ => rfl) (ho 15 (by decide) hlt)
  have h16 : 16 < 23 → ∀ s : Frame L, _ := fun hlt =>
    unlessNone_ok (fld fields 16) (fun (l : DataLine L) v => { l with PackT1C := v })
      (fun l => l.PackT1C) (L.ParseFloat (fld fields 16)) (fun _ => rfl) (ho 16 (by decide) hlt)
  have h17 : 17 < 23 → ∀ s : Frame L, _ := fun hlt =>
    unlessNone_ok (fld fields 17) (fun (l : DataLine L) v => { l with PackT2F := v })
      (fun l => l.PackT2F) (L.ParseFloat (fld fields 17)) (fun _ => rfl) (ho 17 (by decide) hlt)
  have h18 : 18 < 23 → ∀ s : Frame L, _ := fun hlt =>
    unlessNone_ok (fld fields 18) (fun (l : DataLine L) v => { l with PackT2C := v })
      (fun l => l.PackT2C) (L.ParseFloat (fld fields 18)) (fun _ => rfl) (ho 18 (by decide) hlt)
  have h19 : 19 < 23 → ∀ s : Frame L, _ := fun hlt =>
    unlessNone_ok (fld fields 19) (fun (l : DataLine L) v => { l with PackT3F := v })
      (fun l => l.PackT3F) (L.ParseFloat (fld fields 19)) (fun _ => rfl) (ho 19 (by decide) hlt)
  have h20 : 20 < 23 → ∀ s : Frame L, _ := fun hlt =>
    unlessNone_ok (fld fields 20) (fun (l : DataLine L) v => { l with PackT3C := v })
      (fun l => l.PackT3C) (L.ParseFloat (fld fields 20)) (fun _ => rfl) (ho 20 (by decide) hlt)
  have h21 : 21 < 23 → ∀ s : Frame L, _ := fun hlt =>
    unlessNone_ok (fld fields 21) (fun (l : DataLine L) v => { l with PackT4F := v })
      (fun l => l.PackT4F) (L.ParseFloat (fld fields 21)) (fun _ => rfl) (ho 21 (by decide) hlt)
  have h22 : 22 < 23 → ∀ s : Frame L, _ := fun hlt =>
    unlessNone_ok (fld fields 22) (fun (l : DataLine L) v => { l with PackT4C := v })
      (fun l => l.PackT4C) (L.ParseFloat (fld fields 22)) (fun _ => rfl) (ho 22 (by decide) hlt)
  simp only [stmtsTemps, List.cons_append, List.nil_append, List.append_assoc]
  simp [run, assignChecked, assign, hi, hf, h15, h16, h17, h18, h19, h20, h21, h22,
    partialRecord, intPositions, floatPositions]

/-- The statements of the positions 119 to 134 stop at the lowest position that fails. -/
theorem stop_car {L : Lib} (line : DataLine L) (fields : List String) (k : Nat)
    (hk : k ∈ [119, 120, 121, 122, 123, 124, 125, 126, 127, 128, 129, 130, 131, 132, 133, 134])
    (hv : ValidBefore L fields k) (e : Error) (he : posError L fields k = some e)
    (B : List (Stmt L)) (e0 : Option Error) :
    run (stmtsCar L fields ++ B) { line := partialRecord L line fields 23, err := e0 } =
      .ret { line := partialRecord L line fields k, err := some e } := by
  obtain ⟨-, -, hi, hf, ho, hb⟩ := validBefore_facts fields k hv
  simp only [List.mem_cons, List.mem_singleton, List.not_mem_nil, or_false] at hk
  rcases hk with rfl | rfl | rfl | rfl | rfl | rfl | rfl | rfl | rfl | rfl | rfl | rfl | rfl |
    rfl | rfl | rfl
  all_goals try (simp [posError, fieldError, intPositions, floatPositions, optPositions,
    boolPositions] at he)
  all_goals
    simp only [stmtsCar, List.cons_append, List.nil_append, List.append_assoc]
    simp [run, assignChecked, assignLenient, assign, hi, hf, hb, he, partialRecord, intPositions,
      floatPositions, boolPositions]

theorem pass_car {L : Lib} (line : DataLine L) (fields : List String)
    (hv : ValidBefore L fields 135) (e0 : Option Error) :
    ∃ e1, run (stmtsCar L fields) { line := partialRecord L line fields 23, err := e0 } =
      .next { line := partialRecord L line fields 134, err := e1 } := by
  obtain ⟨-, -, hi, hf, ho, hb⟩ := validBefore_facts fields 135 hv
  simp only [stmtsCar, List.cons_append, List.nil_append, List.append_assoc]
  simp [run, assignChecked, assignLenient, assign, hi, hf, hb, partialRecord, intPositions,
    floatPositions, boolPositions]

/-- The statements of the positions 135 to 146 stop at the lowest position that fails. -/
theorem stop_power {L : Lib} (line : DataLine L) (fields : List String) (k : Nat)
    (hk : k ∈ [135, 136, 137, 138, 139, 140, 141, 142, 143, 144, 145, 146])
    (hv : ValidBefore L fields k) (e : Error) (he : posError L fields k = some e)
    (B : List (Stmt L)) (e0 : Option Error) :
    run (stmtsPower L fields ++ stmtsState L fields ++ B)
        { line := partialRecord L line fields 134, err := e0 } =
      .ret { line := partialRecord L line fields k, err := some e } := by
  obtain ⟨-, -, hi, hf, ho, hb⟩ := validBefore_facts fields k hv
  simp only [List.mem_cons, List.mem_singleton, List.not_mem_nil, or_false] at hk
  rcases hk with rfl | rfl | rfl | rfl | rfl | rfl | rfl | rfl | rfl | rfl | rfl | rfl
  all_goals try (simp [posError, fieldError, intPositions, floatPositions, optPositions,
    boolPositions] at he)
  all_goals
    simp only [stmtsPower, stmtsState, List.cons_append, List.nil_append, List.append_assoc]
    simp [run, assignChecked, assignLenient, assign, hi, hf, hb, he, partialRecord, intPositions,
      floatPositions, boolPositions]

theorem pass_power {L : Lib} (line : DataLine L) (fields : List String)
    (hv : ValidBefore L fields 148) (e0 : Option Error) :
    ∃ e1, run (stmtsPower L fields ++ stmtsState L fields)
        { line := partialRecord L line fields 134, err := e0 } =
      .next { line := partialRecord L line fields 147, err := e1 } := by
  obtain ⟨-, -, hi, hf, ho, hb⟩ := validBefore_facts fields 148 hv
  simp only [stmtsPower, stmtsState, List.cons_append, List.nil_append, List.append_assoc]
  simp [run, assignChecked, assignLenient, assign, hi, hf, hb, partialRecord, intPositions,
    floatPositions, boolPositions]

/-- The statements of the positions 148 to 150 stop at the lowest position that fails. -/
theorem stop_bool {L : Lib} (line : DataLine L) (fields : List String) (k : Nat)
    (hk : k ∈ [148, 149, 150])
    (hv : ValidBefore L fields k) (e : Error) (he : posError L fields k = some e)
    (B : List (Stmt L)) (e0 : Option Error) :
    run (stmtsBool L fields ++ B) { line := partialRecord L line fields 147, err := e0 } =
      .ret { line := partialRecord L line fields k, err := none } := by
  obtain ⟨-, -, hi, hf, ho, hb⟩ := validBefore_facts fields k hv
  simp only [List.mem_cons, List.mem_singleton, List.not_mem_nil, or_false] at hk
  rcases hk with rfl | rfl | rfl
  all_goals try (simp [posError, fieldError, intPositions, floatPositions, optPositions,
    boolPositions] at he)
  all_goals
    simp only [stmtsBool, List.cons_append, List.nil_append, List.append_assoc]
    simp [run, assignChecked, assignLenient, assign, hi, hf, hb, he, partialRecord, intPositions,
      floatPositions, boolPositions]

theorem pass_bool {L : Lib} (line : DataLine L) (fields : List String)
    (hv : ValidBefore L fields 151) (e0 : Option Error) :
    ∃ e1, run (stmtsBool L fields) { line := partialRecord L line fields 147, err := e0 } =
      .next { line := partialRecord L line fields 150, err := e1 } := by
  obtain ⟨-, -, hi, hf, ho, hb⟩ := validBefore_facts fields 151 hv
  simp only [stmtsBool, List.cons_append, List.nil_append, List.append_assoc]
  simp [run, assignChecked, assignLenient, assign, hi, hf, hb, partialRecord, intPositions,
    floatPositions, boolPositions]

/-- The statements of the positions 152 to 158 stop at the lowest position that fails. -/
theorem stop_tail {L : Lib} (line : DataLine L) (fields : List String) (k : Nat)
    (hk : k ∈ [152, 153, 154, 155, 156, 158])
    (hv : ValidBefore L fields k) (e : Error) (he : posError L fields k = some e)
    (B : List (Stmt L)) (e0 : Option Error) :
    run (stmtsTail L fields ++ B) { line := partialRecord L line fields 150, err := e0 } =
      .ret { line := partialRecord L line fields k, err := some e } := by
  obtain ⟨-, -, hi, hf, ho, hb⟩ := validBefore_facts fields k hv
  simp only [List.mem_cons, List.mem_singleton, List.not_mem_nil, or_false] at hk
  rcases hk with rfl | rfl | rfl | rfl | rfl | rfl
  all_goals try (simp [posError, fieldError, intPositions, floatPositions, optPositions,
    boolPositions] at he)
  all_goals
    simp only [stmtsTail, List.cons_append, List.nil_append, List.append_assoc]
    simp [run, assignChecked, assignLenient, assign, hi, hf, hb, he, partialRecord, intPositions,
      floatPositions, boolPositions]

theorem pass_cells {L : Lib} (line : DataLine L) (fields : List String) (e0 : Option Error) :
    ∃ e1, run (stmtsCells L fields) { line := partialRecord L line fields 22, err := e0 } =
      .next { line := partialRecord L line fields 23, err := e1 } := by
  simp only [stmtsCells]
  simp [run, assign, cpLoop_eq, partialRecord]

/-- A list of statements that goes on hands its frame to the statements that follow. -/
theorem run_append_next {L : Lib} (A B : List (Stmt L)) (s s1 : Frame L)
    (h : run A s = .next s1) : run (A ++ B) s = run B s1 := by
  rw [run_append, h]

/-- The statements up to `Judgment` on valid fields. -/
theorem reach_pack {L : Lib} (line : DataLine L) (fields : List String)
    (hv : ValidBefore L fields 15) (B : List (Stmt L)) :
    ∃ e1, run (stmtsHead L fields ++ (stmtsPack L fields ++ B)) { line := line, err := none } =
      run B { line := partialRecord L line fields 14, err := e1 } := by
  obtain ⟨e1, h1⟩ := pass_head line fields (validBefore_mono fields 2 15 (by decide) hv)
  obtain ⟨e2, h2⟩ := pass_pack line fields hv e1
  exact ⟨e2, by rw [run_append_next _ _ _ _ h1, run_append_next _ _ _ _ h2]⟩

/-- The statements up to the cell loop on valid fields. -/
theorem reach_cells {L : Lib} (line : DataLine L) (fields : List String)
    (hv : ValidBefore L fields 23) (B : List (Stmt L)) :
    ∃ e1, run (stmtsHead L fields ++ (stmtsPack L fields ++ (stmtsTemps L fields ++
        (stmtsCells L fields ++ B)))) { line := line, err := none } =
      run B { line := partialRecord L line fields 23, err := e1 } := by
  obtain ⟨e1, h1⟩ := reach_pack line fields (validBefore_mono fields 15 23 (by decide) hv)
    (stmtsTemps L fields ++ (stmtsCells L fields ++ B))
  obtain ⟨e2, h2⟩ := pass_temps line fields hv e1
  obtain ⟨e3, h3⟩ := pass_cells line fields e2
  exact ⟨e3, by rw [h1, run_append_next _ _ _ _ h2, run_append_next _ _ _ _ h3]⟩

/-- The statements up to `GPSStatus` on valid fields. -/
theorem reach_state {L : Lib} (line : DataLine L) (fields : List String)
    (hv : ValidBefore L fields 148) (B : List (Stmt L)) :
    ∃ e1, run (stmtsHead L fields ++ (stmtsPack L fields ++ (stmtsTemps L fields ++
        (stmtsCells L fields ++ (stmtsCar L fields ++ (stmtsPower L fields ++
          (stmtsState L fields ++ B))))))) { line := line, err := none } =
      run B { line := partialRecord L line fields 147, err := e1 } := by
  obtain ⟨e1, h1⟩ := reach_cells line fields (validBefore_mono fields 23 148 (by decide) hv)
    (stmtsCar L fields ++ (stmtsPower L fields ++ (stmtsState L fields ++ B)))
  obtain ⟨e2, h2⟩ := pass_car line fields (validBefore_mono fields 135 148 (by decide) hv) e1
  obtain ⟨e3, h3⟩ := pass_power line fields hv e2
  refine ⟨e3, ?_⟩
  rw [h1, run_append_next _ _ _ _ h2, ← List.append_assoc, run_append_next _ _ _ _ h3]

theorem stop_cases : ∀ k ∈ stopPositions,
    k ∈ [0, 1] ∨ k ∈ [4, 5, 6, 7, 8, 9, 10, 11, 12, 13, 14] ∨
    k ∈ [15, 16, 17, 18, 19, 20, 21, 22] ∨
    k ∈ [119, 120, 121, 122, 123, 124, 125, 126, 127, 128, 129, 130, 131, 132, 133, 134] ∨
    k ∈ [135, 136, 137, 138, 139, 140, 141, 142, 143, 144, 145, 146] ∨
    k ∈ [148, 149, 150] ∨ k ∈ [152, 153, 154, 155, 156, 158] := by
  decide

theorem pack_bounds :
    ∀ k ∈ [4, 5, 6, 7, 8, 9, 10, 11, 12, 13, 14], 2 ≤ k ∧ k ∉ boolPositions := by decide

theorem temps_bounds :
    ∀ k ∈ [15, 16, 17, 18, 19, 20, 21, 22], 15 ≤ k ∧ k ∉ boolPositions := by decide

theorem car_bounds :
    ∀ k ∈ [119, 120, 121, 122, 123, 124, 125, 126, 127, 128, 129, 130, 131, 132, 133, 134],
      23 ≤ k ∧ k ∉ boolPositions := by decide

theorem power_bounds :
    ∀ k ∈ [135, 136, 137, 138, 139, 140, 141, 142, 143, 144, 145, 146],
      135 ≤ k ∧ k ∉ boolPositions := by decide

theorem bool_bounds : ∀ k ∈ [148, 149, 150], 148 ≤ k ∧ k ∈ boolPositions := by decide

theorem tail_bounds : ∀ k ∈ [152, 153, 154, 155, 156, 158], 151 ≤ k ∧ k ∉ boolPositions := by decide

/-- A decode that stops at position `k` leaves the partial record of `k`, and returns
the parse error of position `k`, or nil when `k` is a boolean position. -/
theorem marshal_stopsAt {L : Lib} (line : DataLine L) (fields : List String) (k : Nat)
    (hlen : fields.length = 159) (h : StopsAt L fields k) :
    Marshal L line fields =
      (partialRecord L line fields k,
        if k ∈ boolPositions then none else posError L fields k) := by
  obtain ⟨hmem, hv, hne⟩ := h
  obtain ⟨e, he⟩ := Option.ne_none_iff_exists'.mp hne
  rw [marshal_of_length line fields hlen]
  simp only [body, List.append_assoc]
  rcases stop_cases k hmem with hm | hm | hm | hm | hm | hm | hm
  · have hnb : k ∉ boolPositions := by
      revert hm; clear hv hne he hmem; revert k; decide
    rw [stop_head line fields k hm hv e he, if_neg hnb, he]
    rfl
  · obtain ⟨hge, hnb⟩ := pack_bounds k hm
    obtain ⟨e1, h1⟩ := pass_head line fields (validBefore_mono fields 2 k hge hv)
    rw [run_append_next _ _ _ _ h1, stop_pack line fields k hm hv e he, if_neg hnb, he]
    rfl
  · obtain ⟨hge, hnb⟩ := temps_bounds k hm
    obtain ⟨e1, h1⟩ := reach_pack line fields (validBefore_mono fields 15 k hge hv)
      (stmtsTemps L fields ++ (stmtsCells L fields ++ (stmtsCar L fields ++
        (stmtsPower L fields ++ (stmtsState L fields ++ (stmtsBool L fields ++
          stmtsTail L fields))))))
    rw [h1, stop_temps line fields k hm hv e he, if_neg hnb, he]
    rfl
  · obtain ⟨hge, hnb⟩ := car_bounds k hm
    obtain ⟨e1, h1⟩ := reach_cells line fields (validBefore_mono fields 23 k hge hv)
      (stmtsCar L fields ++ (stmtsPower L fields ++ (stmtsState L fields ++
        (stmtsBool L fields ++ stmtsTail L fields))))
    rw [h1, stop_car line fields k hm hv e he, if_neg hnb, he]
    rfl
  · obtain ⟨hge, hnb⟩ := power_bounds k hm
    obtain ⟨e1, h1⟩ := reach_cells line fields (validBefore_mono fields 23 k (by omega) hv)
      (stmtsCar L fields ++ (stmtsPower L fields ++ (stmtsState L fields ++
        (stmtsBool L fields ++ stmtsTail L fields))))
    obtain ⟨e2, h2⟩ := pass_car line fields (validBefore_mono fields 135 k hge hv) e1
    rw [h1, run_append_next _ _ _ _ h2, ← List.append_assoc,
      stop_power line fields k hm hv e he, if_neg hnb, he]
    rfl
  · obtain ⟨hge, hb⟩ := bool_bounds k hm
    obtain ⟨e1, h1⟩ := reach_state line fields (validBefore_mono fields 148 k hge hv)
      (stmtsBool L fields ++ stmtsTail L fields)
    rw [h1, stop_bool line fields k hm hv e he, if_pos hb]
    rfl
  · obtain ⟨hge, hnb⟩ := tail_bounds k hm
    obtain ⟨e1, h1⟩ := reach_state line fields (validBefore_mono fields 148 k (by omega) hv)
      (stmtsBool L fields ++ stmtsTail L fields)
    obtain ⟨e2, h2⟩ := pass_bool line fields (validBefore_mono fields 151 k hge hv) e1
    rw [h1, run_append_next _ _ _ _ h2]
    have h3 := stop_tail line fields k hm hv e he [] e2
    rw [List.append_nil] at h3
    rw [h3, if_neg hnb, he]
    rfl

/-- C15: on a row of 159 fields whose date-time parses and for which
`parseLocation(fields[1], fields[2], fields[3])` fails with the error `e`, `Marshal`
returns exactly `e`; the record is the old one with only `DateTime` and `Loc`
overwritten, and the result is the same for every row with the same fields 0 to 3:
no field after position 3 is parsed. -/
theorem marshal_location_error (L : Lib) (line : DataLine L) (fields : List String)
    (hlen : fields.length = 159)
    (ht : (L.timeParse "2006/01/02 15:04:05" (fld fields 0)).2 = none)
    (e : Error)
    (he : (L.parseLocation (fld fields 1) (fld fields 2) (fld fields 3)).2 = some e) :
    (Marshal L line fields).2 = some e ∧
    (Marshal L line fields).1 =
      { line with
        DateTime := (L.timeParse "2006/01/02 15:04:05" (fld fields 0)).1,
        Loc := (L.parseLocation (fld fields 1) (fld fields 2) (fld fields 3)).1 } ∧
    (∀ other : List String, other.length = 159 → (∀ i, i < 4 → fld other i = fld fields i) →
      Marshal L line other = Marshal L line fields) := by
  have key : ∀ row : List String, row.length = 159 → (∀ i, i < 4 → fld row i = fld fields i) →
      Marshal L line row =
        ({ line with
            DateTime := (L.timeParse "2006/01/02 15:04:05" (fld fields 0)).1,
            Loc := (L.parseLocation (fld fields 1) (fld fields 2) (fld fields 3)).1 },
          some e) := by
    intro row hrow hsame
    rw [marshal_of_length line row hrow]
    simp only [body, stmtsHead, List.cons_append, List.nil_append, List.append_assoc]
    simp [run, assignChecked, hsame 0 (by decide), hsame 1 (by decide), hsame 2 (by decide),
      hsame 3 (by decide), ht, he, Flow.frame]
  have hself := key fields hlen (fun _ _ => rfl)
  refine ⟨by rw [hself], by rw [hself], ?_⟩
  intro other hother hsame
  rw [key other hother hsame, hself]

/-- Witness for C15: the sample row with an empty latitude (field 1), which the
sample `parseLocation` rejects; the speed field is not looked at. -/
theorem marshal_location_error_witness :
    (Marshal sampleLib zeroLine (withField (withField sampleRow 1 "") 4 "x")).2 =
      some (.errorString "invalid location") ∧
    (Marshal sampleLib zeroLine (withField (withField sampleRow 1 "") 4 "x")).1.Speed = 0 := by
  have h := marshal_location_error sampleLib zeroLine
    (withField (withField sampleRow 1 "") 4 "x") (by decide) (by decide)
    (.errorString "invalid location") (by decide)
  refine ⟨h.1, ?_⟩
  rw [h.2.1]
  decide

/-- An error of `strconv.Atoi` carries the function name `Atoi`, the token and the
kind of the failure, and nothing else. -/
theorem Atoi_error_form (s : String) (e : Error) (h : (Atoi s).2 = some e) :
    ∃ kind, e = .numError "Atoi" s kind := by
  unfold Atoi at h
  simp only [] at h
  split at h
  · exact ⟨.ErrSyntax, by simpa using h.symm⟩
  · split at h
    · exact ⟨.ErrSyntax, by simpa using h.symm⟩
    · split at h
      · exact ⟨.ErrRange, by simpa using h.symm⟩
      · split at h
        · exact ⟨.ErrRange, by simpa using h.symm⟩
        · simp at h

/-- An error of `strconv.ParseFloat` carries the function name `ParseFloat`, the token
and the kind of the failure, and nothing else. -/
theorem ParseFloat_error_form (s : String) (e : Error) (h : (ParseFloat s).2 = some e) :
    ∃ kind, e = .numError "ParseFloat" s kind := by
  unfold ParseFloat at h
  rcases hr : atof64 s.toList with ⟨f, rest, err⟩
  rw [hr] at h
  simp only [] at h
  split at h
  · exact ⟨.ErrSyntax, by simpa using h.symm⟩
  · cases err with
    | none => simp at h
    | some kind => exact ⟨kind, by simpa using h.symm⟩

theorem float_opt_stop : ∀ i ∈ floatPositions ++ optPositions,
    i ≠ 0 ∧ i ≠ 1 ∧ i ∉ boolPositions ∧ i ∉ intPositions := by decide

/-- The parse error looked at for a float position or an optional temperature, when
there is one, is the error of `strconv.ParseFloat` on the token. -/
theorem posError_float {L : Lib} (fields : List String) (k : Nat)
    (hk : k ∈ floatPositions ++ optPositions) (hne : posError L fields k ≠ none) :
    posError L fields k = (L.ParseFloat (fld fields k)).2 := by
  obtain ⟨h0, h1, hb, hi⟩ := float_opt_stop k hk
  simp only [posError, fieldError, h0, h1, hb, hi, if_false] at hne ⊢
  rcases List.mem_append.mp hk with hf | ho
  · simp [hf]
  · by_cases hf : k ∈ floatPositions
    · simp [hf]
    · simp only [hf, ho, if_true, if_false] at hne ⊢
      by_cases hn : fld fields k = "none"
      · simp [hn] at hne
      · simp [hn]

theorem posError_int {L : Lib} (fields : List String) (k : Nat) (hk : k ∈ intPositions) :
    posError L fields k = (Atoi (fld fields k)).2 := by
  obtain ⟨-, h0, h1, hb⟩ := int_stop k hk
  simp [posError, fieldError, h0, h1, hb, hk]

theorem int_not_bool : ∀ i ∈ intPositions, i ∉ boolPositions := by decide

/-- C14, as amended: the error `Marshal` returns for a field-parse failure is the
parser's own error, unwrapped: for an integer field the `strconv.NumError` of `Atoi`,
for a float field or an optional temperature the error of `strconv.ParseFloat` (with
Go's `ParseFloat`, the `strconv.NumError` of `ParseFloat`), carrying the function
name, the offending token and the kind of failure. It names the token, not the logical
field: two rows of 159 fields that fail at two fields of the same type - both
integers, or both floats, optional temperatures included; at any of the positions 4 to
22, 119 to 146 and 152 to 158 - holding the same token return the same non-nil
error. -/
theorem marshal_error_names_token (L : Lib) (line1 line2 : DataLine L)
    (fields1 fields2 : List String) (k1 k2 : Nat)
    (hlen1 : fields1.length = 159) (hlen2 : fields2.length = 159)
    (hf1 : StopsAt L fields1 k1) (hf2 : StopsAt L fields2 k2)
    (hkind : (k1 ∈ intPositions ∧ k2 ∈ intPositions) ∨
      (k1 ∈ floatPositions ++ optPositions ∧ k2 ∈ floatPositions ++ optPositions))
    (htok : fld fields1 k1 = fld fields2 k2) :
    (Marshal L line1 fields1).2 = (Marshal L line2 fields2).2 ∧
    (Marshal L line1 fields1).2 ≠ none ∧
    (k1 ∈ intPositions →
      ∃ kind, (Marshal L line1 fields1).2 = some (.numError "Atoi" (fld fields1 k1) kind)) ∧
    (k1 ∈ floatPositions ++ optPositions →
      (Marshal L line1 fields1).2 = (L.ParseFloat (fld fields1 k1)).2) ∧
    (L.ParseFloat = ParseFloat → k1 ∈ floatPositions ++ optPositions →
      ∃ kind,
        (Marshal L line1 fields1).2 = some (.numError "ParseFloat" (fld fields1 k1) kind)) := by
  have hb : ∀ k, (k ∈ intPositions ∨ k ∈ floatPositions ++ optPositions) → k ∉ boolPositions := by
    intro k hk
    rcases hk with hk | hk
    · exact int_not_bool k hk
    · exact (float_opt_stop k hk).2.2.1
  have hb1 : k1 ∉ boolPositions := hb k1 (hkind.elim (fun h => Or.inl h.1) (fun h => Or.inr h.1))
  have hb2 : k2 ∉ boolPositions := hb k2 (hkind.elim (fun h => Or.inl h.2) (fun h => Or.inr h.2))
  have h1 : (Marshal L line1 fields1).2 = posError L fields1 k1 := by
    rw [marshal_stopsAt line1 fields1 k1 hlen1 hf1, if_neg hb1]
  have h2 : (Marshal L line2 fields2).2 = posError L fields2 k2 := by
    rw [marshal_stopsAt line2 fields2 k2 hlen2 hf2, if_neg hb2]
  refine ⟨?_, ?_, ?_, ?_, ?_⟩
  · rw [h1, h2]
    rcases hkind with ⟨hi1, hi2⟩ | ⟨hx1, hx2⟩
    · rw [posError_int fields1 k1 hi1, posError_int fields2 k2 hi2, htok]
    · rw [posError_float fields1 k1 hx1 hf1.2.2, posError_float fields2 k2 hx2 hf2.2.2, htok]
  · rw [h1]
    exact hf1.2.2
  · intro hi1
    have hne := hf1.2.2
    rw [h1]
    rw [posError_int fields1 k1 hi1] at hne ⊢
    obtain ⟨e, he⟩ := Option.ne_none_iff_exists'.mp hne
    obtain ⟨kind, hkind⟩ := Atoi_error_form _ e he
    exact ⟨kind, by rw [he, hkind]⟩
  · intro hx1
    rw [h1, posError_float fields1 k1 hx1 hf1.2.2]
  · intro hL hx1
    have hne := hf1.2.2
    rw [h1]
    rw [posError_float fields1 k1 hx1 hf1.2.2, hL] at hne ⊢
    obtain ⟨e, he⟩ := Option.ne_none_iff_exists'.mp hne
    obtain ⟨kind, hkind⟩ := ParseFloat_error_form _ e he
    exact ⟨kind, by rw [he, hkind]⟩

/-- Witness for C14: the sample row with the token `x` in `Speed` (field 4) and the
sample row with the token `x` in `Gids` (field 5); the sample row with the token `x`
in the optional temperature `PackT1F` (field 15) and the sample row with the token `x`
in `Speed1` (field 155). -/
theorem marshal_error_names_token_witness :
    StopsAt sampleLib (withField sampleRow 4 "x") 4 ∧
    StopsAt sampleLib (withField sampleRow 5 "x") 5 ∧
    (Marshal sampleLib zeroLine (withField sampleRow 4 "x")).2 =
      (Marshal sampleLib zeroLine (withField sampleRow 5 "x")).2 ∧
    StopsAt sampleLib (withField sampleRow 15 "x") 15 ∧
    StopsAt sampleLib (withField sampleRow 155 "x") 155 ∧
    (Marshal sampleLib zeroLine (withField sampleRow 15 "x")).2 =
      (Marshal sampleLib zeroLine (withField sampleRow 155 "x")).2 ∧
    (Marshal sampleLib zeroLine (withField sampleRow 15 "x")).2 ≠ none :=
  ⟨by decide, by decide,
    (marshal_error_names_token sampleLib zeroLine zeroLine (withField sampleRow 4 "x")
      (withField sampleRow 5 "x") 4 5 (by decide) (by decide) (by decide) (by decide)
      (Or.inl ⟨by decide, by decide⟩) (by decide)).1,
    by decide, by decide,
    (marshal_error_names_token sampleLib zeroLine zeroLine (withField sampleRow 15 "x")
      (withField sampleRow 155 "x") 15 155 (by decide) (by decide) (by decide) (by decide)
      (Or.inr ⟨by decide, by decide⟩) (by decide)).1,
    (marshal_error_names_token sampleLib zeroLine zeroLine (withField sampleRow 15 "x")
      (withField sampleRow 155 "x") 15 155 (by decide) (by decide) (by decide) (by decide)
      (Or.inr ⟨by decide, by decide⟩) (by decide)).2.1⟩

/-- Counterexample to C14 as stated: the row with the bad token `x` in `Speed`
(field 4) and the row with the bad token `x` in `Gids` (field 5), otherwise valid,
fail at two different integer fields and return the same error, the `NumError` of
`Atoi` for the token `x`. -/
theorem marshal_same_error_two_fields :
    (Marshal sampleLib zeroLine (withField sampleRow 4 "x")).2 =
      some (.numError "Atoi" "x" .ErrSyntax) ∧
    (Marshal sampleLib zeroLine (withField sampleRow 5 "x")).2 =
      some (.numError "Atoi" "x" .ErrSyntax) ∧
    ¬ ((Marshal sampleLib zeroLine (withField sampleRow 4 "x")).2 ≠
      (Marshal sampleLib zeroLine (withField sampleRow 5 "x")).2) := by
  decide

/-! ### The optional pack temperatures: sentinel, rejected and accepted tokens -/

/-- A well-formed row is decodable. -/
theorem decodable_of_wellFormed {L : Lib} (fields : List String) (h : WellFormed L fields) :
    Decodable L fields :=
  ⟨h.1, h.2.1, h.2.2.1, h.2.2.2.1, h.2.2.2.2.1, h.2.2.2.2.2.1, h.2.2.2.2.2.2.2⟩

/-- C6, as amended: for each optional pack-temperature field (positions 15 to 22) of
a row: if the field is exactly the literal `none`, `Marshal` leaves the corresponding
record field (`PackT1F` ... `PackT4C`) as it was in the receiver before the call -
0.0 in a record that held 0.0 there - and, on a well-formed row, goes on decoding the
rest of the row (it returns nil and the last field, `TorqueNm`, is assigned); if a row
of 159 fields has there any other token that `strconv.ParseFloat` rejects, `Marshal`
returns a non-nil error, and Go's `ParseFloat` rejects `None` and `NONE`; any other
token that `ParseFloat` accepts - a decimal number or not - is parsed and stored, a
well-formed row being decoded to the end. -/
theorem marshal_optional_temperature (L : Lib) (line : DataLine L) (fields : List String)
    (k : Nat) (hk : k ∈ optPositions) :
    (fld fields k = "none" →
      optField (Marshal L line fields).1 k = optField line k ∧
      (optField line k = Float64.zero false →
        optField (Marshal L line fields).1 k = Float64.zero false) ∧
      (WellFormed L fields →
        (Marshal L line fields).2 = none ∧
        (Marshal L line fields).1.TorqueNm = (L.ParseFloat (fld fields 158)).1)) ∧
    (fields.length = 159 → fld fields k ≠ "none" → (L.ParseFloat (fld fields k)).2 ≠ none →
      (Marshal L line fields).2 ≠ none) ∧
    (L.ParseFloat = ParseFloat → fields.length = 159 →
      fld fields k = "None" ∨ fld fields k = "NONE" → (Marshal L line fields).2 ≠ none) ∧
    (WellFormed L fields → fld fields k ≠ "none" →
      (L.ParseFloat (fld fields k)).2 = none ∧
      (Marshal L line fields).2 = none ∧
      optField (Marshal L line fields).1 k = (L.ParseFloat (fld fields k)).1) := by
  refine ⟨?_, ?_, ?_, ?_⟩
  · intro hnone
    have hkeep := marshal_preserves (fun l => optField l k) line fields
      (preserves_optField fields k hk hnone)
    refine ⟨hkeep, ?_, ?_⟩
    · intro hz
      rw [← hz]
      exact hkeep
    · intro hwf
      have hnil := marshal_nil_of_neverErr line fields (neverErr_body fields hwf) hwf.1
      exact ⟨hnil, (tail_after_nil L line fields hwf.2.2.2.2.2.2.2 hnil).2.2.2.2.2.2.2⟩
  · intro hlen h1 h2
    exact marshal_optField_fails line fields k hk hlen h1 h2
  · intro hL hlen h1
    refine marshal_optField_fails line fields k hk hlen ?_ ?_
    · rcases h1 with h1 | h1 <;> rw [h1] <;> decide
    · rw [hL]
      rcases h1 with h1 | h1 <;> rw [h1] <;> decide
  · intro hwf hne
    have hm := marshal_decodable line fields (decodable_of_wellFormed fields hwf)
    rw [hm]
    refine ⟨(hwf.2.2.2.2.2.1 k hk).resolve_left hne, rfl, ?_⟩
    simp only [optPositions, List.mem_cons, List.mem_singleton, List.not_mem_nil,
      or_false] at hk
    rcases hk with rfl | rfl | rfl | rfl | rfl | rfl | rfl | rfl <;>
      simp [optField, decoded, hne]

/-- Witness for C6: position 19 (`PackT3F`) of the sample row is `none`; decoding
into the zero record leaves `PackT3F` at 0.0 and reaches the end of the row. The
sample row with `None` at position 15, and the one with `abc` at position 16, make
`Marshal` return a non-nil error. The sample row, whose position 15 is `61.2`, is
decoded to the end with that value in `PackT1F`. -/
theorem marshal_optional_temperature_witness :
    19 ∈ optPositions ∧ fld sampleRow 19 = "none" ∧
    (Marshal sampleLib zeroLine sampleRow).1.PackT3F = Float64.zero false ∧
    (Marshal sampleLib zeroLine sampleRow).2 = none ∧
    fld (withField sampleRow 15 "None") 15 = "None" ∧
    (Marshal sampleLib zeroLine (withField sampleRow 15 "None")).2 ≠ none ∧
    fld (withField sampleRow 16 "abc") 16 = "abc" ∧
    (Marshal sampleLib zeroLine (withField sampleRow 16 "abc")).2 ≠ none ∧
    fld sampleRow 15 = "61.2" ∧
    (Marshal sampleLib zeroLine sampleRow).1.PackT1F = (ParseFloat "61.2").1 :=
  ⟨by decide, by decide,
    ((marshal_optional_temperature sampleLib zeroLine sampleRow 19 (by decide)).1
      (by decide)).2.1 rfl,
    (((marshal_optional_temperature sampleLib zeroLine sampleRow 19 (by decide)).1
      (by decide)).2.2 wellFormed_sampleRow).1,
    by decide,
    (marshal_optional_temperature sampleLib zeroLine (withField sampleRow 15 "None") 15
      (by decide)).2.2.1 rfl (by decide) (Or.inl (by decide)),
    by decide,
    (marshal_optional_temperature sampleLib zeroLine (withField sampleRow 16 "abc") 16
      (by decide)).2.1 (by decide) (by decide) (by decide),
    by decide,
    ((marshal_optional_temperature sampleLib zeroLine sampleRow 15 (by decide)).2.2.2
      wellFormed_sampleRow (by decide)).2.2⟩

/-- Counterexample to C6 as stated. A record that has decoded a row with `PackT3F`
60.5 and then decodes the sample row, whose field 19 is `none`, still holds 60.5 in
`PackT3F`, not 0.0. And the sample row with `NaN` at position 15, a token other than
`none` that is not a valid decimal number, does not make `Marshal` return an error:
`ParseFloat` accepts `NaN`, the call returns nil and `PackT1F` is a NaN; likewise the
hexadecimal `0x1p-2` at position 16 is accepted, as 0.25. -/
theorem marshal_none_kept_nan_accepted :
    fld sampleRow 19 = "none" ∧
    (Marshal sampleLib (Marshal sampleLib zeroLine (withField sampleRow 19 "60.5")).1
      sampleRow).2 = none ∧
    (Marshal sampleLib (Marshal sampleLib zeroLine (withField sampleRow 19 "60.5")).1
      sampleRow).1.PackT3F = (ParseFloat "60.5").1 ∧
    (Marshal sampleLib (Marshal sampleLib zeroLine (withField sampleRow 19 "60.5")).1
      sampleRow).1.PackT3F ≠ Float64.zero false ∧
    fld (withField sampleRow 15 "NaN") 15 = "NaN" ∧
    ParseFloat "NaN" = (Float64.nan, none) ∧
    (Marshal sampleLib zeroLine (withField sampleRow 15 "NaN")).2 = none ∧
    (Marshal sampleLib zeroLine (withField sampleRow 15 "NaN")).1.PackT1F = Float64.nan ∧
    fld (withField sampleRow 16 "0x1p-2") 16 = "0x1p-2" ∧
    (Marshal sampleLib zeroLine (withField sampleRow 16 "0x1p-2")).2 = none ∧
    (Marshal sampleLib zeroLine (withField sampleRow 16 "0x1p-2")).1.PackT1C =
      Float64.fin false (2 ^ 52) (-54) := by
  decide

/-! ### Dependence on the receiver and on the cells -/

section AlikeRules

variable {L : Lib}

theorem alike_assignChecked {α β : Type} (set1 : DataLine L → α → DataLine L)
    (set2 : DataLine L → β → DataLine L) (r1 : α × Option Error) (r2 : β × Option Error)
    (h : r1.2 = r2.2) : Alike (assignChecked set1 r1) (assignChecked set2 r2) := by
  intro s t
  cases h2 : r2.2 with
  | none => simp [assignChecked, SameOutcome, h, h2]
  | some e => simp [assignChecked, SameOutcome, h, h2]

theorem alike_assignLenient {α β : Type} (set1 : DataLine L → α → DataLine L)
    (set2 : DataLine L → β → DataLine L) (r1 : α × Option Error) (r2 : β × Option Error)
    (h : r1.2 = r2.2) : Alike (assignLenient set1 r1) (assignLenient set2 r2) := by
  intro s t
  cases h2 : r2.2 with
  | none => simp [assignLenient, SameOutcome, h, h2]
  | some e => simp [assignLenient, SameOutcome, h, h2]

theorem alike_assign (f g : DataLine L → DataLine L) : Alike (assign f) (assign g) := by
  intro s t
  simp [assign, SameOutcome]

theorem alike_unlessNone (tok : String) (st1 st2 : Stmt L) (h : Alike st1 st2) :
    Alike (unlessNone tok st1) (unlessNone tok st2) := by
  intro s t
  by_cases htok : tok = "none"
  · simp [unlessNone, htok, SameOutcome]
  · simpa [unlessNone, htok] using h s t

theorem alike_cpLoop (fields1 fields2 : List String) :
    Alike (cpLoop (L := L) fields1) (cpLoop fields2) := by
  intro s t
  simp [cpLoop, SameOutcome]

theorem alike_returnNil : Alike (returnNil (L := L)) returnNil := by
  intro s t
  simp [returnNil, SameOutcome]

theorem AllAlike_append (A1 A2 B1 B2 : List (Stmt L)) (hA : AllAlike A1 A2)
    (hB : AllAlike B1 B2) : AllAlike (A1 ++ B1) (A2 ++ B2) := by
  induction A1 generalizing A2 with
  | nil =>
    cases A2 with
    | nil => simpa using hB
    | cons b A2 => simp [AllAlike] at hA
  | cons a A1 ih =>
    cases A2 with
    | nil => simp [AllAlike] at hA
    | cons b A2 => exact ⟨hA.1, ih A2 hA.2⟩

theorem run_alike (A B : List (Stmt L)) (h : AllAlike A B) (s t : Frame L) :
    SameOutcome (run A s) (run B t) := by
  induction A generalizing B s t with
  | nil =>
    cases B with
    | nil => simp [run, SameOutcome]
    | cons b B => simp [AllAlike] at h
  | cons a A ih =>
    cases B with
    | nil => simp [AllAlike] at h
    | cons b B =>
      have h1 := h.1 s t
      simp only [run]
      cases ha : a s with
      | next s1 =>
        cases hb : b t with
        | next t1 => exact ih B h.2 s1 t1
        | ret t1 => simp [ha, hb, SameOutcome] at h1
      | ret s1 =>
        cases hb : b t with
        | next t1 => simp [ha, hb, SameOutcome] at h1
        | ret t1 => simpa [ha, hb, SameOutcome] using h1

/-- The body always ends in a return. -/
theorem run_body_ret (fields : List String) (s : Frame L) :
    ∃ s1, run (body L fields) s = .ret s1 := by
  have hb : body L fields =
      (stmtsHead L fields ++ stmtsPack L fields ++ stmtsTemps L fields ++
        stmtsCells L fields ++ stmtsCar L fields ++ stmtsPower L fields ++
        stmtsState L fields ++ stmtsBool L fields ++ (stmtsTail L fields).dropLast) ++
      [returnNil] := by
    simp [body, stmtsTail]
  rw [hb, run_append]
  split
  · simp [run, returnNil]
  · exact ⟨_, rfl⟩

/-- Two calls whose bodies are alike return the same error. -/
theorem marshal_err_alike (line1 line2 : DataLine L) (fields1 fields2 : List String)
    (h : AllAlike (body L fields1) (body L fields2))
    (hlen1 : fields1.length = 159) (hlen2 : fields2.length = 159) :
    (Marshal L line1 fields1).2 = (Marshal L line2 fields2).2 := by
  rw [marshal_of_length line1 fields1 hlen1, marshal_of_length line2 fields2 hlen2]
  simp only []
  have hso := run_alike _ _ h { line := line1, err := none } { line := line2, err := none }
  obtain ⟨s1, hs1⟩ := run_body_ret fields1 { line := line1, err := none }
  obtain ⟨s2, hs2⟩ := run_body_ret fields2 { line := line2, err := none }
  rw [hs1, hs2] at hso ⊢
  simpa [SameOutcome, Flow.frame] using hso

/-- The body of a row is alike the body of any row that agrees with it outside the
cell fields (positions 23 to 118). -/
theorem allAlike_body (fields1 fields2 : List String)
    (hagree : ∀ i, i < 23 ∨ 118 < i → fld fields1 i = fld fields2 i) :
    AllAlike (body L fields1) (body L fields2) := by
  simp only [body, stmtsHead, stmtsPack, stmtsTemps, stmtsCells, stmtsCar, stmtsPower,
    stmtsState, stmtsBool, stmtsTail, List.cons_append, List.nil_append, AllAlike, and_true]
  simp [hagree, alike_assignChecked, alike_assignLenient, alike_assign, alike_unlessNone,
    alike_cpLoop, alike_returnNil]

end AlikeRules

/-- The decoded record depends on the receiver only through the optional temperatures
whose token is the sentinel. -/
theorem decoded_congr {L : Lib} (line1 line2 : DataLine L) (fields : List String)
    (h : ∀ k ∈ optPositions, fld fields k = "none" → optField line1 k = optField line2 k) :
    decoded L line1 fields = decoded L line2 fields := by
  have e15 : (if fld fields 15 = "none" then line1.PackT1F else (L.ParseFloat (fld fields 15)).1)
      = (if fld fields 15 = "none" then line2.PackT1F else (L.ParseFloat (fld fields 15)).1) := by
    split
    · exact h 15 (by decide) (by assumption)
    · rfl
  have e16 : (if fld fields 16 = "none" then line1.PackT1C else (L.ParseFloat (fld fields 16)).1)
      = (if fld fields 16 = "none" then line2.PackT1C else (L.ParseFloat (fld fields 16)).1) := by
    split
    · exact h 16 (by decide) (by assumption)
    · rfl
  have e17 : (if fld fields 17 = "none" then line1.PackT2F else (L.ParseFloat (fld fields 17)).1)
      = (if fld fields 17 = "none" then line2.PackT2F else (L.ParseFloat (fld fields 17)).1) := by
    split
    · exact h 17 (by decide) (by assumption)
    · rfl
  have e18 : (if fld fields 18 = "none" then line1.PackT2C else (L.ParseFloat (fld fields 18)).1)
      = (if fld fields 18 = "none" then line2.PackT2C else (L.ParseFloat (fld fields 18)).1) := by
    split
    · exact h 18 (by decide) (by assumption)
    · rfl
  have e19 : (if fld fields 19 = "none" then line1.PackT3F else (L.ParseFloat (fld fields 19)).1)
      = (if fld fields 19 = "none" then line2.PackT3F else (L.ParseFloat (fld fields 19)).1) := by
    split
    · exact h 19 (by decide) (by assumption)
    · rfl
  have e20 : (if fld fields 20 = "none" then line1.PackT3C else (L.ParseFloat (fld fields 20)).1)
      = (if fld fields 20 = "none" then line2.PackT3C else (L.ParseFloat (fld fields 20)).1) := by
    split
    · exact h 20 (by decide) (by assumption)
    · rfl
  have e21 : (if fld fields 21 = "none" then line1.PackT4F else (L.ParseFloat (fld fields 21)).1)
      = (if fld fields 21 = "none" then line2.PackT4F else (L.ParseFloat (fld fields 21)).1) := by
    split
    · exact h 21 (by decide) (by assumption)
    · rfl
  have e22 : (if fld fields 22 = "none" then line1.PackT4C else (L.ParseFloat (fld fields 22)).1)
      = (if fld fields 22 = "none" then line2.PackT4C else (L.ParseFloat (fld fields 22)).1) := by
    split
    · exact h 22 (by decide) (by assumption)
    · rfl
  simp only [decoded, e15, e16, e17, e18, e19, e20, e21, e22]

/-- C16, as amended: the error outcome of `Marshal` is a function of the row alone -
for every field sequence and any two prior states of the receiver the two calls
return the same error. When they return nil on a row whose three boolean tokens are
valid, the two records are equal provided the receivers agreed on every optional
temperature whose token is `none`; such a field keeps each receiver's prior value. -/
theorem marshal_receiver_dependence (L : Lib) (line1 line2 : DataLine L)
    (fields : List String) :
    (Marshal L line1 fields).2 = (Marshal L line2 fields).2 ∧
    ((Marshal L line1 fields).2 = none →
      (∀ i ∈ boolPositions, (ParseBool (fld fields i)).2 = none) →
      (∀ k ∈ optPositions, fld fields k = "none" → optField line1 k = optField line2 k) →
      (Marshal L line1 fields).1 = (Marshal L line2 fields).1) ∧
    (∀ k ∈ optPositions, fld fields k = "none" →
      optField (Marshal L line1 fields).1 k = optField line1 k ∧
      optField (Marshal L line2 fields).1 k = optField line2 k) := by
  have herr : (Marshal L line1 fields).2 = (Marshal L line2 fields).2 := by
    by_cases hlen : fields.length = 159
    · exact marshal_err_alike line1 line2 fields fields (allAlike_body fields fields
        (fun _ _ => rfl)) hlen hlen
    · simp [Marshal, hlen]
  refine ⟨herr, ?_, ?_⟩
  · intro hnil hbool hopt
    have hd := decodable_of_nil line1 fields hbool hnil
    rw [marshal_decodable line1 fields hd, marshal_decodable line2 fields hd]
    exact decoded_congr line1 line2 fields hopt
  · intro k hk hnone
    exact ⟨marshal_preserves (fun l => optField l k) line1 fields
        (preserves_optField fields k hk hnone),
      marshal_preserves (fun l => optField l k) line2 fields
        (preserves_optField fields k hk hnone)⟩

/-- Witness for C16: in the sample row with fields 19 and 20 set to 60.5 and 15.8 no
optional temperature is `none`; decoding it into the zero record and into a used
record gives the same record. -/
theorem marshal_receiver_dependence_witness :
    (Marshal sampleLib zeroLine (withField (withField sampleRow 19 "60.5") 20 "15.8")).1 =
      (Marshal sampleLib reusedLine (withField (withField sampleRow 19 "60.5") 20 "15.8")).1 :=
  (marshal_receiver_dependence sampleLib zeroLine reusedLine
    (withField (withField sampleRow 19 "60.5") 20 "15.8")).2.1 (by decide) (by decide)
    (by decide)

/-- Counterexample to C16 as stated: decoding the sample row, whose field 19 is
`none`, into the zero record and into a record that already decoded `PackT3F` 60.5
succeeds both times and leaves two different records: `PackT3F` is 0.0 in the first
and 60.5 in the second. -/
theorem marshal_depends_on_receiver :
    (Marshal sampleLib zeroLine sampleRow).2 = none ∧
    (Marshal sampleLib reusedLine sampleRow).2 = none ∧
    (Marshal sampleLib zeroLine sampleRow).1.PackT3F = Float64.zero false ∧
    (Marshal sampleLib reusedLine sampleRow).1.PackT3F = (ParseFloat "60.5").1 ∧
    (Marshal sampleLib zeroLine sampleRow).1 ≠ (Marshal sampleLib reusedLine sampleRow).1 := by
  refine ⟨by decide, by decide, by decide, by decide, ?_⟩
  intro h
  have h2 := congrArg (fun l => l.PackT3F) h
  revert h2
  decide

/-- The four shapes of a result of `strconv.Atoi`: a syntax error with value 0, a
range error with the largest or the smallest `int`, or success. -/
theorem Atoi_cases (s : String) :
    Atoi s = (0, some (.numError "Atoi" s .ErrSyntax)) ∨
    Atoi s = (2 ^ 63 - 1, some (.numError "Atoi" s .ErrRange)) ∨
    Atoi s = (-(2 ^ 63), some (.numError "Atoi" s .ErrRange)) ∨
    (Atoi s).2 = none := by
  unfold Atoi
  simp only []
  split
  · exact Or.inl rfl
  · split
    · exact Or.inl rfl
    · split
      · exact Or.inr (Or.inl rfl)
      · split
        · exact Or.inr (Or.inr (Or.inl rfl))
        · exact Or.inr (Or.inr (Or.inr rfl))

/-- On a syntax error `strconv.Atoi` returns the value 0. -/
theorem Atoi_syntax_value (s : String)
    (h : (Atoi s).2 = some (.numError "Atoi" s .ErrSyntax)) : (Atoi s).1 = 0 := by
  rcases Atoi_cases s with h1 | h1 | h1 | h1
  · rw [h1]
  · rw [h1] at h
    simp at h
  · rw [h1] at h
    simp at h
  · rw [h1] at h
    cases h

/-- On a range error `strconv.Atoi` returns the nearest bound of `int`. -/
theorem Atoi_range_value (s : String)
    (h : (Atoi s).2 = some (.numError "Atoi" s .ErrRange)) :
    (Atoi s).1 = 2 ^ 63 - 1 ∨ (Atoi s).1 = -(2 ^ 63) := by
  rcases Atoi_cases s with h1 | h1 | h1 | h1
  · rw [h1] at h
    simp at h
  · rw [h1]
    exact Or.inl rfl
  · rw [h1]
    exact Or.inr rfl
  · rw [h1] at h
    cases h

/-- C19, as amended: the error outcome of `Marshal` does not depend on the 96 cell
fields - two rows of 159 fields that agree on every position outside 23 to 118 return
the same error, or both nil, whatever the receivers. A cell field that `strconv.Atoi`
rejects is stored under its index with the value `Atoi` returns, 0 for a syntax error
and the nearest bound of `int` for a range error, and decoding continues: the error of
the loop, that of the last cell included, is overwritten by the parse of `Bat12VAmp`. -/
theorem marshal_cells_ignored (L : Lib) (line1 line2 : DataLine L)
    (fields1 fields2 : List String)
    (hlen1 : fields1.length = 159) (hlen2 : fields2.length = 159)
    (hagree : ∀ i, i < 23 ∨ 118 < i → fld fields1 i = fld fields2 i) :
    (Marshal L line1 fields1).2 = (Marshal L line2 fields2).2 ∧
    ((Marshal L line1 fields1).2 = none → ∀ i : Nat, 1 ≤ i → i ≤ 96 →
      (Marshal L line1 fields1).1.CP.get? (i : Int) = some (Atoi (fld fields1 (22 + i))).1 ∧
      ((Atoi (fld fields1 (22 + i))).2 =
          some (.numError "Atoi" (fld fields1 (22 + i)) .ErrSyntax) →
        (Marshal L line1 fields1).1.CP.get? (i : Int) = some 0) ∧
      ((Atoi (fld fields1 (22 + i))).2 =
          some (.numError "Atoi" (fld fields1 (22 + i)) .ErrRange) →
        (Marshal L line1 fields1).1.CP.get? (i : Int) = some (2 ^ 63 - 1) ∨
        (Marshal L line1 fields1).1.CP.get? (i : Int) = some (-(2 ^ 63)))) := by
  refine ⟨marshal_err_alike line1 line2 fields1 fields2 (allAlike_body fields1 fields2 hagree)
    hlen1 hlen2, ?_⟩
  intro hnil i h1 h96
  have hget : (Marshal L line1 fields1).1.CP.get? (i : Int) =
      some (Atoi (fld fields1 (22 + i))).1 := by
    rw [cp_after_nil L line1 fields1 hnil]
    exact cpTable_get fields1 96 i h1 h96
  refine ⟨hget, ?_, ?_⟩
  · intro hs
    rw [hget, Atoi_syntax_value _ hs]
  · intro hr
    rw [hget]
    rcases Atoi_range_value _ hr with h | h
    · exact Or.inl (by rw [h])
    · exact Or.inr (by rw [h])

/-- Witness for C19: the sample row and the sample row with its first cell (field 23)
set to `x` return the same error, nil. -/
theorem marshal_cells_ignored_witness :
    (Marshal sampleLib zeroLine (withField sampleRow 23 "x")).2 =
      (Marshal sampleLib zeroLine sampleRow).2 ∧
    (Marshal sampleLib zeroLine sampleRow).2 = none := by
  refine ⟨(marshal_cells_ignored sampleLib zeroLine zeroLine (withField sampleRow 23 "x")
    sampleRow (by decide) (by decide) ?_).1, by decide⟩
  intro i hi
  have hne : i ≠ 23 := by omega
  simp [fld, withField, List.getD_eq_getElem?_getD, List.getElem?_set, hne.symm]

/-- Counterexample to C19 as stated: the cell token `99999999999999999999x` is not a
valid integer and `strconv.Atoi` rejects it, with a range error found before the `x`
is read; `Marshal` returns nil and stores the largest `int` under key 1, not 0. -/
theorem marshal_bad_cell_not_zero :
    (Atoi (fld (withField sampleRow 23 "99999999999999999999x") 23)).2 =
      some (.numError "Atoi" "99999999999999999999x" .ErrRange) ∧
    (Marshal sampleLib zeroLine (withField sampleRow 23 "99999999999999999999x")).2 = none ∧
    (Marshal sampleLib zeroLine (withField sampleRow 23 "99999999999999999999x")).1.CP.get? 1 =
      some 9223372036854775807 ∧
    (Marshal sampleLib zeroLine (withField sampleRow 23 "99999999999999999999x")).1.CP.get? 1 ≠
      some 0 := by
  decide

/-- No statement of fields 0 to 147 touches a field decoded after position 147. -/
theorem preserves_upTo147 {L : Lib} {β : Type} (proj : DataLine L → β) (fields : List String)
    (hproj : ∀ l1 l2 : DataLine L,
      l1.PowerSW = l2.PowerSW → l1.BMS = l2.BMS → l1.OBC = l2.OBC → l1.Debug = l2.Debug →
      l1.MotorTemp = l2.MotorTemp → l1.Inverter2 = l2.Inverter2 → l1.Inverter4 = l2.Inverter4 →
      l1.Speed1 = l2.Speed1 → l1.Speed2 = l2.Speed2 → l1.WiperStatus = l2.WiperStatus →
      l1.TorqueNm = l2.TorqueNm → proj l1 = proj l2) :
    All (Preserves proj)
      (stmtsHead L fields ++
        (stmtsPack L fields ++ stmtsTemps L fields ++ stmtsCells L fields ++ stmtsCar L fields ++
          stmtsPower L fields ++ stmtsState L fields)) := by
  have hc : ∀ {α : Type} (setX : DataLine L → α → DataLine L) (r : α × Option Error),
      (∀ l v, (setX l v).PowerSW = l.PowerSW ∧ (setX l v).BMS = l.BMS ∧
        (setX l v).OBC = l.OBC ∧ (setX l v).Debug = l.Debug ∧
        (setX l v).MotorTemp = l.MotorTemp ∧ (setX l v).Inverter2 = l.Inverter2 ∧
        (setX l v).Inverter4 = l.Inverter4 ∧ (setX l v).Speed1 = l.Speed1 ∧
        (setX l v).Speed2 = l.Speed2 ∧ (setX l v).WiperStatus = l.WiperStatus ∧
        (setX l v).TorqueNm = l.TorqueNm) →
      Preserves proj (assignChecked setX r) := by
    intro α setX r h
    refine preserves_assignChecked proj setX r (fun l v => ?_)
    obtain ⟨h1, h2, h3, h4, h5, h6, h7, h8, h9, h10, h11⟩ := h l v
    exact hproj _ _ h1 h2 h3 h4 h5 h6 h7 h8 h9 h10 h11
  have ha : ∀ (f : DataLine L → DataLine L),
      (∀ l, (f l).PowerSW = l.PowerSW ∧ (f l).BMS = l.BMS ∧
        (f l).OBC = l.OBC ∧ (f l).Debug = l.Debug ∧
        (f l).MotorTemp = l.MotorTemp ∧ (f l).Inverter2 = l.Inverter2 ∧
        (f l).Inverter4 = l.Inverter4 ∧ (f l).Speed1 = l.Speed1 ∧
        (f l).Speed2 = l.Speed2 ∧ (f l).WiperStatus = l.WiperStatus ∧
        (f l).TorqueNm = l.TorqueNm) →
      Preserves proj (assign f) := by
    intro f h
    refine preserves_assign proj f (fun l => ?_)
    obtain ⟨h1, h2, h3, h4, h5, h6, h7, h8, h9, h10, h11⟩ := h l
    exact hproj _ _ h1 h2 h3 h4 h5 h6 h7 h8 h9 h10 h11
  have hcp : Preserves proj (cpLoop fields) :=
    preserves_cpLoop proj fields (fun l m => hproj _ _ rfl rfl rfl rfl rfl rfl rfl rfl rfl rfl rfl)
  simp only [stmtsHead, stmtsPack, stmtsTemps, stmtsCells, stmtsCar, stmtsPower, stmtsState,
    List.cons_append, List.nil_append, All, and_true]
  simp [hc, ha, hcp, preserves_unlessNone]

/-- If the fields before position 148 decode and the boolean statements return nil
without touching a component of the record that the earlier statements do not touch
either, the call returns nil and leaves that component as it was. -/
theorem marshal_stops_at_bool {L : Lib} {β : Type} (proj : DataLine L → β)
    (line : DataLine L) (fields : List String)
    (hpre : All (Preserves proj)
      (stmtsHead L fields ++
        (stmtsPack L fields ++ stmtsTemps L fields ++ stmtsCells L fields ++ stmtsCar L fields ++
          stmtsPower L fields ++ stmtsState L fields)))
    (hstop : ∀ s, ∃ s2, run (stmtsBool L fields ++ stmtsTail L fields) s = .ret s2 ∧
      s2.err = none ∧ proj s2.line = proj s.line)
    (hlen : fields.length = 159)
    (ht : (L.timeParse "2006/01/02 15:04:05" (fld fields 0)).2 = none)
    (hl : (L.parseLocation (fld fields 1) (fld fields 2) (fld fields 3)).2 = none)
    (hok : ∀ i ∈ checkedPositions, fieldError L fields i = none) :
    (Marshal L line fields).2 = none ∧ proj (Marshal L line fields).1 = proj line := by
  obtain ⟨s1, hs1⟩ := run_upTo147 fields ht hl hok { line := line, err := none }
  have hkeep := run_preserves proj _ hpre { line := line, err := none }
  rw [hs1] at hkeep
  obtain ⟨s2, hs2, herr, hline⟩ := hstop s1
  rw [marshal_of_length line fields hlen]
  simp only []
  rw [body_split_bool, run_append, hs1]
  simp only [hs2, Flow.frame]
  exact ⟨herr, by rw [hline]; exact hkeep⟩

/-- C20: on a row of 159 fields whose fields before position 148 all decode (the
date-time and the location parse, the fields at positions 4 to 22 and 119 to 146 are
valid), if the `PowerSW` token (field 148) is not a valid boolean, `Marshal` returns
nil and leaves `BMS`, `OBC`, `Debug`, `MotorTemp`, `Inverter2`, `Inverter4`, `Speed1`,
`Speed2`, `WiperStatus` and `TorqueNm` as they were in the receiver, whatever the
fields 149 to 158 contain; likewise a bad `BMS` token (after a valid `PowerSW`)
leaves `OBC` and the fields after it, and a bad `OBC` token (after valid `PowerSW` and
`BMS`) leaves `Debug` and the fields after it. -/
theorem marshal_bad_bool_frame (L : Lib) (line : DataLine L) (fields : List String)
    (hlen : fields.length = 159)
    (ht : (L.timeParse "2006/01/02 15:04:05" (fld fields 0)).2 = none)
    (hl : (L.parseLocation (fld fields 1) (fld fields 2) (fld fields 3)).2 = none)
    (hok : ∀ i ∈ checkedPositions, fieldError L fields i = none) :
    ((ParseBool (fld fields 148)).2 ≠ none →
      (Marshal L line fields).2 = none ∧
      (Marshal L line fields).1.BMS = line.BMS ∧
      (Marshal L line fields).1.OBC = line.OBC ∧
      (Marshal L line fields).1.Debug = line.Debug ∧
      (Marshal L line fields).1.MotorTemp = line.MotorTemp ∧
      (Marshal L line fields).1.Inverter2 = line.Inverter2 ∧
      (Marshal L line fields).1.Inverter4 = line.Inverter4 ∧
      (Marshal L line fields).1.Speed1 = line.Speed1 ∧
      (Marshal L line fields).1.Speed2 = line.Speed2 ∧
      (Marshal L line fields).1.WiperStatus = line.WiperStatus ∧
      (Marshal L line fields).1.TorqueNm = line.TorqueNm) ∧
    ((ParseBool (fld fields 148)).2 = none → (ParseBool (fld fields 149)).2 ≠ none →
      (Marshal L line fields).2 = none ∧
      (Marshal L line fields).1.OBC = line.OBC ∧
      (Marshal L line fields).1.Debug = line.Debug ∧
      (Marshal L line fields).1.MotorTemp = line.MotorTemp ∧
      (Marshal L line fields).1.Inverter2 = line.Inverter2 ∧
      (Marshal L line fields).1.Inverter4 = line.Inverter4 ∧
      (Marshal L line fields).1.Speed1 = line.Speed1 ∧
      (Marshal L line fields).1.Speed2 = line.Speed2 ∧
      (Marshal L line fields).1.WiperStatus = line.WiperStatus ∧
      (Marshal L line fields).1.TorqueNm = line.TorqueNm) ∧
    ((ParseBool (fld fields 148)).2 = none → (ParseBool (fld fields 149)).2 = none →
      (ParseBool (fld fields 150)).2 ≠ none →
      (Marshal L line fields).2 = none ∧
      (Marshal L line fields).1.Debug = line.Debug ∧
      (Marshal L line fields).1.MotorTemp = line.MotorTemp ∧
      (Marshal L line fields).1.Inverter2 = line.Inverter2 ∧
      (Marshal L line fields).1.Inverter4 = line.Inverter4 ∧
      (Marshal L line fields).1.Speed1 = line.Speed1 ∧
      (Marshal L line fields).1.Speed2 = line.Speed2 ∧
      (Marshal L line fields).1.WiperStatus = line.WiperStatus ∧
      (Marshal L line fields).1.TorqueNm = line.TorqueNm) := by
  refine ⟨?_, ?_, ?_⟩
  · intro h148
    obtain ⟨e, he⟩ := Option.ne_none_iff_exists'.mp h148
    have h := marshal_stops_at_bool
      (fun l => (l.BMS, l.OBC, l.Debug, l.MotorTemp, l.Inverter2, l.Inverter4, l.Speed1,
        l.Speed2, l.WiperStatus, l.TorqueNm)) line fields
      (preserves_upTo147 _ fields (fun l1 l2 _ h2 h3 h4 h5 h6 h7 h8 h9 h10 h11 => by
        simp only [h2, h3, h4, h5, h6, h7, h8, h9, h10, h11]))
      (fun s => by simp [stmtsBool, run, assignLenient, he]) hlen ht hl hok
    simpa using h
  · intro h148 h149
    obtain ⟨e, he⟩ := Option.ne_none_iff_exists'.mp h149
    have h := marshal_stops_at_bool
      (fun l => (l.OBC, l.Debug, l.MotorTemp, l.Inverter2, l.Inverter4, l.Speed1,
        l.Speed2, l.WiperStatus, l.TorqueNm)) line fields
      (preserves_upTo147 _ fields (fun l1 l2 _ _ h3 h4 h5 h6 h7 h8 h9 h10 h11 => by
        simp only [h3, h4, h5, h6, h7, h8, h9, h10, h11]))
      (fun s => by simp [stmtsBool, run, assignLenient, h148, he]) hlen ht hl hok
    simpa using h
  · intro h148 h149 h150
    obtain ⟨e, he⟩ := Option.ne_none_iff_exists'.mp h150
    have h := marshal_stops_at_bool
      (fun l => (l.Debug, l.MotorTemp, l.Inverter2, l.Inverter4, l.Speed1,
        l.Speed2, l.WiperStatus, l.TorqueNm)) line fields
      (preserves_upTo147 _ fields (fun l1 l2 _ _ _ h4 h5 h6 h7 h8 h9 h10 h11 => by
        simp only [h4, h5, h6, h7, h8, h9, h10, h11]))
      (fun s => by simp [stmtsBool, run, assignLenient, h148, h149, he]) hlen ht hl hok
    simpa using h

/-- Witness for C20: the sample row with the `PowerSW` token (field 148) set to
`maybe` and an invalid motor temperature (field 152), decoded into a used record,
returns nil and leaves the `Debug` text and the motor temperature of the record. -/
theorem marshal_bad_bool_frame_witness :
    (Marshal sampleLib reusedLine
      (withField (withField sampleRow 148 "maybe") 152 "hot")).2 = none ∧
    (Marshal sampleLib reusedLine
      (withField (withField sampleRow 148 "maybe") 152 "hot")).1.MotorTemp = -10 ∧
    reusedLine.MotorTemp = -10 := by
  have h := (marshal_bad_bool_frame sampleLib reusedLine
    (withField (withField sampleRow 148 "maybe") 152 "hot") (by decide) (by decide)
    (by decide) (by decide)).1 (by decide)
  refine ⟨h.1, ?_, by decide⟩
  rw [h.2.2.2.2.1]
  decide

/-! ### The temperature conversions -/

/-- C17: the conversions `CtoF(c) = c × 9/5 + 32` and `FtoC(f) = (f − 32) × 5/9` are
mutual inverses, exactly over the rationals and hence within the tolerance `EPS`, and
-40 is a fixed point of both. -/
theorem CtoF_FtoC_inverse (x : ℚ) :
    CtoF (FtoC x) = x ∧ FtoC (CtoF x) = x ∧
    |CtoF (FtoC x) - x| ≤ EPS ∧ |FtoC (CtoF x) - x| ≤ EPS ∧
    CtoF (-40) = -40 ∧ FtoC (-40) = -40 := by
  have h1 : CtoF (FtoC x) = x := by
    unfold CtoF FtoC
    ring
  have h2 : FtoC (CtoF x) = x := by
    unfold CtoF FtoC
    ring
  refine ⟨h1, h2, ?_, ?_, ?_, ?_⟩
  · rw [h1]
    norm_num [EPS]
  · rw [h2]
    norm_num [EPS]
  · norm_num [CtoF]
  · norm_num [FtoC]

/-- C18: for every pair (input, expected) of the tables of `Test_CtoF` and
`Test_FtoC`, the conversion of the input differs from the expected value by at most
`EPS = 1e-5`, in fact by at most 4e-6; in particular `CtoF` maps -273.15, 0 and 100
to -459.67, 32 and 212, and `FtoC` maps 32, 212 and -40 to 0, 100 and -40. -/
theorem conversion_tests_pass :
    (∀ p ∈ testsCtoF, |CtoF p.1 - p.2| ≤ EPS ∧ |CtoF p.1 - p.2| ≤ 4 / 1000000) ∧
    (∀ p ∈ testsFtoC, |FtoC p.1 - p.2| ≤ EPS ∧ |FtoC p.1 - p.2| ≤ 4 / 1000000) ∧
    CtoF (-273.15) = -459.67 ∧ CtoF 0 = 32 ∧ CtoF 100 = 212 ∧
    FtoC 32 = 0 ∧ FtoC 212 = 100 ∧ FtoC (-40) = -40 := by
  refine ⟨?_, ?_, ?_, ?_, ?_, ?_, ?_, ?_⟩
  · intro p hp
    simp only [testsCtoF, List.mem_cons, List.mem_singleton, List.not_mem_nil, or_false] at hp
    rcases hp with rfl | rfl | rfl | rfl | rfl | rfl <;>
      constructor <;> norm_num [CtoF, EPS, abs_le]
  · intro p hp
    simp only [testsFtoC, List.mem_cons, List.mem_singleton, List.not_mem_nil, or_false] at hp
    rcases hp with rfl | rfl | rfl | rfl | rfl | rfl <;>
      constructor <;> norm_num [FtoC, EPS, abs_le]
  all_goals norm_num [CtoF, FtoC]

end LeafSpy
